import Mathlib

/-!
# nvm_logger: log-structured flash storage

A shallow embedding of `src/codebase/peripheral_modules/nvm_logger.c`.

* Machine integers are natural numbers; every place where the C code can wrap
  (`uint32_t`, `uint8_t`) carries an explicit remainder.
* The address space is a map from byte addresses to bytes.
* The static variables of the module (`no_avail_pages`, `LOGS`, `avail_pages`)
  and the flash device form the explicit state `State`.
* `p_empty_page` is 4096 bytes of `0xFF` (its contents once
  `nvm_logger_mod_init` has run), so `memcmp (p, p_empty_page, n) == 0` is
  "the `n` bytes at `p` are all `0xFF`".
* A remainder or quotient by zero is undefined in C. In recovery
  (`get_next_loc`, `prepare_log_metadata`, `nvm_logger_mod_init`) it is the
  outcome `div_zero`; elsewhere it is given no meaning: every theorem that
  evaluates one assumes the divisor positive.
* The arrays `LOGS` and `page_addrs` are maps from indices to values. A store
  at an index that is not below the size of the array is undefined in C. In
  recovery, where the indices are read from flash, it is the outcome
  `out_of_bounds`; elsewhere the theorems assume the indices below the sizes.
-/

namespace NvmLogger

/-! ## Constants of nvm_logger.c -/

def WORD_SIZE : Nat := 4

def BYTES_PER_PAGE : Nat := 4080

def MEMORY_AVAIL : Nat := 0

/-- Size of `page_metadata_t` (packed): 1 + 1 + 2 + 4 + 4 bytes. -/
def SIZEOF_PAGE_METADATA : Nat := 12

/-- Size in bytes of one flash page (`sizeof(p_empty_page)`, 1024 words). -/
def FLASH_PAGE_SIZE : Nat := 4096

/-- Truncation to `uint32_t`. -/
def u32 (x : Nat) : Nat := x % 4294967296

/-- Truncation to `uint8_t`. -/
def u8 (x : Nat) : Nat := x % 256

/-- Truncation to `uint16_t`. -/
def u16 (x : Nat) : Nat := x % 65536

/-- Subtraction of `uint32_t` values: `a - b` wraps around below zero. -/
def u32sub (a b : Nat) : Nat := (u32 a + 4294967296 - u32 b) % 4294967296

/-- Constants of `nvm_logger.h`, which is not among the sources: they are
parameters of the development. -/
structure Params where
  NVM_LOGGER_MAX_LOGS : Nat
  NVM_LOGGER_MAX_PAGES : Nat
  NVM_LOG_MAX_PAGES : Nat
  NVM_LOGGER_PAGE_OFFSETS : Nat
  NVM_LOGGER_PAGE_METADATA_ADDR : Nat
  NVM_LOG_PAGE0 : Nat

/-- Modelled from the spec: the macro `CEIL_DIV` of `common_util.h` (not among
the sources), "entry size (in storage words)" being the byte size divided by
the word size, rounded up. -/
def CEIL_DIV (a b : Nat) : Nat := (a + b - 1) / b

/-! ## The flash device -/

abbrev Byte := Fin 256

/-- Contents of the address space: byte address to byte. -/
abbrev Flash := Nat → Byte

/-- A buffer in RAM handed to the module: offset to byte. -/
abbrev Buffer := Nat → Byte

/-- Calls made to the non-volatile memory controller driver. -/
inductive HalCall where
  | erase (addr : Nat)
  | write (addr : Nat) (len : Nat)
  deriving DecidableEq, Repr

/-- The flash device: its contents and the driver calls issued so far. -/
structure Nvmc where
  mem : Flash
  calls : List HalCall

/-- Bitwise and of two bytes. -/
def Byte.and (x y : Byte) : Byte :=
  ⟨x.val &&& y.val, lt_of_le_of_lt Nat.and_le_left x.isLt⟩

/-- Modelled from the spec: `hal_nvmc_write_data` of `hal_nvmc.c` (not among the
sources), "`write(address, buffer, length)` — writes assumed to only clear bits
(flash semantics: pre-erased region reads as all-ones, writes may only flip
1→0)": every byte of the target range becomes the bitwise and of its old value
and the source byte. -/
def hal_nvmc_write_data (d : Nvmc) (addr : Nat) (src : Buffer) (len : Nat) : Nvmc :=
  { mem := fun a => if addr ≤ a ∧ a < addr + len then Byte.and (d.mem a) (src (a - addr))
                    else d.mem a
    calls := d.calls ++ [HalCall.write addr len] }

/-- Modelled from the spec: `hal_nvmc_erase_page` of `hal_nvmc.c` (not among the
sources), "`erase_page(address)`" after which the "pre-erased region reads as
all-ones": the flash page of `FLASH_PAGE_SIZE` bytes that contains the address
reads `0xFF`. -/
def hal_nvmc_erase_page (d : Nvmc) (page_addr : Nat) : Nvmc :=
  { mem := fun a => if a / FLASH_PAGE_SIZE = page_addr / FLASH_PAGE_SIZE then 0xFF else d.mem a
    calls := d.calls ++ [HalCall.erase page_addr] }

/-- The test `memcmp (addr, p_empty_page, n) == 0`. -/
def memcmp_empty (fl : Flash) (addr n : Nat) : Bool :=
  (List.range n).all (fun i => fl (addr + i) == 0xFF)

/-- The bytes `memcpy (dest, src, n)` puts into `dest`. -/
def memcpy_read (fl : Flash) (src n : Nat) : List Byte :=
  (List.range n).map (fun i => fl (src + i))

/-! ## Module state -/

/-- Metadata of one log (`log_metadata_t`). -/
structure log_metadata_t where
  entry_size : Nat
  page_addrs : Nat → Nat
  no_pages : Nat
  current_page : Nat
  current_loc : Nat
  last_entry_no : Nat
  current_entry_no : Nat
  total_entries : Nat
  size_bytes : Nat

/-- The constant `EMPTY_LOG_METADATA`: every member zero. -/
def EMPTY_LOG_METADATA : log_metadata_t :=
  { entry_size := 0, page_addrs := fun _ => 0, no_pages := 0, current_page := 0,
    current_loc := 0, last_entry_no := 0, current_entry_no := 0, total_entries := 0,
    size_bytes := 0 }

/-- The test `memcmp (&LOGS[i], &EMPTY_LOG_METADATA, sizeof(log_metadata_t)) == 0`. -/
def is_empty_log (P : Params) (L : log_metadata_t) : Bool :=
  L.entry_size == 0 && (List.range P.NVM_LOGGER_MAX_PAGES).all (fun i => L.page_addrs i == 0)
    && L.no_pages == 0 && L.current_page == 0 && L.current_loc == 0 && L.last_entry_no == 0
    && L.current_entry_no == 0 && L.total_entries == 0 && L.size_bytes == 0

/-- The configuration handed to `nvm_logger_log_init` (`log_config_t`). -/
structure log_config_t where
  log_id : Nat
  entry_size : Nat
  start_page : Nat
  no_of_pages : Nat

/-- The static variables of the module together with the flash device. -/
structure State where
  no_avail_pages : Nat
  LOGS : Nat → log_metadata_t
  avail_pages : Nat → Bool
  nvm : Nvmc

/-- Address of record slot `loc` of the page at `base`:
`(uint32_t *) base + entry_size * loc`. -/
def slot_addr (base entry_size loc : Nat) : Nat :=
  u32 (base + WORD_SIZE * u32 (entry_size * loc))

/-! ## get_total_entries -/

/-- Inner loop of `get_total_entries`: the slots of one page. -/
def get_total_entries_page (L : log_metadata_t) (fl : Flash) (page_no : Nat) (total : Nat) : Nat :=
  (List.range L.last_entry_no).foldl
    (fun t loc =>
      if memcmp_empty fl (slot_addr (L.page_addrs page_no) L.entry_size loc)
          (4 * L.entry_size) then t
      else u32 (t + 1))
    total

def get_total_entries (s : State) (log_id : Nat) : State :=
  let L := s.LOGS log_id
  let total := (List.range L.no_pages).foldl
    (fun t page_no => get_total_entries_page L s.nvm.mem page_no t) L.total_entries
  { s with LOGS := Function.update s.LOGS log_id { L with total_entries := total } }

/-! ## empty_page, prepare_page_metadata, update_log -/

/-- Byte `i` of the little-endian representation of `x`. -/
def le_byte (x i : Nat) : Byte := ⟨(x / 256 ^ i) % 256, Nat.mod_lt _ (by decide)⟩

def empty_page (P : Params) (d : Nvmc) (page_loc : Nat) : Nvmc :=
  let page_metadata_loc := u32 (page_loc + P.NVM_LOGGER_PAGE_METADATA_ADDR)
  let page_metadata_buffer : Buffer := fun i => d.mem (page_metadata_loc + i)
  let d1 := hal_nvmc_erase_page d page_loc
  let buffer : Buffer := fun i =>
    if 4 ≤ i ∧ i < 8 then le_byte MEMORY_AVAIL (i - 4) else page_metadata_buffer i
  hal_nvmc_write_data d1 page_metadata_loc buffer SIZEOF_PAGE_METADATA

/-- The record `local_page_metadata` built by `prepare_page_metadata` for page
`page_no` of log `log_id`, as the 12 bytes of the packed structure. -/
def page_metadata_bytes (L : log_metadata_t) (log_id page_no : Nat) : Buffer := fun i =>
  if i = 0 then le_byte (u8 log_id) 0
  else if i = 1 then le_byte (u8 page_no) 0
  else if i < 4 then le_byte (u16 L.size_bytes) (i - 2)
  else if i < 8 then le_byte MEMORY_AVAIL (i - 4)
  else le_byte (L.page_addrs ((page_no + 1) % L.no_pages)) (i - 8)

def prepare_page_metadata (P : Params) (s : State) (log_id : Nat) : State :=
  let L := s.LOGS log_id
  let d := (List.range L.no_pages).foldl
    (fun d page_no =>
      hal_nvmc_write_data d (u32 (L.page_addrs page_no + P.NVM_LOGGER_PAGE_METADATA_ADDR))
        (page_metadata_bytes L log_id page_no) SIZEOF_PAGE_METADATA)
    s.nvm
  { s with nvm := d }

/-- The loop over `page_no` of `update_log`, which fills `page_addrs`. Its
counter is declared without an initial value in the source; `page_no` is the
value it starts with. -/
def update_log_pages (P : Params) (cfg : log_config_t) :
    Nat → Nat → (Nat → Nat) → (Nat → Nat)
  | 0, _, addrs => addrs
  | fuel + 1, page_no, addrs =>
    update_log_pages P cfg fuel (page_no + 1)
      (Function.update addrs page_no
        (u32sub cfg.start_page (u32 (page_no * P.NVM_LOGGER_PAGE_OFFSETS))))

/-- The metadata `update_log` stores in the empty slot it has found. The source
divides `BYTES_PER_PAGE` by `entry_size * WORD_SIZE`; when the record size gives
an `entry_size` of 0 (the sizes 0 and 1021 to 1024 among them) this is a
division by zero, undefined in C, and the value of `last_entry_no` here has no
meaning. The page loop stores into `page_addrs[page_no]` for `page_no` below
`no_of_pages`, and `page_addrs` has `NVM_LOGGER_MAX_PAGES` elements. The
theorems about a new log assume that `entry_size` is not zero and that
`no_of_pages` is at most `NVM_LOGGER_MAX_PAGES`. -/
def new_log_metadata (P : Params) (old : log_metadata_t) (cfg : log_config_t)
    (page_no_init : Nat) : log_metadata_t :=
  let entry_size := u8 (CEIL_DIV cfg.entry_size 4)
  { old with
    current_loc := cfg.start_page
    current_page := 0
    size_bytes := cfg.entry_size
    entry_size := entry_size
    no_pages := u8 cfg.no_of_pages
    page_addrs :=
      update_log_pages P cfg (cfg.no_of_pages - page_no_init) page_no_init old.page_addrs
    last_entry_no := BYTES_PER_PAGE / (entry_size * WORD_SIZE) }

/-- The `while` loop of `update_log`; the first argument is the number of
iterations left before `cnt` reaches `NVM_LOGGER_MAX_LOGS`. -/
def update_log_loop (P : Params) (page_no_init : Nat) :
    Nat → State → log_config_t → State × log_config_t
  | 0, s, cfg => (s, cfg)
  | fuel + 1, s, cfg =>
    if is_empty_log P (s.LOGS cfg.log_id) then
      let L := new_log_metadata P (s.LOGS cfg.log_id) cfg page_no_init
      ({ s with LOGS := Function.update s.LOGS cfg.log_id L }, cfg)
    else
      update_log_loop P page_no_init fuel s
        { cfg with log_id := u32 (cfg.log_id + 1) % P.NVM_LOGGER_MAX_LOGS }

def update_log (P : Params) (s : State) (cfg : log_config_t) (page_no_init : Nat) :
    State × Nat :=
  let r := update_log_loop P page_no_init P.NVM_LOGGER_MAX_LOGS s cfg
  (prepare_page_metadata P r.1 r.2.log_id, r.2.log_id)

/-! ## nvm_logger_log_init -/

/-- The configuration equals the one of the log stored at its id: the test of
the second branch of `nvm_logger_log_init`. -/
def config_matches (s : State) (cfg : log_config_t) : Prop :=
  (s.LOGS cfg.log_id).size_bytes = cfg.entry_size ∧
  (s.LOGS cfg.log_id).no_pages = cfg.no_of_pages ∧
  (s.LOGS cfg.log_id).page_addrs 0 = cfg.start_page

instance (s : State) (cfg : log_config_t) : Decidable (config_matches s cfg) := by
  unfold config_matches
  infer_instance

def nvm_logger_log_init (P : Params) (s : State) (cfg : log_config_t) (page_no_init : Nat) :
    State × Nat :=
  if s.no_avail_pages = 0 then
    (s, P.NVM_LOGGER_MAX_LOGS)
  else if config_matches s cfg then
    (get_total_entries s cfg.log_id, cfg.log_id)
  else if s.no_avail_pages ≥ cfg.no_of_pages then
    update_log P { s with no_avail_pages := u32sub s.no_avail_pages cfg.no_of_pages } cfg
      page_no_init
  else
    (s, P.NVM_LOGGER_MAX_LOGS)

/-! ## nvm_logger_feed_data -/

/-- The log metadata after the three updates that follow the write in
`nvm_logger_feed_data`. -/
def feed_advance (L : log_metadata_t) : log_metadata_t :=
  { L with
    current_entry_no := u32 (L.current_entry_no + 1)
    current_loc := u32 (L.current_loc + L.entry_size * WORD_SIZE)
    total_entries := u32 (L.total_entries + 1) }

/-- The call of `nvm_logger_feed_data` goes on to the page change: the test
`current_entry_no < last_entry_no` made after the increment fails. -/
def feed_rotates (s : State) (log_id : Nat) : Bool :=
  !decide ((feed_advance (s.LOGS log_id)).current_entry_no < (s.LOGS log_id).last_entry_no)

def nvm_logger_feed_data (P : Params) (s : State) (log_id : Nat) (data : Buffer) : State :=
  let L := s.LOGS log_id
  let d1 := hal_nvmc_write_data s.nvm L.current_loc data L.size_bytes
  let L1 := feed_advance L
  if L1.current_entry_no < L1.last_entry_no then
    { s with LOGS := Function.update s.LOGS log_id L1, nvm := d1 }
  else
    let current_page := u8 ((L1.current_page + 1) % L1.no_pages)
    let dest := L1.page_addrs current_page
    if memcmp_empty d1.mem dest BYTES_PER_PAGE then
      let L2 : log_metadata_t :=
        { L1 with current_page := current_page, current_loc := dest, current_entry_no := 0 }
      { s with LOGS := Function.update s.LOGS log_id L2, nvm := d1 }
    else
      let L2 : log_metadata_t :=
        { L1 with
          current_page := current_page
          total_entries := u32sub L1.total_entries L1.last_entry_no
          current_loc := dest
          current_entry_no := 0 }
      { s with LOGS := Function.update s.LOGS log_id L2, nvm := empty_page P d1 dest }

/-! ## nvm_logger_fetch_tail_data -/

/-- The `while` loop of `nvm_logger_fetch_tail_data`: it leaves `p_src` at the
first page, from page `loc` on, whose first slot is not blank. The first
argument bounds the number of iterations; `none` is "no result within the
bound". -/
def fetch_scan (L : log_metadata_t) (fl : Flash) : Nat → Nat → Option Nat
  | 0, _ => none
  | fuel + 1, loc =>
    if memcmp_empty fl (L.page_addrs loc) (L.entry_size * WORD_SIZE) then
      fetch_scan L fl fuel (u32 (loc + 1) % L.no_pages)
    else some (L.page_addrs loc)

/-- Page index computed in the second branch of `nvm_logger_fetch_tail_data`;
`entry_no` is the value after `current_entry_no` has been subtracted. -/
def fetch_entry_page (L : log_metadata_t) (entry_no : Nat) : Nat :=
  u32 (L.current_page + L.no_pages - 1 +
    u32 ((entry_no / L.last_entry_no) * (if L.current_loc % 1000 = 0 then 1 else 0)))
    % L.no_pages

/-- Slot index computed in the second branch of `nvm_logger_fetch_tail_data`. -/
def fetch_entry_slot (L : log_metadata_t) (entry_page entry_no : Nat) : Nat :=
  u32sub
    (u32 ((u32 (u32sub L.current_page entry_page + L.no_pages) % L.no_pages) * L.last_entry_no))
    (u32 (entry_no * 1))

/-- The address `p_src` that `nvm_logger_fetch_tail_data` copies from. -/
def fetch_src (s : State) (log_id entry_no fuel : Nat) : Option Nat :=
  let L := s.LOGS log_id
  if entry_no ≥ L.total_entries then
    fetch_scan L s.nvm.mem fuel
      ((L.current_page + (if L.total_entries ≠ L.current_entry_no then 1 else 0)) % L.no_pages)
  else if entry_no ≥ L.current_entry_no then
    let entry_no1 := entry_no - L.current_entry_no
    let entry_page := fetch_entry_page L entry_no1
    let entry_no2 := fetch_entry_slot L entry_page entry_no1
    some (slot_addr (L.page_addrs entry_page) L.entry_size entry_no2)
  else
    some (u32sub L.current_loc (WORD_SIZE * u32 (L.entry_size * entry_no)))

/-- The bytes `nvm_logger_fetch_tail_data` copies into `dest_loc`. The last
argument bounds the iterations of its `while` loop. -/
def nvm_logger_fetch_tail_data (s : State) (log_id entry_no fuel : Nat) : Option (List Byte) :=
  (fetch_src s log_id entry_no fuel).map
    (fun p_src => memcpy_read s.nvm.mem p_src (s.LOGS log_id).size_bytes)

def is_erase : HalCall → Bool
  | HalCall.erase _ => true
  | HalCall.write _ _ => false

def erase_count (d : Nvmc) : Nat := (d.calls.filter is_erase).length

def feed_seq (P : Params) (s : State) (log_id : Nat) (recs : Nat → Buffer) : Nat → State
  | 0 => s
  | k + 1 => nvm_logger_feed_data P (feed_seq P s log_id recs k) log_id (recs k)

def rotations (P : Params) (s : State) (log_id : Nat) (recs : Nat → Buffer) : Nat → Nat
  | 0 => 0
  | k + 1 => rotations P s log_id recs k +
      (if feed_rotates (feed_seq P s log_id recs k) log_id then 1 else 0)

/-- The page the cursor of a log moves to at a page change. -/
def next_page (L : log_metadata_t) : Nat := (L.current_page + 1) % L.no_pages

/-- The flash device right after `nvm_logger_feed_data` has written the record. -/
def feed_written (s : State) (log_id : Nat) (data : Buffer) : Nvmc :=
  hal_nvmc_write_data s.nvm (s.LOGS log_id).current_loc data (s.LOGS log_id).size_bytes

/-- Number of record slots of a log whose contents are not all `0xFF`. -/
def nonblank_slots (L : log_metadata_t) (fl : Flash) : Nat :=
  ((List.range L.no_pages).map (fun page_no =>
    ((List.range L.last_entry_no).filter (fun loc =>
      !memcmp_empty fl (slot_addr (L.page_addrs page_no) L.entry_size loc)
        (4 * L.entry_size))).length)).sum

/-! ## Ring of pages: a fresh log and the records it holds -/

/-- Width in bytes of one record slot: `entry_size * WORD_SIZE`. -/
def slot_bytes (L : log_metadata_t) : Nat := L.entry_size * WORD_SIZE

/-- Log `log_id` is as `update_log` and `prepare_page_metadata` leave a new log
of 1 to 1020 byte records: its pages are distinct flash pages whose data regions
are blank, its cursor is at the start of page 0, and the page metadata lies
behind the data region inside the page. -/
structure FreshLog (P : Params) (s : State) (log_id : Nat) : Prop where
  size_pos : 1 ≤ (s.LOGS log_id).size_bytes
  size_le : (s.LOGS log_id).size_bytes ≤ 1020
  entry_size_eq : (s.LOGS log_id).entry_size = u8 (CEIL_DIV (s.LOGS log_id).size_bytes 4)
  last_eq : (s.LOGS log_id).last_entry_no =
    BYTES_PER_PAGE / ((s.LOGS log_id).entry_size * WORD_SIZE)
  pages_pos : 1 ≤ (s.LOGS log_id).no_pages
  pages_le : (s.LOGS log_id).no_pages ≤ 255
  page_aligned : ∀ p, p < (s.LOGS log_id).no_pages →
    (s.LOGS log_id).page_addrs p % FLASH_PAGE_SIZE = 0
  page_bound : ∀ p, p < (s.LOGS log_id).no_pages →
    (s.LOGS log_id).page_addrs p + FLASH_PAGE_SIZE ≤ 4294967296
  page_inj : ∀ p q, p < (s.LOGS log_id).no_pages → q < (s.LOGS log_id).no_pages →
    (s.LOGS log_id).page_addrs p = (s.LOGS log_id).page_addrs q → p = q
  current_page_eq : (s.LOGS log_id).current_page = 0
  current_entry_no_eq : (s.LOGS log_id).current_entry_no = 0
  total_entries_eq : (s.LOGS log_id).total_entries = 0
  current_loc_eq : (s.LOGS log_id).current_loc = (s.LOGS log_id).page_addrs 0
  blank : ∀ p x, p < (s.LOGS log_id).no_pages → x < BYTES_PER_PAGE →
    s.nvm.mem ((s.LOGS log_id).page_addrs p + x) = 0xFF
  meta_lo : BYTES_PER_PAGE ≤ P.NVM_LOGGER_PAGE_METADATA_ADDR
  meta_hi : P.NVM_LOGGER_PAGE_METADATA_ADDR + SIZEOF_PAGE_METADATA ≤ FLASH_PAGE_SIZE

/-- The facts about the layout of a log that the ring argument uses. -/
structure Geometry (P : Params) (L0 : log_metadata_t) : Prop where
  size_pos : 1 ≤ L0.size_bytes
  size_le : L0.size_bytes ≤ slot_bytes L0
  last_pos : 1 ≤ L0.last_entry_no
  last_fit : L0.last_entry_no * slot_bytes L0 ≤ BYTES_PER_PAGE
  pages_pos : 1 ≤ L0.no_pages
  pages_le : L0.no_pages ≤ 255
  page_aligned : ∀ p, p < L0.no_pages → L0.page_addrs p % FLASH_PAGE_SIZE = 0
  page_bound : ∀ p, p < L0.no_pages → L0.page_addrs p + FLASH_PAGE_SIZE ≤ 4294967296
  page_inj : ∀ p q, p < L0.no_pages → q < L0.no_pages →
    L0.page_addrs p = L0.page_addrs q → p = q
  meta_lo : BYTES_PER_PAGE ≤ P.NVM_LOGGER_PAGE_METADATA_ADDR
  meta_hi : P.NVM_LOGGER_PAGE_METADATA_ADDR + SIZEOF_PAGE_METADATA ≤ FLASH_PAGE_SIZE

/-- Record number `g * last_entry_no + j` (slot `j` of the `g`-th page filled)
is held by the log when the cursor is at slot `e` of the `r`-th page filled: it
was written, and its page has not been rotated onto since. -/
def held (L0 : log_metadata_t) (r e g j : Nat) : Prop :=
  j < L0.last_entry_no ∧ r < g + L0.no_pages ∧ (g < r ∨ (g = r ∧ j < e))

/-- The flash contents of a log whose cursor is at slot `e` of the `r`-th page
filled: every record held reads back at its slot, and every other byte of the
data regions is `0xFF`. -/
structure RingMem (L0 : log_metadata_t) (recs : Nat → Buffer) (mem : Flash) (r e : Nat) :
    Prop where
  stored : ∀ g j b, held L0 r e g j → b < L0.size_bytes →
    mem (L0.page_addrs (g % L0.no_pages) + (j * slot_bytes L0 + b)) =
      recs (g * L0.last_entry_no + j) b
  blank : ∀ p x, p < L0.no_pages → x < BYTES_PER_PAGE →
    (∀ g j, held L0 r e g j → g % L0.no_pages = p →
      ¬ (j * slot_bytes L0 ≤ x ∧ x < j * slot_bytes L0 + L0.size_bytes)) →
    mem (L0.page_addrs p + x) = 0xFF

/-- The metadata of a log whose layout is that of `L0` and whose cursor is at
slot `e` of the `r`-th page filled. -/
structure RingCur (L0 L : log_metadata_t) (r e : Nat) : Prop where
  entry_size_eq : L.entry_size = L0.entry_size
  page_addrs_eq : L.page_addrs = L0.page_addrs
  no_pages_eq : L.no_pages = L0.no_pages
  last_entry_no_eq : L.last_entry_no = L0.last_entry_no
  size_bytes_eq : L.size_bytes = L0.size_bytes
  entry_lt : e < L0.last_entry_no
  current_page_eq : L.current_page = r % L0.no_pages
  current_entry_no_eq : L.current_entry_no = e
  current_loc_eq : L.current_loc = L0.page_addrs (r % L0.no_pages) + e * slot_bytes L0
  total_entries_eq : L.total_entries = min r (L0.no_pages - 1) * L0.last_entry_no + e

/-- Every record has a byte other than `0xFF` among its first `size` bytes. -/
def records_not_blank (recs : Nat → Buffer) (size : Nat) : Prop :=
  ∀ i, ∃ b, b < size ∧ recs i b ≠ 0xFF

/-- The first `n` bytes of a record. -/
def record_bytes (d : Buffer) (n : Nat) : List Byte := (List.range n).map d

/-- Number of the oldest record a log of `no_pages` pages still holds after `k`
records were fed to it: the cursor is on the page filled `k / last_entry_no`-th,
and the pages kept are the `no_pages - 1` pages filled before it (each erased
again only when the cursor returns to it) and the cursor page itself. -/
def oldest_index (L0 : log_metadata_t) (k : Nat) : Nat :=
  (k / L0.last_entry_no + 1 - L0.no_pages) * L0.last_entry_no

/-- Address of the slot that record number `i` of a log is written to. -/
def record_addr (L0 : log_metadata_t) (i : Nat) : Nat :=
  L0.page_addrs ((i / L0.last_entry_no) % L0.no_pages) + (i % L0.last_entry_no) * slot_bytes L0

/-! ## A concrete configuration

Two logs at most, flash pages of 4096 bytes from `0x27000` downwards, page
metadata at offset 4080; log 0 has two pages of four records of 1020 bytes. -/

def demo_params : Params :=
  { NVM_LOGGER_MAX_LOGS := 2
    NVM_LOGGER_MAX_PAGES := 4
    NVM_LOG_MAX_PAGES := 4
    NVM_LOGGER_PAGE_OFFSETS := 4096
    NVM_LOGGER_PAGE_METADATA_ADDR := 4080
    NVM_LOG_PAGE0 := 159744 }

def demo_page_addrs : Nat → Nat := fun p => if p = 0 then 159744 else if p = 1 then 155648 else 0

/-- A new log of two pages for records of 1020 bytes. -/
def demo_log : log_metadata_t :=
  { entry_size := 255
    page_addrs := demo_page_addrs
    no_pages := 2
    current_page := 0
    current_loc := 159744
    last_entry_no := 4
    current_entry_no := 0
    total_entries := 0
    size_bytes := 1020 }

/-- The configuration `demo_log` was created from. -/
def demo_config : log_config_t :=
  { log_id := 0, entry_size := 1020, start_page := 159744, no_of_pages := 2 }

/-- The log `demo_log` in slot 0, two pages free, blank flash. -/
def demo_state : State :=
  { no_avail_pages := 2
    LOGS := fun i => if i = 0 then demo_log else EMPTY_LOG_METADATA
    avail_pages := fun p => decide (2 ≤ p)
    nvm := { mem := fun _ => 0xFF, calls := [] } }

/-- Record number `i` consists of bytes of value `(i + 1) % 255`. -/
def demo_records : Nat → Buffer := fun i _ => ⟨(i + 1) % 255, by omega⟩

/-- A record whose bytes are all `0xFF`. -/
def blank_record : Buffer := fun _ => 0xFF

/-- A second log, of one page for records of 16 bytes. -/
def demo_other_log : log_metadata_t :=
  { entry_size := 4
    page_addrs := fun p => if p = 0 then 151552 else 0
    no_pages := 1
    current_page := 0
    current_loc := 151552
    last_entry_no := 255
    current_entry_no := 0
    total_entries := 0
    size_bytes := 16 }

/-- A second log, of two pages for records of 16 bytes. -/
def demo_wide_log : log_metadata_t :=
  { entry_size := 4
    page_addrs := fun p => if p = 0 then 151552 else if p = 1 then 147456 else 0
    no_pages := 2
    current_page := 0
    current_loc := 151552
    last_entry_no := 255
    current_entry_no := 0
    total_entries := 0
    size_bytes := 16 }

/-- Both directory slots occupied, by logs of two pages each: no page free. -/
def demo_exhausted_state : State :=
  { no_avail_pages := 0
    LOGS := fun i => if i = 0 then demo_log else demo_wide_log
    avail_pages := fun p => decide (4 ≤ p)
    nvm := { mem := fun _ => 0xFF, calls := [] } }

/-- Both directory slots occupied, one page free. -/
def demo_full_state : State :=
  { no_avail_pages := 1
    LOGS := fun i => if i = 0 then demo_log else demo_other_log
    avail_pages := fun p => decide (3 ≤ p)
    nvm := { mem := fun _ => 0xFF, calls := [] } }

/-- A configuration that is not the one of the log in slot 0. -/
def demo_new_config : log_config_t :=
  { log_id := 0, entry_size := 8, start_page := 147456, no_of_pages := 1 }

/-- The concrete configuration after its first record has been fed. -/
def demo_one_record_state : State :=
  nvm_logger_feed_data demo_params demo_state 0 (demo_records 0)
/-! ## get_next_loc, prepare_log_metadata, nvm_logger_mod_init -/

/-- How a run of code that has undefined behaviour or can loop ends. In
`get_next_loc` and in recovery a remainder or quotient by zero is the outcome
`div_zero`, an index read from flash that is not below the size of the array it
indexes is `out_of_bounds`, and a loop that has not ended within the given
number of iterations is `unfinished`. -/
inductive Outcome (α : Type) where
  | done (a : α)
  | div_zero
  | out_of_bounds
  | unfinished

/-- The `while` loop of `get_next_loc`. The arguments are the iterations
allowed, the metadata of the log and the locals `page_no`, `p_mem_loc` and
`current_page_entry_no`; the result is the metadata with the cursor found and
the value returned. -/
def get_next_loc_loop (fl : Flash) :
    Nat → log_metadata_t → Nat → Nat → Nat → Outcome (log_metadata_t × Nat)
  | 0, _, _, _, _ => Outcome.unfinished
  | fuel + 1, L, page_no, p_mem_loc, current_page_entry_no =>
    if memcmp_empty fl p_mem_loc (4 * L.entry_size) then
      let L1 : log_metadata_t :=
        { L with
          current_loc := p_mem_loc
          current_page := u8 page_no
          current_entry_no := current_page_entry_no }
      if current_page_entry_no ≥ L1.last_entry_no then
        if L1.no_pages = 0 then Outcome.div_zero
        else Outcome.done (L1, L1.page_addrs (u32 (page_no + 1) % L1.no_pages))
      else Outcome.done (L1, p_mem_loc)
    else
      let p_mem_loc1 := u32 (p_mem_loc + WORD_SIZE * L.entry_size)
      let current_page_entry_no1 := u32 (current_page_entry_no + 1)
      if current_page_entry_no1 ≥ L.last_entry_no then
        if L.no_pages = 0 then Outcome.div_zero
        else
          get_next_loc_loop fl fuel L (u32 (page_no + 1) % L.no_pages)
            (L.page_addrs (u32 (page_no + 1) % L.no_pages)) 0
      else get_next_loc_loop fl fuel L page_no p_mem_loc1 current_page_entry_no1

def get_next_loc (s : State) (log_id fuel : Nat) : Outcome (State × Nat) :=
  match get_next_loc_loop s.nvm.mem fuel (s.LOGS log_id) 0 ((s.LOGS log_id).page_addrs 0) 0 with
  | Outcome.done (L, p_mem_loc) =>
    Outcome.done ({ s with LOGS := Function.update s.LOGS log_id L }, p_mem_loc)
  | Outcome.div_zero => Outcome.div_zero
  | Outcome.out_of_bounds => Outcome.out_of_bounds
  | Outcome.unfinished => Outcome.unfinished

/-- The member `log_id` of the page metadata record at `p_mem_loc`. -/
def metadata_log_id (fl : Flash) (p_mem_loc : Nat) : Nat := (fl p_mem_loc).val

/-- The member `log_page_no` of the page metadata record at `p_mem_loc`. -/
def metadata_log_page_no (fl : Flash) (p_mem_loc : Nat) : Nat := (fl (p_mem_loc + 1)).val

/-- The member `data_size` of the page metadata record at `p_mem_loc`
(little-endian, 16 bits). -/
def metadata_data_size (fl : Flash) (p_mem_loc : Nat) : Nat :=
  (fl (p_mem_loc + 2)).val + 256 * (fl (p_mem_loc + 3)).val

/-- The log metadata `prepare_log_metadata` leaves in `LOGS[log_id]` for the page
whose metadata record lies at `p_mem_loc`. `prepare_log_metadata` uses it only
for a record whose `log_page_no` is below `NVM_LOGGER_MAX_PAGES`, the size of
`page_addrs`, and whose record size gives an entry size that is not zero. -/
def recovered_log_metadata (P : Params) (old : log_metadata_t) (fl : Flash) (p_mem_loc : Nat) :
    log_metadata_t :=
  let entry_size := u8 (CEIL_DIV (metadata_data_size fl p_mem_loc) 4)
  { old with
    size_bytes := metadata_data_size fl p_mem_loc
    entry_size := entry_size
    page_addrs := Function.update old.page_addrs (metadata_log_page_no fl p_mem_loc)
      (u32sub p_mem_loc P.NVM_LOGGER_PAGE_METADATA_ADDR)
    no_pages := u8 (old.no_pages + 1)
    current_loc := 0
    current_page := 0
    last_entry_no := BYTES_PER_PAGE / (entry_size * 4) }

/-- The constant `EMPTY_PAGE_METADATA` has every byte `0xFF`, so the test
`memcmp (local_ptr, &EMPTY_PAGE_METADATA, sizeof(page_metadata_t)) == 0` is
`memcmp_empty` over the 12 bytes of the record. `LOGS` has
`NVM_LOGGER_MAX_LOGS` elements and `page_addrs` has `NVM_LOGGER_MAX_PAGES`: a
record whose `log_id` or `log_page_no` is not below that makes the function
store outside the array, which is the outcome `out_of_bounds`. -/
def prepare_log_metadata (P : Params) (s : State) (p_mem_loc page_no : Nat) : Outcome State :=
  if memcmp_empty s.nvm.mem p_mem_loc SIZEOF_PAGE_METADATA then Outcome.done s
  else if P.NVM_LOGGER_MAX_LOGS ≤ metadata_log_id s.nvm.mem p_mem_loc ∨
      P.NVM_LOGGER_MAX_PAGES ≤ metadata_log_page_no s.nvm.mem p_mem_loc then
    Outcome.out_of_bounds
  else if u8 (CEIL_DIV (metadata_data_size s.nvm.mem p_mem_loc) 4) * 4 = 0 then Outcome.div_zero
  else
    let log_id := metadata_log_id s.nvm.mem p_mem_loc
    Outcome.done
      { s with
        LOGS := Function.update s.LOGS log_id
          (recovered_log_metadata P (s.LOGS log_id) s.nvm.mem p_mem_loc)
        avail_pages := Function.update s.avail_pages page_no false
        no_avail_pages := u32sub s.no_avail_pages 1 }

/-- The first loop of `nvm_logger_mod_init`, over the physical pages; the first
argument is the number of pages left, the others are `page_no` and
`p_mem_loc`. -/
def mod_init_pages (P : Params) : Nat → Nat → Nat → State → Outcome State
  | 0, _, _, s => Outcome.done s
  | n + 1, page_no, p_mem_loc, s =>
    match prepare_log_metadata P
        { s with avail_pages := Function.update s.avail_pages page_no true } p_mem_loc page_no with
    | Outcome.done s1 =>
      mod_init_pages P n (page_no + 1)
        (u32sub p_mem_loc (WORD_SIZE * (P.NVM_LOGGER_PAGE_OFFSETS / WORD_SIZE))) s1
    | Outcome.div_zero => Outcome.div_zero
    | Outcome.out_of_bounds => Outcome.out_of_bounds
    | Outcome.unfinished => Outcome.unfinished

/-- The second loop of `nvm_logger_mod_init`, over the directory slots; `fuel`
bounds the iterations of each call of `get_next_loc`. -/
def mod_init_cursors (fuel : Nat) : Nat → Nat → State → Outcome State
  | 0, _, s => Outcome.done s
  | n + 1, log_no, s =>
    match get_next_loc s log_no fuel with
    | Outcome.done r => mod_init_cursors fuel n (log_no + 1) r.1
    | Outcome.div_zero => Outcome.div_zero
    | Outcome.out_of_bounds => Outcome.out_of_bounds
    | Outcome.unfinished => Outcome.unfinished

def nvm_logger_mod_init (P : Params) (s : State) (fuel : Nat) : Outcome State :=
  match mod_init_pages P P.NVM_LOG_MAX_PAGES 0
      (u32 (P.NVM_LOG_PAGE0 + P.NVM_LOGGER_PAGE_METADATA_ADDR))
      { s with no_avail_pages := P.NVM_LOGGER_MAX_PAGES } with
  | Outcome.done s1 => mod_init_cursors fuel P.NVM_LOGGER_MAX_LOGS 0 s1
  | Outcome.div_zero => Outcome.div_zero
  | Outcome.out_of_bounds => Outcome.out_of_bounds
  | Outcome.unfinished => Outcome.unfinished

/-! ## nvm_logger_empty_log, nvm_logger_release_log -/

def nvm_logger_empty_log (P : Params) (s : State) (log_id : Nat) : State :=
  let L := s.LOGS log_id
  let d := (List.range L.no_pages).foldl
    (fun d page_no => empty_page P d (L.page_addrs page_no)) s.nvm
  { s with
    nvm := d
    LOGS := Function.update s.LOGS log_id
      { L with current_entry_no := 0, current_page := 0, current_loc := L.page_addrs 0 } }

/-- The loop of `nvm_logger_release_log`; the first argument is the number of
iterations left, the second is `page_no`. -/
def release_log_pages (L : log_metadata_t) : Nat → Nat → Nvmc → Nvmc
  | 0, _, d => d
  | n + 1, page_no, d =>
    release_log_pages L n (page_no + 1) (hal_nvmc_erase_page d (L.page_addrs page_no))

/-- The counter `page_no` of the loop is declared without an initial value in
the source; `page_no_init` is the value it starts with. -/
def nvm_logger_release_log (s : State) (log_id page_no_init : Nat) : State :=
  let L := s.LOGS log_id
  { s with nvm := release_log_pages L (L.no_pages - page_no_init) page_no_init s.nvm }

/-! ## The cursor scan -/

/-- Address of record slot `j` of page `p` as the loop of `get_next_loc` reaches
it: the page base, advanced `j` times by `entry_size` words. -/
def scan_addr (L : log_metadata_t) (p : Nat) : Nat → Nat
  | 0 => L.page_addrs p
  | j + 1 => u32 (scan_addr L p j + WORD_SIZE * L.entry_size)

/-- The metadata `get_next_loc` leaves when it finds slot `j` of page `p`
blank. -/
def with_cursor (L : log_metadata_t) (p j : Nat) : log_metadata_t :=
  { L with current_loc := scan_addr L p j, current_page := u8 p, current_entry_no := j }

/-- Slot `j0` of page `p0` is the first blank record slot of the log, in the
order of pages and of slots within a page. -/
structure FirstBlank (L : log_metadata_t) (fl : Flash) (p0 j0 : Nat) : Prop where
  page_lt : p0 < L.no_pages
  slot_lt : j0 < L.last_entry_no
  pages_lt : L.no_pages < 256
  last_lt : L.last_entry_no < 4294967296
  blank : memcmp_empty fl (scan_addr L p0 j0) (4 * L.entry_size) = true
  before : ∀ p j, p < L.no_pages → j < L.last_entry_no →
    p * L.last_entry_no + j < p0 * L.last_entry_no + j0 →
    memcmp_empty fl (scan_addr L p j) (4 * L.entry_size) = false

/-- The run has ended with a result. -/
def Outcome.is_done {α : Type} : Outcome α → Bool
  | Outcome.done _ => true
  | Outcome.div_zero => false
  | Outcome.out_of_bounds => false
  | Outcome.unfinished => false

/-- The result of a run that has ended with one, and `d` otherwise. -/
def Outcome.result {α : Type} (o : Outcome α) (d : α) : α :=
  match o with
  | Outcome.done a => a
  | Outcome.div_zero => d
  | Outcome.out_of_bounds => d
  | Outcome.unfinished => d

/-- The pages loop of `nvm_logger_mod_init` from its first page on. -/
def mod_init_scan (P : Params) (s : State) : Outcome State :=
  mod_init_pages P P.NVM_LOG_MAX_PAGES 0
    (u32 (P.NVM_LOG_PAGE0 + P.NVM_LOGGER_PAGE_METADATA_ADDR))
    { s with no_avail_pages := P.NVM_LOGGER_MAX_PAGES }

/-! ## A concrete flash to recover from

The flash as `prepare_page_metadata` leaves it for two logs of one page each,
for records of 1020 bytes: log 0 on the page at `0x27000`, log 1 on the page at
`0x26000`; the two pages below them are erased. -/

/-- A log of one page at `base` for records of 1020 bytes. -/
def boot_log (base : Nat) : log_metadata_t :=
  { entry_size := 255
    page_addrs := fun p => if p = 0 then base else 0
    no_pages := 1
    current_page := 0
    current_loc := base
    last_entry_no := 4
    current_entry_no := 0
    total_entries := 0
    size_bytes := 1020 }

def boot_flash : Flash := fun a =>
  if 163824 ≤ a ∧ a < 163836 then page_metadata_bytes (boot_log 159744) 0 0 (a - 163824)
  else if 159728 ≤ a ∧ a < 159740 then page_metadata_bytes (boot_log 155648) 1 0 (a - 159728)
  else 0xFF

/-- The module before `nvm_logger_mod_init` has run: the directory is all
zero. -/
def reset_state (fl : Flash) : State :=
  { no_avail_pages := 4
    LOGS := fun _ => EMPTY_LOG_METADATA
    avail_pages := fun _ => false
    nvm := { mem := fl, calls := [] } }

/-- The concrete flash with the data region of the page of log 0 full of
records of bytes `0x01`. -/
def full_flash : Flash := fun a =>
  if 159744 ≤ a ∧ a < 159744 + 4080 then 1 else boot_flash a

/-- The module state after the pages loop of `nvm_logger_mod_init` has gone over
the concrete flash. -/
def boot_scanned : State :=
  (mod_init_scan demo_params (reset_state boot_flash)).result (reset_state boot_flash)

/-- The module state after the pages loop of `nvm_logger_mod_init` has gone over
the concrete flash whose first page is full. -/
def full_scanned : State :=
  (mod_init_scan demo_params (reset_state full_flash)).result (reset_state full_flash)

/-- The module state after the pages loop of `nvm_logger_mod_init` has gone over
an erased flash. -/
def blank_scanned : State :=
  (mod_init_scan demo_params (reset_state (fun _ => 0xFF))).result (reset_state (fun _ => 0xFF))

/-- The module state after `nvm_logger_mod_init` has recovered the two logs of
the concrete flash: the pages loop has rebuilt the directory and the cursor of
each log is on the first slot of its page. -/
def boot_state : State :=
  { boot_scanned with
    LOGS := fun i => if i < 2 then with_cursor (boot_scanned.LOGS i) 0 0 else boot_scanned.LOGS i }

/-- The module state after the pages loop of a second `nvm_logger_mod_init`. -/
def boot_rescanned : State := (mod_init_scan demo_params boot_state).result boot_state

/-! ## The pages loop of recovery -/

/-- Address of the metadata record of physical page `k`, as the pages loop of
`nvm_logger_mod_init` reaches it. -/
def meta_addr (P : Params) : Nat → Nat
  | 0 => u32 (P.NVM_LOG_PAGE0 + P.NVM_LOGGER_PAGE_METADATA_ADDR)
  | k + 1 => u32sub (meta_addr P k) (WORD_SIZE * (P.NVM_LOGGER_PAGE_OFFSETS / WORD_SIZE))

/-- The metadata record of physical page `k` equals `EMPTY_PAGE_METADATA`. -/
def page_erased (P : Params) (fl : Flash) (k : Nat) : Bool :=
  memcmp_empty fl (meta_addr P k) SIZEOF_PAGE_METADATA

/-- The log id in the metadata record of physical page `k`. -/
def page_log_id (P : Params) (fl : Flash) (k : Nat) : Nat := metadata_log_id fl (meta_addr P k)

/-- The page number in the metadata record of physical page `k`. -/
def page_log_page_no (P : Params) (fl : Flash) (k : Nat) : Nat :=
  metadata_log_page_no fl (meta_addr P k)

/-- The record size in the metadata record of physical page `k`. -/
def page_data_size (P : Params) (fl : Flash) (k : Nat) : Nat :=
  metadata_data_size fl (meta_addr P k)

/-- The base address recovery computes for physical page `k`. -/
def page_base (P : Params) (k : Nat) : Nat :=
  u32sub (meta_addr P k) P.NVM_LOGGER_PAGE_METADATA_ADDR

/-- Number of pages among `k, ..., k + n - 1` whose metadata record is not
erased. -/
def used_pages (P : Params) (fl : Flash) (k n : Nat) : Nat :=
  ((List.range' k n).filter (fun p => !page_erased P fl p)).length

/-- Number of pages among `k, ..., k + n - 1` whose metadata record is not
erased and names log `id`. -/
def pages_of_log (P : Params) (fl : Flash) (id k n : Nat) : Nat :=
  ((List.range' k n).filter
    (fun p => !page_erased P fl p && decide (page_log_id P fl p = id))).length

/-- Number of pages among the first `n` that are marked free. -/
def free_pages (s : State) (n : Nat) : Nat := ((List.range' 0 n).filter s.avail_pages).length

/-- The concrete flash with the record size in the metadata of log 0 set to 1028
bytes, which is 257 words. -/
def wide_flash : Flash := fun a =>
  if 163824 ≤ a ∧ a < 163836 then
    page_metadata_bytes { boot_log 159744 with size_bytes := 1028 } 0 0 (a - 163824)
  else if 159728 ≤ a ∧ a < 159740 then page_metadata_bytes (boot_log 155648) 1 0 (a - 159728)
  else 0xFF

/-- The module state after the pages loop of `nvm_logger_mod_init` has gone over
`wide_flash`. -/
def wide_scanned : State :=
  (mod_init_scan demo_params (reset_state wide_flash)).result (reset_state wide_flash)

/-- The concrete flash with the metadata record of the page at `0x27000` written
in part: the log id 0 and the record size 16 are written, the page number, the
availability flag and the next-page address still read `0xFF`. -/
def partial_flash : Flash := fun a =>
  if a = 163824 then 0
  else if a = 163826 then 16
  else if a = 163827 then 0
  else if 159728 ≤ a ∧ a < 159740 then page_metadata_bytes (boot_log 155648) 1 0 (a - 159728)
  else 0xFF

/-- A configuration for records of 1028 bytes, which is 257 words, on one
page; its id is the one of the log in slot 0. -/
def demo_wide_config : log_config_t :=
  { log_id := 0, entry_size := 1028, start_page := 151552, no_of_pages := 1 }

/-- A configuration that asks for no page at all. -/
def demo_no_page_config : log_config_t :=
  { log_id := 1, entry_size := 16, start_page := 151552, no_of_pages := 0 }

/-! ## The cursor of a log -/

/-- The cursor of a log is on a record slot of its current page, the pages lie
in the 32-bit address space, and a record fits into a slot. The base of the
current page is the entry `page_addrs[current_page]` or, for a log that has
not left the page it was created on, the address `start_page` its cursor was
set to by `update_log`. -/
structure CursorOk (start_page : Nat) (L : log_metadata_t) : Prop where
  entry_pos : 1 ≤ L.entry_size
  entry_le : L.entry_size ≤ 255
  size_le : L.size_bytes ≤ L.entry_size * 4
  last_eq : L.last_entry_no = BYTES_PER_PAGE / (L.entry_size * WORD_SIZE)
  pages_pos : 1 ≤ L.no_pages
  pages_le : L.no_pages ≤ 255
  page_bound : ∀ p, p < L.no_pages → L.page_addrs p + BYTES_PER_PAGE ≤ 4294967296
  start_bound : start_page + BYTES_PER_PAGE ≤ 4294967296
  page_lt : L.current_page < L.no_pages
  entry_lt : L.current_entry_no < L.last_entry_no
  loc_eq : L.current_loc =
      L.page_addrs L.current_page + L.current_entry_no * L.entry_size * 4
    ∨ (L.current_page = 0
        ∧ L.current_loc = start_page + L.current_entry_no * L.entry_size * 4)

/-- A call of `nvm_logger_feed_data` or of `nvm_logger_empty_log`. -/
inductive LogCall where
  | feed (log_id : Nat) (data : Buffer)
  | empty (log_id : Nat)

def apply_call (P : Params) (s : State) : LogCall → State
  | LogCall.feed log_id data => nvm_logger_feed_data P s log_id data
  | LogCall.empty log_id => nvm_logger_empty_log P s log_id

/-- The state after a sequence of calls. -/
def run_calls (P : Params) (s : State) (calls : List LogCall) : State :=
  calls.foldl (apply_call P) s

/-- The metadata of the log that `nvm_logger_log_init` has returned the id of,
after a sequence of calls; `page_no_init` is the value the counter of the page
loop of `update_log` starts with. -/
def log_after (P : Params) (s : State) (cfg : log_config_t) (page_no_init : Nat)
    (calls : List LogCall) : log_metadata_t :=
  (run_calls P (nvm_logger_log_init P s cfg page_no_init).1 calls).LOGS
    (nvm_logger_log_init P s cfg page_no_init).2

end NvmLogger

/-!
# sensebe_rx_detect: detection policy

A shallow embedding of `src/application/sensebe_rx/sensebe_rx_detect.c`.

* The static variables of the file, those local to `window_trigger` included,
  form the state `State`.
* Calls into other modules (`led_ui`, `tssp_detect`, `ms_timer`, `cam_trigger`)
  are recorded, in order, in `State.calls`.
* What a call reads from another module (`out_gen_is_on`,
  `ms_timer_get_current_count`) is an argument of the function that reads it.
-/

namespace SensebeRxDetect

/-- Truncation to `uint32_t`. -/
def u32 (x : Nat) : Nat := x % 4294967296

/-- Subtraction of `uint32_t` values: `a - b` wraps around below zero. -/
def u32sub (a b : Nat) : Nat := (u32 a + 4294967296 - u32 b) % 4294967296

/-- The macro `MS_TIMER_TICKS_MS` of `ms_timer.h`, which is not among the
sources: a parameter of the development. -/
structure Params where
  MS_TIMER_TICKS_MS : Nat → Nat

def SINGLE_SHOT_DURATION (P : Params) : Nat := P.MS_TIMER_TICKS_MS 250

def DETECT_FEEDBACK_TIMEOUT_TICKS (P : Params) : Nat := P.MS_TIMER_TICKS_MS 600000

def INTER_TRIG_TIME (P : Params) : Nat := P.MS_TIMER_TICKS_MS 750

/-- The functions of the file handed to `ms_timer_start` as callbacks. -/
inductive Handler where
  | timer_1s
  | timer_200ms
  deriving DecidableEq, Repr

/-- Calls into other modules. `ms_timer_start` is always called for
`MS_TIMER_USED` in mode `MS_SINGLE_CALL`, `led_ui_single_start` always with
`LED_SEQ_PIR_PULSE`, `LED_UI_HIGH_PRIORITY` and `true`. -/
inductive Call where
  | led_ui_single_start
  | tssp_detect_stop
  | tssp_detect_pulse_detect
  | tssp_detect_window_detect
  | ms_timer_start (ticks : Nat) (handler : Handler)
  | ms_timer_stop
  | cam_trigger (setup : Nat)
  deriving DecidableEq, Repr

/-- The static variables of the file and the calls made so far. `trig_count`,
`current_tick` and `previous_tick` are the static locals of `window_trigger`. -/
structure State where
  detect_feedback_flag : Bool
  detect_time_pass : Nat
  total_operation_time : Nat
  trig_count : Nat
  current_tick : Nat
  previous_tick : Nat
  calls : List Call

/-- The static variables with their initialisers. -/
def init_state (P : Params) : State :=
  { detect_feedback_flag := true
    detect_time_pass := 0
    total_operation_time := u32 (INTER_TRIG_TIME P + SINGLE_SHOT_DURATION P + 10)
    trig_count := 0
    current_tick := 0
    previous_tick := 0
    calls := [] }

def timer_200ms (P : Params) (s : State) : State :=
  { s with
    calls := s.calls ++
      [Call.tssp_detect_stop, Call.ms_timer_start (P.MS_TIMER_TICKS_MS 1000) Handler.timer_1s] }

def timer_1s (P : Params) (s : State) : State :=
  { s with
    calls := s.calls ++
      [Call.tssp_detect_pulse_detect,
       Call.ms_timer_start (P.MS_TIMER_TICKS_MS 200) Handler.timer_200ms] }

/-- The branch of `window_trigger` taken when feedback mode is off: the count
of consecutive misses. -/
def count_miss (P : Params) (s : State) (ms_timer_current_count : Nat) : State :=
  let current_tick := u32 ms_timer_current_count
  let trig_count :=
    if u32sub current_tick s.previous_tick ≤ s.total_operation_time then u32 (s.trig_count + 1)
    else 0
  if trig_count ≥ 3 then
    { s with
      trig_count := 0
      current_tick := current_tick
      previous_tick := current_tick
      calls := s.calls ++
        [Call.tssp_detect_stop,
         Call.ms_timer_start (P.MS_TIMER_TICKS_MS 1000) Handler.timer_1s] }
  else
    { s with trig_count := trig_count, current_tick := current_tick
             previous_tick := current_tick }

/-- The arguments are what `out_gen_is_on ()` and
`ms_timer_get_current_count ()` return during the call. -/
def window_trigger (P : Params) (s : State) (out_gen_is_on : Bool)
    (ms_timer_current_count : Nat) : State :=
  if out_gen_is_on = false then
    let s1 :=
      if s.detect_feedback_flag = true then
        { s with calls := s.calls ++ [Call.led_ui_single_start] }
      else count_miss P s ms_timer_current_count
    { s1 with calls := s1.calls ++ [Call.cam_trigger 0] }
  else s

def sync_start (s : State) : State :=
  { s with
    detect_feedback_flag := true
    detect_time_pass := 0
    calls := s.calls ++ [Call.ms_timer_stop, Call.tssp_detect_window_detect] }

def sensebe_rx_detect_add_ticks (P : Params) (s : State) (interval : Nat) : State :=
  if s.detect_feedback_flag = true then
    let detect_time_pass := u32 (s.detect_time_pass + interval)
    if detect_time_pass ≥ DETECT_FEEDBACK_TIMEOUT_TICKS P then
      { s with detect_feedback_flag := false, detect_time_pass := 0 }
    else { s with detect_time_pass := detect_time_pass }
  else s

/-- The call of `window_trigger` starts the re-lock sequence: it calls
`tssp_detect_stop` and starts the single-shot timer of 1000 ms with
`timer_1s`. -/
def starts_relock (P : Params) (s : State) (out_gen_is_on : Bool)
    (ms_timer_current_count : Nat) : Prop :=
  (window_trigger P s out_gen_is_on ms_timer_current_count).calls =
    s.calls ++
      [Call.tssp_detect_stop, Call.ms_timer_start (P.MS_TIMER_TICKS_MS 1000) Handler.timer_1s,
       Call.cam_trigger 0]

/-- The call of `window_trigger` only triggers the camera. -/
def only_triggers (P : Params) (s : State) (out_gen_is_on : Bool)
    (ms_timer_current_count : Nat) : Prop :=
  (window_trigger P s out_gen_is_on ms_timer_current_count).calls =
    s.calls ++ [Call.cam_trigger 0]

/-! ## A concrete configuration: one timer tick per millisecond -/

def demo_params : Params := { MS_TIMER_TICKS_MS := fun ms => ms }

/-- Feedback mode has run out: 600000 ticks have passed since start. -/
def demo_strict : State := sensebe_rx_detect_add_ticks demo_params (init_state demo_params) 600000

/-- Two misses, at ticks 100 and 200, counted once feedback mode has run out. -/
def demo_two_misses : State :=
  window_trigger demo_params (window_trigger demo_params demo_strict false 100) false 200

/-- A detection after the two misses, and feedback mode run out again. -/
def demo_after_detection : State :=
  sensebe_rx_detect_add_ticks demo_params (sync_start demo_two_misses) 600000

end SensebeRxDetect

/-!
# tssp_detect: pulse and window detector

A shallow embedding of `src/codebase/peripheral_modules/tssp_detect.c`.

* The static variables of the file and the register
  `NRF_GPIOTE->CONFIG[GPIOTE_CHANNEL_USED]`, which the code only assigns, form
  the state `State`; the register is kept by its fields `MODE`, `POLARITY` and
  `PSEL`.
* Every other write to a peripheral register, every call of the GPIO driver
  and of the interrupt controller, and every call of a registered handler is
  recorded, in program order, in `State.ops`. What the peripherals do with
  these writes is outside the source and has no counterpart here.
* What an interrupt handler reads from a peripheral (`COUNTER`,
  `EVENTS_COMPARE`) is an argument of the handler.
-/

namespace TsspDetect

def ENABLE : Nat := 1

def DISABLE : Nat := 0

def WINDOW_RTC_CHANNEL : Nat := 2

def SYNC_ON_RTC_CHANNEL : Nat := 0

def SYNC_OFF_RTC_CHANNEL : Nat := 1

/-- Truncation to `uint32_t`. -/
def u32 (x : Nat) : Nat := x % 4294967296

/-- Subtraction of `uint32_t` values: `a - b` wraps around below zero. -/
def u32sub (a b : Nat) : Nat := (u32 a + 4294967296 - u32 b) % 4294967296

/-- Macros of `tssp_detect.h` and of the build, which are not among the
sources: parameters of the development. -/
structure Params where
  TSSP_DETECT_TICKS_MS : Nat → Nat
  ISR_MANAGER : Nat

def HALF_TSSP_ENABLE_DURATION (P : Params) : Nat := P.TSSP_DETECT_TICKS_MS 2

/-- Field `MODE` of a GPIOTE channel configuration. -/
inductive GpioteMode where
  | GPIOTE_CONFIG_MODE_Disabled
  | GPIOTE_CONFIG_MODE_Event
  deriving DecidableEq, Repr

/-- Field `POLARITY` of a GPIOTE channel configuration. -/
inductive GpiotePolarity where
  | GPIOTE_CONFIG_POLARITY_None
  | GPIOTE_CONFIG_POLARITY_HiToLo
  deriving DecidableEq, Repr

/-- The register `NRF_GPIOTE->CONFIG[GPIOTE_CHANNEL_USED]`; `psel` is the pin
number put into field `PSEL`. -/
structure GpioteConfig where
  mode : GpioteMode
  polarity : GpiotePolarity
  psel : Nat
  deriving DecidableEq, Repr

/-- The two PPI channels of the module. -/
inductive PpiChannel where
  | PPI_CHANNEL_USED_RTC
  | PPI_CHANNEL_USED_EGU
  deriving DecidableEq, Repr

/-- The tasks a PPI channel of the module is connected to. -/
inductive PpiTask where
  | RTC_TASKS_CLEAR
  | EGU_TASKS_TRIGGER
  deriving DecidableEq, Repr

inductive Irq where
  | SWI0_IRQn
  | RTC0_IRQn
  deriving DecidableEq, Repr

/-- A registered handler: the function pointer, zero being `NULL`. -/
abbrev HandlerPtr := Nat

/-- Writes to peripheral registers, driver calls and handler calls. A
constructor ending in `_or` is a statement `REG |= mask`; the event end point
of both PPI channels is `NRF_GPIOTE->EVENTS_IN[GPIOTE_CHANNEL_USED]`. -/
inductive Op where
  | hal_gpio_cfg_output (pin level : Nat)
  | hal_gpio_cfg_input (pin : Nat)
  | hal_gpio_pin_write (pin level : Nat)
  | rtc_prescaler
  | rtc_cc (channel value : Nat)
  | rtc_intenset_or (mask : Nat)
  | rtc_intenclr_or (mask : Nat)
  | rtc_events_compare_clear (channel : Nat)
  | rtc_tasks_start
  | rtc_tasks_clear
  | rtc_tasks_stop
  | ppi_ch_eep (channel : PpiChannel)
  | ppi_ch_tep (channel : PpiChannel) (task : PpiTask)
  | ppi_chenset_or (channel : PpiChannel)
  | ppi_chenclr_or (channel : PpiChannel)
  | gpiote_events_in_clear
  | egu_intenset_or
  | egu_events_triggered_clear
  | nvic_set_priority (irq : Irq)
  | nvic_enable_irq (irq : Irq)
  | nvic_clear_pending_irq (irq : Irq)
  | nvic_disable_irq (irq : Irq)
  | missed_handler_call (handler : HandlerPtr)
  | detect_handler_call (handler : HandlerPtr) (ticks : Nat)
  deriving DecidableEq, Repr

/-- The members of `tssp_detect_config_t` the module reads. -/
structure tssp_detect_config_t where
  rx_en_pin : Nat
  rx_in_pin : Nat
  window_duration_ticks : Nat
  tssp_missed_handler : HandlerPtr
  tssp_detect_handler : HandlerPtr

structure State where
  tssp_en_pin : Nat
  tssp_rx_pin : Nat
  tssp_sync_ms : Nat
  is_pulse_detect_req : Bool
  is_window_detect_req : Bool
  missed_handler : HandlerPtr
  detect_handler : HandlerPtr
  gpiote_config : GpioteConfig
  ops : List Op

/-- The part of `tssp_detect_init` that depends on the missed-window handler. -/
def init_window (P : Params) (s : State) (cfg : tssp_detect_config_t) : State :=
  if cfg.tssp_missed_handler ≠ 0 then
    { s with
      is_window_detect_req := true
      missed_handler := cfg.tssp_missed_handler
      ops := s.ops ++
        [Op.rtc_prescaler,
         Op.rtc_cc WINDOW_RTC_CHANNEL (P.TSSP_DETECT_TICKS_MS cfg.window_duration_ticks),
         Op.rtc_intenset_or (ENABLE <<< (WINDOW_RTC_CHANNEL + 16)),
         Op.ppi_ch_eep PpiChannel.PPI_CHANNEL_USED_RTC,
         Op.ppi_ch_tep PpiChannel.PPI_CHANNEL_USED_RTC PpiTask.RTC_TASKS_CLEAR] }
  else { s with is_window_detect_req := false }

/-- The part of `tssp_detect_init` that depends on the detection handler. -/
def init_pulse (s : State) (cfg : tssp_detect_config_t) : State :=
  if cfg.tssp_detect_handler ≠ 0 then
    { s with
      is_pulse_detect_req := true
      detect_handler := cfg.tssp_detect_handler
      ops := s.ops ++
        [Op.egu_intenset_or,
         Op.nvic_set_priority Irq.SWI0_IRQn,
         Op.nvic_enable_irq Irq.SWI0_IRQn,
         Op.nvic_clear_pending_irq Irq.SWI0_IRQn,
         Op.ppi_ch_eep PpiChannel.PPI_CHANNEL_USED_EGU,
         Op.ppi_ch_tep PpiChannel.PPI_CHANNEL_USED_EGU PpiTask.EGU_TASKS_TRIGGER] }
  else { s with is_pulse_detect_req := false }

def tssp_detect_init (P : Params) (s : State) (cfg : tssp_detect_config_t) : State :=
  let s1 : State :=
    { s with
      tssp_en_pin := cfg.rx_en_pin
      tssp_rx_pin := cfg.rx_in_pin
      ops := s.ops ++
        [Op.hal_gpio_cfg_output cfg.rx_en_pin DISABLE, Op.hal_gpio_cfg_input cfg.rx_in_pin] }
  init_pulse (init_window P s1 cfg) cfg

/-- The channel configuration both `detect` functions write. -/
def event_config (s : State) : GpioteConfig :=
  { mode := GpioteMode.GPIOTE_CONFIG_MODE_Event
    polarity := GpiotePolarity.GPIOTE_CONFIG_POLARITY_HiToLo
    psel := s.tssp_rx_pin }

/-- The channel configuration both `stop` functions write. -/
def disabled_config (s : State) : GpioteConfig :=
  { mode := GpioteMode.GPIOTE_CONFIG_MODE_Disabled
    polarity := GpiotePolarity.GPIOTE_CONFIG_POLARITY_None
    psel := s.tssp_rx_pin }

def tssp_detect_window_detect (s : State) : State :=
  { s with
    is_window_detect_req := true
    gpiote_config := event_config s
    ops := s.ops ++
      [Op.rtc_intenset_or (ENABLE <<< (WINDOW_RTC_CHANNEL + 16)),
       Op.ppi_chenset_or PpiChannel.PPI_CHANNEL_USED_RTC,
       Op.gpiote_events_in_clear,
       Op.rtc_events_compare_clear WINDOW_RTC_CHANNEL,
       Op.rtc_tasks_start,
       Op.nvic_set_priority Irq.RTC0_IRQn,
       Op.nvic_enable_irq Irq.RTC0_IRQn] }

/-- The block both `stop` functions run when neither detection is required:
the channel is disabled and the enable pin is written `DISABLE`. -/
def disable_input (s : State) : State :=
  if s.is_pulse_detect_req = false ∧ s.is_window_detect_req = false then
    { s with
      gpiote_config := disabled_config s
      ops := s.ops ++ [Op.hal_gpio_pin_write s.tssp_en_pin DISABLE] }
  else s

def tssp_detect_pulse_stop (s : State) : State :=
  let s1 := disable_input { s with is_pulse_detect_req := false }
  { s1 with ops := s1.ops ++ [Op.ppi_chenclr_or PpiChannel.PPI_CHANNEL_USED_EGU] }

def tssp_detect_window_stop (s : State) : State :=
  let s1 := disable_input { s with is_window_detect_req := false }
  { s1 with
    ops := s1.ops ++
      [Op.rtc_intenclr_or
         (ENABLE <<< (WINDOW_RTC_CHANNEL + 16) ||| ENABLE <<< (SYNC_ON_RTC_CHANNEL + 16) |||
           ENABLE <<< (SYNC_OFF_RTC_CHANNEL + 16)),
       Op.ppi_chenclr_or PpiChannel.PPI_CHANNEL_USED_RTC,
       Op.nvic_disable_irq Irq.RTC0_IRQn,
       Op.rtc_tasks_clear,
       Op.rtc_tasks_stop] }

def tssp_detect_pulse_detect (s : State) : State :=
  { s with
    is_pulse_detect_req := true
    gpiote_config := event_config s
    ops := s.ops ++
      [Op.rtc_tasks_start,
       Op.gpiote_events_in_clear,
       Op.hal_gpio_pin_write s.tssp_en_pin ENABLE,
       Op.egu_intenset_or,
       Op.ppi_chenset_or PpiChannel.PPI_CHANNEL_USED_EGU] }

/-- The argument `rtc_counter` is what `COUNTER` reads during the call. -/
def tssp_detect_window_sync (P : Params) (s : State) (sync_ms rtc_counter : Nat) : State :=
  { s with
    tssp_sync_ms := sync_ms
    ops := s.ops ++
      [Op.rtc_cc SYNC_ON_RTC_CHANNEL
         (u32 (rtc_counter + u32sub sync_ms (HALF_TSSP_ENABLE_DURATION P))),
       Op.rtc_intenset_or (ENABLE <<< (SYNC_ON_RTC_CHANNEL + 16)),
       Op.rtc_events_compare_clear SYNC_ON_RTC_CHANNEL,
       Op.rtc_cc SYNC_OFF_RTC_CHANNEL (HALF_TSSP_ENABLE_DURATION P),
       Op.rtc_intenset_or (ENABLE <<< (SYNC_OFF_RTC_CHANNEL + 16)),
       Op.rtc_events_compare_clear SYNC_OFF_RTC_CHANNEL] }

/-- The handler of the software interrupt; `rtc_counter` is what `COUNTER`
reads during the call. -/
def SWI0_IRQHandler (P : Params) (s : State) (rtc_counter : Nat) : State :=
  { s with
    ops := s.ops ++
      (if P.ISR_MANAGER = 0 then [Op.egu_events_triggered_clear] else []) ++
      [Op.ppi_chenclr_or PpiChannel.PPI_CHANNEL_USED_EGU,
       Op.detect_handler_call s.detect_handler rtc_counter] }

/-- One of the three blocks of `RTC0_IRQHandler`: when the compare event of
`channel` reads 1, the event is cleared (if the handler is not run by the
interrupt manager) and `body` is recorded. -/
def rtc_event (P : Params) (event : Nat) (channel : Nat) (body : List Op) (s : State) : State :=
  if event = 1 then
    { s with
      ops := s.ops ++
        (if P.ISR_MANAGER = 0 then [Op.rtc_events_compare_clear channel] else []) ++ body }
  else s

/-- The handler of the RTC interrupt; the three arguments `ev_` are what
`EVENTS_COMPARE` reads for the three channels. -/
def RTC0_IRQHandler (P : Params) (s : State) (ev_sync_on ev_sync_off ev_window : Nat) : State :=
  let s1 := rtc_event P ev_sync_on SYNC_ON_RTC_CHANNEL
    [Op.hal_gpio_pin_write s.tssp_en_pin ENABLE,
     Op.rtc_cc SYNC_OFF_RTC_CHANNEL (HALF_TSSP_ENABLE_DURATION P)] s
  let s2 := rtc_event P ev_sync_off SYNC_OFF_RTC_CHANNEL
    [Op.hal_gpio_pin_write s.tssp_en_pin DISABLE,
     Op.rtc_cc SYNC_ON_RTC_CHANNEL (u32sub s.tssp_sync_ms (HALF_TSSP_ENABLE_DURATION P))] s1
  rtc_event P ev_window WINDOW_RTC_CHANNEL
    [Op.missed_handler_call s.missed_handler, Op.rtc_tasks_clear] s2

/-! ## Sequences of calls -/

/-- The four calls that arm and disarm the detector. -/
inductive Call where
  | window_detect
  | pulse_detect
  | pulse_stop
  | window_stop
  deriving DecidableEq, Repr

def step (s : State) : Call → State
  | Call.window_detect => tssp_detect_window_detect s
  | Call.pulse_detect => tssp_detect_pulse_detect s
  | Call.pulse_stop => tssp_detect_pulse_stop s
  | Call.window_stop => tssp_detect_window_stop s

/-- The state after `tssp_detect_init` and a sequence of calls. -/
def run (P : Params) (s : State) (cfg : tssp_detect_config_t) (calls : List Call) : State :=
  calls.foldl step (tssp_detect_init P s cfg)

/-- The level written by one operation to `pin` through `hal_gpio_pin_write`. -/
def written_level (pin : Nat) : Op → Option Nat
  | Op.hal_gpio_pin_write p level => if p = pin then some level else none
  | _ => none

/-- The level last written to `pin` through `hal_gpio_pin_write`. -/
def last_written (ops : List Op) (pin : Nat) : Option Nat :=
  (ops.filterMap (written_level pin)).getLast?

/-- The edge-capture input is enabled: the GPIOTE channel is in Event mode and
the enable pin of the receiver was last written `ENABLE`. -/
def input_enabled (s : State) : Prop :=
  s.gpiote_config.mode = GpioteMode.GPIOTE_CONFIG_MODE_Event ∧
    last_written s.ops s.tssp_en_pin = some ENABLE

/-- What one operation writes to the enable bit of PPI channel `ch`: a
statement on `CHENSET` sets it, a statement on `CHENCLR` clears it. -/
def chen_write (ch : PpiChannel) : Op → Option Bool
  | Op.ppi_chenset_or c => if c = ch then some true else none
  | Op.ppi_chenclr_or c => if c = ch then some false else none
  | _ => none

/-- The enable bit of PPI channel `ch` was last written through `CHENSET`: the
link of the channel has been switched on and not off since. -/
def ppi_channel_set (ops : List Op) (ch : PpiChannel) : Bool :=
  (ops.filterMap (chen_write ch)).getLast? = some true

/-- What one operation writes to the interrupt enable bit of the compare event
of the window channel: a statement on `INTENSET` or `INTENCLR` whose mask has
the bit. -/
def window_int_write : Op → Option Bool
  | Op.rtc_intenset_or mask =>
    if mask.testBit (WINDOW_RTC_CHANNEL + 16) then some true else none
  | Op.rtc_intenclr_or mask =>
    if mask.testBit (WINDOW_RTC_CHANNEL + 16) then some false else none
  | _ => none

/-- The interrupt of the window compare event was last written through
`INTENSET`. -/
def window_int_set (ops : List Op) : Bool :=
  (ops.filterMap window_int_write).getLast? = some true

/-- One of the two detections is required. -/
def detection_required (s : State) : Prop :=
  s.is_pulse_detect_req = true ∨ s.is_window_detect_req = true

/-- The detector after reset: the static variables with their initialisers, the
channel disabled, nothing written yet. -/
def reset_state : State :=
  { tssp_en_pin := 0
    tssp_rx_pin := 0
    tssp_sync_ms := 0
    is_pulse_detect_req := false
    is_window_detect_req := false
    missed_handler := 0
    detect_handler := 0
    gpiote_config :=
      { mode := GpioteMode.GPIOTE_CONFIG_MODE_Disabled
        polarity := GpiotePolarity.GPIOTE_CONFIG_POLARITY_None
        psel := 0 }
    ops := [] }

/-! ## A concrete configuration -/

def demo_params : Params := { TSSP_DETECT_TICKS_MS := fun ms => 32 * ms, ISR_MANAGER := 0 }

/-- Both handlers registered, enable pin 5, input pin 6, a window of 100 ms. -/
def demo_config : tssp_detect_config_t :=
  { rx_en_pin := 5
    rx_in_pin := 6
    window_duration_ticks := 100
    tssp_missed_handler := 1
    tssp_detect_handler := 2 }

/-- Both detections armed after reset and `tssp_detect_init`. -/
def demo_armed : State :=
  run demo_params reset_state demo_config [Call.window_detect, Call.pulse_detect]

/-- Window detection armed after reset and `tssp_detect_init`. -/
def demo_window : State := run demo_params reset_state demo_config [Call.window_detect]

/-- The operations of `tssp_detect_init` with both handlers registered followed
by `tssp_detect_window_detect`, in program order. -/
def init_window_detect_ops (P : Params) (cfg : tssp_detect_config_t) : List Op :=
  [Op.hal_gpio_cfg_output cfg.rx_en_pin DISABLE,
   Op.hal_gpio_cfg_input cfg.rx_in_pin,
   Op.rtc_prescaler,
   Op.rtc_cc WINDOW_RTC_CHANNEL (P.TSSP_DETECT_TICKS_MS cfg.window_duration_ticks),
   Op.rtc_intenset_or (ENABLE <<< (WINDOW_RTC_CHANNEL + 16)),
   Op.ppi_ch_eep PpiChannel.PPI_CHANNEL_USED_RTC,
   Op.ppi_ch_tep PpiChannel.PPI_CHANNEL_USED_RTC PpiTask.RTC_TASKS_CLEAR,
   Op.egu_intenset_or,
   Op.nvic_set_priority Irq.SWI0_IRQn,
   Op.nvic_enable_irq Irq.SWI0_IRQn,
   Op.nvic_clear_pending_irq Irq.SWI0_IRQn,
   Op.ppi_ch_eep PpiChannel.PPI_CHANNEL_USED_EGU,
   Op.ppi_ch_tep PpiChannel.PPI_CHANNEL_USED_EGU PpiTask.EGU_TASKS_TRIGGER,
   Op.rtc_intenset_or (ENABLE <<< (WINDOW_RTC_CHANNEL + 16)),
   Op.ppi_chenset_or PpiChannel.PPI_CHANNEL_USED_RTC,
   Op.gpiote_events_in_clear,
   Op.rtc_events_compare_clear WINDOW_RTC_CHANNEL,
   Op.rtc_tasks_start,
   Op.nvic_set_priority Irq.RTC0_IRQn,
   Op.nvic_enable_irq Irq.RTC0_IRQn]

end TsspDetect

namespace NvmLogger

/-! ## Theorems -/

theorem Byte.ff_and (x : Byte) : Byte.and 0xFF x = x := by
  apply Fin.ext
  show 255 &&& x.val = x.val
  rw [Nat.and_comm]
  have h : x.val &&& 255 = x.val % 256 := Nat.and_pow_two_sub_one_eq_mod x.val 8
  rw [h]
  exact Nat.mod_eq_of_lt x.isLt

theorem Byte.and_self (x : Byte) : Byte.and x x = x := by
  apply Fin.ext
  show x.val &&& x.val = x.val
  exact Nat.and_self _

theorem Byte.and_zero (x : Byte) : Byte.and x 0 = 0 := by
  apply Fin.ext
  show x.val &&& 0 = 0
  exact Nat.and_zero _

theorem memcmp_empty_iff (fl : Flash) (addr n : Nat) :
    memcmp_empty fl addr n = true ↔ ∀ i, i < n → fl (addr + i) = 0xFF := by
  simp [memcmp_empty]

theorem memcpy_read_length (fl : Flash) (src n : Nat) : (memcpy_read fl src n).length = n := by
  simp [memcpy_read]

theorem feed_eq_of_lt (P : Params) (s : State) (log_id : Nat) (data : Buffer)
    (h : (feed_advance (s.LOGS log_id)).current_entry_no < (s.LOGS log_id).last_entry_no) :
    nvm_logger_feed_data P s log_id data =
      { s with
        LOGS := Function.update s.LOGS log_id (feed_advance (s.LOGS log_id))
        nvm := hal_nvmc_write_data s.nvm (s.LOGS log_id).current_loc data
          (s.LOGS log_id).size_bytes } := by
  unfold nvm_logger_feed_data
  simp only []
  rw [if_pos (by simpa [feed_advance] using h)]

theorem feed_eq_of_blank (P : Params) (s : State) (log_id : Nat) (data : Buffer)
    (h : ¬ (feed_advance (s.LOGS log_id)).current_entry_no < (s.LOGS log_id).last_entry_no)
    (hb : memcmp_empty
      (hal_nvmc_write_data s.nvm (s.LOGS log_id).current_loc data (s.LOGS log_id).size_bytes).mem
      ((s.LOGS log_id).page_addrs
        (u8 (((s.LOGS log_id).current_page + 1) % (s.LOGS log_id).no_pages)))
      BYTES_PER_PAGE = true) :
    nvm_logger_feed_data P s log_id data =
      { s with
        LOGS := Function.update s.LOGS log_id
          { feed_advance (s.LOGS log_id) with
            current_page := u8 (((s.LOGS log_id).current_page + 1) % (s.LOGS log_id).no_pages)
            current_loc := (s.LOGS log_id).page_addrs
              (u8 (((s.LOGS log_id).current_page + 1) % (s.LOGS log_id).no_pages))
            current_entry_no := 0 }
        nvm := hal_nvmc_write_data s.nvm (s.LOGS log_id).current_loc data
          (s.LOGS log_id).size_bytes } := by
  unfold nvm_logger_feed_data
  simp only []
  rw [if_neg (by simpa [feed_advance] using h)]
  rw [if_pos (by simpa [feed_advance] using hb)]
  rfl

theorem feed_eq_of_erase (P : Params) (s : State) (log_id : Nat) (data : Buffer)
    (h : ¬ (feed_advance (s.LOGS log_id)).current_entry_no < (s.LOGS log_id).last_entry_no)
    (hb : memcmp_empty
      (hal_nvmc_write_data s.nvm (s.LOGS log_id).current_loc data (s.LOGS log_id).size_bytes).mem
      ((s.LOGS log_id).page_addrs
        (u8 (((s.LOGS log_id).current_page + 1) % (s.LOGS log_id).no_pages)))
      BYTES_PER_PAGE = false) :
    nvm_logger_feed_data P s log_id data =
      { s with
        LOGS := Function.update s.LOGS log_id
          { feed_advance (s.LOGS log_id) with
            current_page := u8 (((s.LOGS log_id).current_page + 1) % (s.LOGS log_id).no_pages)
            total_entries := u32sub (u32 ((s.LOGS log_id).total_entries + 1))
              (s.LOGS log_id).last_entry_no
            current_loc := (s.LOGS log_id).page_addrs
              (u8 (((s.LOGS log_id).current_page + 1) % (s.LOGS log_id).no_pages))
            current_entry_no := 0 }
        nvm := empty_page P
          (hal_nvmc_write_data s.nvm (s.LOGS log_id).current_loc data (s.LOGS log_id).size_bytes)
          ((s.LOGS log_id).page_addrs
            (u8 (((s.LOGS log_id).current_page + 1) % (s.LOGS log_id).no_pages))) } := by
  unfold nvm_logger_feed_data
  simp only []
  rw [if_neg (by simpa [feed_advance] using h)]
  rw [if_neg (by simpa [feed_advance] using hb)]
  rfl

/-- C1: a feed that does not fill the last slot of the current page writes
`size_bytes` bytes of the record at the old cursor (a blank slot then reads
back the record), advances `current_loc` by `entry_size * 4` and
`current_entry_no` and `total_entries` by one (as `uint32_t` values), and
leaves `current_page`, the page list, the other members, every other log and
the page bookkeeping unchanged. -/
theorem feed_data_within_page (P : Params) (s : State) (log_id : Nat) (data : Buffer)
    (hroom : (s.LOGS log_id).current_entry_no + 1 < (s.LOGS log_id).last_entry_no)
    (hrange : (s.LOGS log_id).last_entry_no < 4294967296) :
    (nvm_logger_feed_data P s log_id data).nvm =
        hal_nvmc_write_data s.nvm (s.LOGS log_id).current_loc data (s.LOGS log_id).size_bytes
    ∧ (∀ b, b < (s.LOGS log_id).size_bytes →
        s.nvm.mem ((s.LOGS log_id).current_loc + b) = 0xFF →
        (nvm_logger_feed_data P s log_id data).nvm.mem ((s.LOGS log_id).current_loc + b) = data b)
    ∧ ((nvm_logger_feed_data P s log_id data).LOGS log_id).current_loc =
        u32 ((s.LOGS log_id).current_loc + (s.LOGS log_id).entry_size * 4)
    ∧ ((s.LOGS log_id).current_loc + (s.LOGS log_id).entry_size * 4 < 4294967296 →
        ((nvm_logger_feed_data P s log_id data).LOGS log_id).current_loc =
          (s.LOGS log_id).current_loc + (s.LOGS log_id).entry_size * 4)
    ∧ ((nvm_logger_feed_data P s log_id data).LOGS log_id).current_entry_no =
        (s.LOGS log_id).current_entry_no + 1
    ∧ ((nvm_logger_feed_data P s log_id data).LOGS log_id).total_entries =
        u32 ((s.LOGS log_id).total_entries + 1)
    ∧ ((s.LOGS log_id).total_entries + 1 < 4294967296 →
        ((nvm_logger_feed_data P s log_id data).LOGS log_id).total_entries =
          (s.LOGS log_id).total_entries + 1)
    ∧ ((nvm_logger_feed_data P s log_id data).LOGS log_id).current_page =
        (s.LOGS log_id).current_page
    ∧ ((nvm_logger_feed_data P s log_id data).LOGS log_id).page_addrs =
        (s.LOGS log_id).page_addrs
    ∧ ((nvm_logger_feed_data P s log_id data).LOGS log_id).no_pages = (s.LOGS log_id).no_pages
    ∧ ((nvm_logger_feed_data P s log_id data).LOGS log_id).entry_size =
        (s.LOGS log_id).entry_size
    ∧ ((nvm_logger_feed_data P s log_id data).LOGS log_id).size_bytes =
        (s.LOGS log_id).size_bytes
    ∧ ((nvm_logger_feed_data P s log_id data).LOGS log_id).last_entry_no =
        (s.LOGS log_id).last_entry_no
    ∧ (∀ j, j ≠ log_id → (nvm_logger_feed_data P s log_id data).LOGS j = s.LOGS j)
    ∧ (nvm_logger_feed_data P s log_id data).no_avail_pages = s.no_avail_pages
    ∧ (nvm_logger_feed_data P s log_id data).avail_pages = s.avail_pages := by
  have hlt : (feed_advance (s.LOGS log_id)).current_entry_no < (s.LOGS log_id).last_entry_no := by
    simp only [feed_advance, u32]
    omega
  rw [feed_eq_of_lt P s log_id data hlt]
  refine ⟨rfl, ?_, ?_, ?_, ?_, ?_, ?_, ?_, ?_, ?_, ?_, ?_, ?_, ?_, rfl, rfl⟩
  · intro b hb hblank
    simp only [hal_nvmc_write_data]
    rw [if_pos ⟨by omega, by omega⟩, hblank]
    rw [Byte.ff_and]
    congr 1
    omega
  · simp [feed_advance, WORD_SIZE]
  · intro h
    simp only [Function.update_same, feed_advance, u32, WORD_SIZE]
    omega
  · simp only [Function.update_same, feed_advance, u32]
    omega
  · simp [feed_advance]
  · intro h
    simp only [Function.update_same, feed_advance, u32]
    omega
  · simp [feed_advance]
  · simp [feed_advance]
  · simp [feed_advance]
  · simp [feed_advance]
  · simp [feed_advance]
  · simp [feed_advance]
  · intro j hj
    simp [Function.update_noteq hj]

theorem le_byte_zero (i : Nat) : le_byte 0 i = 0 := by
  apply Fin.ext
  simp [le_byte]

theorem empty_page_calls (P : Params) (d : Nvmc) (a : Nat) :
    (empty_page P d a).calls = d.calls ++
      [HalCall.erase a,
       HalCall.write (u32 (a + P.NVM_LOGGER_PAGE_METADATA_ADDR)) SIZEOF_PAGE_METADATA] := by
  simp [empty_page, hal_nvmc_write_data, hal_nvmc_erase_page]

theorem empty_page_mem_meta (P : Params) (d : Nvmc) (a i : Nat) (hi : i < 12) :
    (empty_page P d a).mem (u32 (a + P.NVM_LOGGER_PAGE_METADATA_ADDR) + i) =
      if 4 ≤ i ∧ i < 8 then 0
      else d.mem (u32 (a + P.NVM_LOGGER_PAGE_METADATA_ADDR) + i) := by
  simp only [empty_page, hal_nvmc_write_data, hal_nvmc_erase_page, SIZEOF_PAGE_METADATA,
    MEMORY_AVAIL, le_byte_zero]
  rw [if_pos ⟨by omega, by omega⟩]
  simp only [Nat.add_sub_cancel_left]
  by_cases h48 : 4 ≤ i ∧ i < 8
  · simp only [if_pos h48]
    exact Byte.and_zero _
  · simp only [if_neg h48]
    split_ifs
    · exact Byte.ff_and _
    · exact Byte.and_self _

theorem empty_page_mem_erased (P : Params) (d : Nvmc) (a x : Nat)
    (hx : x / FLASH_PAGE_SIZE = a / FLASH_PAGE_SIZE)
    (hm : ¬ (u32 (a + P.NVM_LOGGER_PAGE_METADATA_ADDR) ≤ x ∧
      x < u32 (a + P.NVM_LOGGER_PAGE_METADATA_ADDR) + 12)) :
    (empty_page P d a).mem x = 0xFF := by
  simp only [empty_page, hal_nvmc_write_data, hal_nvmc_erase_page, SIZEOF_PAGE_METADATA]
  rw [if_neg hm, if_pos hx]

theorem empty_page_mem_other (P : Params) (d : Nvmc) (a x : Nat)
    (hx : x / FLASH_PAGE_SIZE ≠ a / FLASH_PAGE_SIZE)
    (hm : ¬ (u32 (a + P.NVM_LOGGER_PAGE_METADATA_ADDR) ≤ x ∧
      x < u32 (a + P.NVM_LOGGER_PAGE_METADATA_ADDR) + 12)) :
    (empty_page P d a).mem x = d.mem x := by
  simp only [empty_page, hal_nvmc_write_data, hal_nvmc_erase_page, SIZEOF_PAGE_METADATA]
  rw [if_neg hm, if_neg hx]

theorem erase_count_write (d : Nvmc) (a : Nat) (src : Buffer) (n : Nat) :
    erase_count (hal_nvmc_write_data d a src n) = erase_count d := by
  simp [erase_count, hal_nvmc_write_data, is_erase]

theorem erase_count_empty_page (P : Params) (d : Nvmc) (a : Nat) :
    erase_count (empty_page P d a) = erase_count d + 1 := by
  simp [erase_count, empty_page_calls, is_erase]

theorem feed_static (P : Params) (s : State) (log_id : Nat) (data : Buffer) :
    ((nvm_logger_feed_data P s log_id data).LOGS log_id).entry_size = (s.LOGS log_id).entry_size
    ∧ ((nvm_logger_feed_data P s log_id data).LOGS log_id).page_addrs =
        (s.LOGS log_id).page_addrs
    ∧ ((nvm_logger_feed_data P s log_id data).LOGS log_id).no_pages = (s.LOGS log_id).no_pages
    ∧ ((nvm_logger_feed_data P s log_id data).LOGS log_id).last_entry_no =
        (s.LOGS log_id).last_entry_no
    ∧ ((nvm_logger_feed_data P s log_id data).LOGS log_id).size_bytes =
        (s.LOGS log_id).size_bytes := by
  unfold nvm_logger_feed_data
  simp only []
  split_ifs <;> simp [feed_advance]

theorem feed_other_logs (P : Params) (s : State) (log_id : Nat) (data : Buffer) (j : Nat)
    (hj : j ≠ log_id) : (nvm_logger_feed_data P s log_id data).LOGS j = s.LOGS j := by
  unfold nvm_logger_feed_data
  simp only []
  split_ifs <;> simp [Function.update_noteq hj]

theorem feed_bookkeeping (P : Params) (s : State) (log_id : Nat) (data : Buffer) :
    (nvm_logger_feed_data P s log_id data).no_avail_pages = s.no_avail_pages
    ∧ (nvm_logger_feed_data P s log_id data).avail_pages = s.avail_pages := by
  unfold nvm_logger_feed_data
  simp only []
  split_ifs <;> simp

theorem feed_current_entry_no (P : Params) (s : State) (log_id : Nat) (data : Buffer) :
    ((nvm_logger_feed_data P s log_id data).LOGS log_id).current_entry_no =
      if feed_rotates s log_id then 0 else u32 ((s.LOGS log_id).current_entry_no + 1) := by
  unfold nvm_logger_feed_data feed_rotates
  simp only []
  split_ifs with h1 h2 h3 h4 <;> simp_all [feed_advance]

theorem feed_rotates_iff (s : State) (log_id : Nat) :
    feed_rotates s log_id = true ↔
      ¬ u32 ((s.LOGS log_id).current_entry_no + 1) < (s.LOGS log_id).last_entry_no := by
  simp [feed_rotates, feed_advance]

theorem feed_seq_static (P : Params) (s : State) (log_id : Nat) (recs : Nat → Buffer) (k : Nat) :
    ((feed_seq P s log_id recs k).LOGS log_id).entry_size = (s.LOGS log_id).entry_size
    ∧ ((feed_seq P s log_id recs k).LOGS log_id).page_addrs = (s.LOGS log_id).page_addrs
    ∧ ((feed_seq P s log_id recs k).LOGS log_id).no_pages = (s.LOGS log_id).no_pages
    ∧ ((feed_seq P s log_id recs k).LOGS log_id).last_entry_no = (s.LOGS log_id).last_entry_no
    ∧ ((feed_seq P s log_id recs k).LOGS log_id).size_bytes = (s.LOGS log_id).size_bytes := by
  induction k with
  | zero => exact ⟨rfl, rfl, rfl, rfl, rfl⟩
  | succ k ih =>
    obtain ⟨h1, h2, h3, h4, h5⟩ := ih
    obtain ⟨g1, g2, g3, g4, g5⟩ :=
      feed_static P (feed_seq P s log_id recs k) log_id (recs k)
    simp only [feed_seq]
    exact ⟨g1.trans h1, g2.trans h2, g3.trans h3, g4.trans h4, g5.trans h5⟩

theorem last_entry_no_bounds (es : Nat) (h1 : 1 ≤ es) (h2 : es ≤ 255) :
    4 ≤ BYTES_PER_PAGE / (es * WORD_SIZE) ∧ BYTES_PER_PAGE / (es * WORD_SIZE) ≤ 1020
    ∧ BYTES_PER_PAGE / (es * WORD_SIZE) * (es * WORD_SIZE) ≤ BYTES_PER_PAGE := by
  have hpos : 0 < es * WORD_SIZE := by simp only [WORD_SIZE]; omega
  refine ⟨?_, ?_, ?_⟩
  · rw [Nat.le_div_iff_mul_le hpos]
    simp only [WORD_SIZE, BYTES_PER_PAGE]
    omega
  · apply Nat.div_le_of_le_mul
    simp only [WORD_SIZE, BYTES_PER_PAGE]
    omega
  · exact Nat.div_mul_le_self _ _

theorem feed_seq_within_page (P : Params) (s : State) (log_id : Nat) (recs : Nat → Buffer)
    (hstart : (s.LOGS log_id).current_entry_no = 0)
    (hrange : (s.LOGS log_id).last_entry_no < 4294967296) (k : Nat)
    (hk : k < (s.LOGS log_id).last_entry_no) :
    ((feed_seq P s log_id recs k).LOGS log_id).current_entry_no = k
    ∧ rotations P s log_id recs k = 0 := by
  induction k with
  | zero => exact ⟨hstart, rfl⟩
  | succ k ih =>
    obtain ⟨hc, hr⟩ := ih (by omega)
    have hlast := (feed_seq_static P s log_id recs k).2.2.2.1
    have hnot : feed_rotates (feed_seq P s log_id recs k) log_id = false := by
      rw [Bool.eq_false_iff, Ne, feed_rotates_iff, hc, hlast]
      simp only [u32]
      omega
    refine ⟨?_, ?_⟩
    · simp only [feed_seq]
      rw [feed_current_entry_no, hnot, hc]
      simp only [u32]
      simp
      omega
    · simp only [rotations, hr, hnot]
      simp

theorem one_rotation (P : Params) (s : State) (log_id : Nat) (recs : Nat → Buffer)
    (hstart : (s.LOGS log_id).current_entry_no = 0)
    (hes1 : 1 ≤ (s.LOGS log_id).entry_size) (hes2 : (s.LOGS log_id).entry_size ≤ 255)
    (hlast : (s.LOGS log_id).last_entry_no =
      BYTES_PER_PAGE / ((s.LOGS log_id).entry_size * WORD_SIZE)) :
    rotations P s log_id recs ((s.LOGS log_id).last_entry_no + 1) = 1 := by
  obtain ⟨hb1, hb2, _⟩ := last_entry_no_bounds _ hes1 hes2
  rw [← hlast] at hb1 hb2
  have hrange : (s.LOGS log_id).last_entry_no < 4294967296 := by omega
  obtain ⟨E, hE⟩ : ∃ E, (s.LOGS log_id).last_entry_no = E + 1 :=
    ⟨(s.LOGS log_id).last_entry_no - 1, by omega⟩
  obtain ⟨hc, hr⟩ := feed_seq_within_page P s log_id recs hstart hrange E (by omega)
  have hl := (feed_seq_static P s log_id recs E).2.2.2.1
  have hrot : feed_rotates (feed_seq P s log_id recs E) log_id = true := by
    rw [feed_rotates_iff, hc, hl]
    simp only [u32]
    omega
  have hc2 : ((feed_seq P s log_id recs (E + 1)).LOGS log_id).current_entry_no = 0 := by
    simp only [feed_seq]
    rw [feed_current_entry_no, hrot]
    simp
  have hl2 := (feed_seq_static P s log_id recs (E + 1)).2.2.2.1
  have hnot : feed_rotates (feed_seq P s log_id recs (E + 1)) log_id = false := by
    rw [Bool.eq_false_iff, Ne, feed_rotates_iff, hc2, hl2]
    simp only [u32]
    omega
  rw [hE]
  simp only [rotations, hr, hrot, hnot]
  simp

/-- C6: the call of `nvm_logger_feed_data` that fills the last slot of the
current page goes through the page change once: `current_page` becomes
`(current_page + 1) % no_pages`, `current_entry_no` becomes 0 and `current_loc`
the base address of that page. If the first 4080 bytes of the destination page
read `0xFF` at that moment, the flash is only written with the record, no page
is erased and `total_entries` is the incremented count. Otherwise the page is
erased once, its metadata is written back with bytes 4 to 7 (the availability
flag) set to `MEMORY_AVAIL` and all other bytes (owner id, page number, record
size, next-page address) as before the erase, and `total_entries` is the
incremented count minus `last_entry_no` (as `uint32_t` values). Hence
`last_entry_no + 1` records fed to a new log go through exactly one page
change. -/
theorem feed_data_page_change (P : Params) (s : State) (log_id : Nat) (data : Buffer)
    (hpages : 0 < (s.LOGS log_id).no_pages)
    (hu8 : (s.LOGS log_id).no_pages < 256)
    (hrange : (s.LOGS log_id).last_entry_no < 4294967296)
    (hfill : (s.LOGS log_id).current_entry_no + 1 = (s.LOGS log_id).last_entry_no)
    (s0 : State) (recs : Nat → Buffer)
    (hstart : (s0.LOGS log_id).current_entry_no = 0)
    (hes1 : 1 ≤ (s0.LOGS log_id).entry_size) (hes2 : (s0.LOGS log_id).entry_size ≤ 255)
    (hlast : (s0.LOGS log_id).last_entry_no =
      BYTES_PER_PAGE / ((s0.LOGS log_id).entry_size * WORD_SIZE)) :
    feed_rotates s log_id = true
    ∧ ((nvm_logger_feed_data P s log_id data).LOGS log_id).current_page =
        next_page (s.LOGS log_id)
    ∧ ((nvm_logger_feed_data P s log_id data).LOGS log_id).current_entry_no = 0
    ∧ ((nvm_logger_feed_data P s log_id data).LOGS log_id).current_loc =
        (s.LOGS log_id).page_addrs (next_page (s.LOGS log_id))
    ∧ (memcmp_empty (feed_written s log_id data).mem
          ((s.LOGS log_id).page_addrs (next_page (s.LOGS log_id))) BYTES_PER_PAGE = true →
        (nvm_logger_feed_data P s log_id data).nvm = feed_written s log_id data
        ∧ erase_count (nvm_logger_feed_data P s log_id data).nvm = erase_count s.nvm
        ∧ ((nvm_logger_feed_data P s log_id data).LOGS log_id).total_entries =
            u32 ((s.LOGS log_id).total_entries + 1))
    ∧ (memcmp_empty (feed_written s log_id data).mem
          ((s.LOGS log_id).page_addrs (next_page (s.LOGS log_id))) BYTES_PER_PAGE = false →
        (nvm_logger_feed_data P s log_id data).nvm.calls =
          s.nvm.calls ++
            [HalCall.write (s.LOGS log_id).current_loc (s.LOGS log_id).size_bytes,
             HalCall.erase ((s.LOGS log_id).page_addrs (next_page (s.LOGS log_id))),
             HalCall.write
               (u32 ((s.LOGS log_id).page_addrs (next_page (s.LOGS log_id)) +
                 P.NVM_LOGGER_PAGE_METADATA_ADDR)) SIZEOF_PAGE_METADATA]
        ∧ erase_count (nvm_logger_feed_data P s log_id data).nvm = erase_count s.nvm + 1
        ∧ (∀ i, i < 12 →
            (nvm_logger_feed_data P s log_id data).nvm.mem
              (u32 ((s.LOGS log_id).page_addrs (next_page (s.LOGS log_id)) +
                P.NVM_LOGGER_PAGE_METADATA_ADDR) + i) =
              if 4 ≤ i ∧ i < 8 then le_byte MEMORY_AVAIL (i - 4)
              else (feed_written s log_id data).mem
                (u32 ((s.LOGS log_id).page_addrs (next_page (s.LOGS log_id)) +
                  P.NVM_LOGGER_PAGE_METADATA_ADDR) + i))
        ∧ ((nvm_logger_feed_data P s log_id data).LOGS log_id).total_entries =
            u32sub (u32 ((s.LOGS log_id).total_entries + 1)) (s.LOGS log_id).last_entry_no)
    ∧ rotations P s0 log_id recs ((s0.LOGS log_id).last_entry_no + 1) = 1 := by
  have hrot : ¬ (feed_advance (s.LOGS log_id)).current_entry_no <
      (s.LOGS log_id).last_entry_no := by
    simp only [feed_advance, u32]
    omega
  have hnp : u8 (((s.LOGS log_id).current_page + 1) % (s.LOGS log_id).no_pages) =
      next_page (s.LOGS log_id) := by
    have := Nat.mod_lt ((s.LOGS log_id).current_page + 1) hpages
    simp only [u8, next_page]
    omega
  refine ⟨?_, ?_, ?_, ?_, ?_, ?_, one_rotation P s0 log_id recs hstart hes1 hes2 hlast⟩
  · rw [feed_rotates_iff]
    simpa [feed_advance] using hrot
  · unfold nvm_logger_feed_data
    simp only []
    rw [if_neg (by simpa [feed_advance] using hrot)]
    split_ifs <;> simp [feed_advance, hnp]
  · unfold nvm_logger_feed_data
    simp only []
    rw [if_neg (by simpa [feed_advance] using hrot)]
    split_ifs <;> simp [feed_advance]
  · unfold nvm_logger_feed_data
    simp only []
    rw [if_neg (by simpa [feed_advance] using hrot)]
    split_ifs <;> simp [feed_advance, hnp]
  · intro hb
    have hb2 := hb
    rw [← hnp] at hb2
    rw [feed_eq_of_blank P s log_id data hrot hb2]
    refine ⟨rfl, ?_, ?_⟩
    · exact erase_count_write _ _ _ _
    · simp [feed_advance]
  · intro hb
    have hb2 := hb
    rw [← hnp] at hb2
    rw [feed_eq_of_erase P s log_id data hrot hb2]
    simp only [hnp]
    refine ⟨?_, ?_, ?_, ?_⟩
    · rw [empty_page_calls]
      simp [hal_nvmc_write_data]
    · rw [erase_count_empty_page, erase_count_write]
    · intro i hi
      rw [empty_page_mem_meta P _ _ i hi]
      simp [MEMORY_AVAIL, le_byte_zero, feed_written]
    · simp

theorem log_init_eq_of_full (P : Params) (s : State) (cfg : log_config_t) (pn : Nat)
    (h0 : s.no_avail_pages = 0) :
    nvm_logger_log_init P s cfg pn = (s, P.NVM_LOGGER_MAX_LOGS) := by
  unfold nvm_logger_log_init
  rw [if_pos h0]

theorem log_init_eq_of_match (P : Params) (s : State) (cfg : log_config_t) (pn : Nat)
    (h0 : s.no_avail_pages ≠ 0) (hm : config_matches s cfg) :
    nvm_logger_log_init P s cfg pn = (get_total_entries s cfg.log_id, cfg.log_id) := by
  unfold nvm_logger_log_init
  rw [if_neg h0, if_pos hm]

theorem log_init_eq_of_short (P : Params) (s : State) (cfg : log_config_t) (pn : Nat)
    (hm : ¬ config_matches s cfg) (hp : s.no_avail_pages < cfg.no_of_pages) :
    nvm_logger_log_init P s cfg pn = (s, P.NVM_LOGGER_MAX_LOGS) := by
  unfold nvm_logger_log_init
  by_cases h0 : s.no_avail_pages = 0
  · rw [if_pos h0]
  · rw [if_neg h0, if_neg hm, if_neg (by omega)]

theorem log_init_eq_of_new (P : Params) (s : State) (cfg : log_config_t) (pn : Nat)
    (h0 : s.no_avail_pages ≠ 0) (hm : ¬ config_matches s cfg)
    (hp : cfg.no_of_pages ≤ s.no_avail_pages) :
    nvm_logger_log_init P s cfg pn =
      update_log P { s with no_avail_pages := u32sub s.no_avail_pages cfg.no_of_pages } cfg pn := by
  unfold nvm_logger_log_init
  rw [if_neg h0, if_neg hm, if_pos hp]

theorem count_fold (p : Nat → Bool) (l : List Nat) (t : Nat) (ht : t < 4294967296) :
    l.foldl (fun t loc => if p loc then t else u32 (t + 1)) t =
      u32 (t + (l.filter (fun loc => !p loc)).length) := by
  induction l generalizing t with
  | nil => simp [u32]; omega
  | cons a l ih =>
    simp only [List.foldl_cons, List.filter_cons]
    cases hp : p a with
    | true =>
      simp only [if_true, Bool.not_true, Bool.false_eq_true, if_false]
      exact ih t ht
    | false =>
      simp only [Bool.false_eq_true, if_false, Bool.not_false, if_true, List.length_cons]
      rw [ih _ (by simp only [u32]; omega)]
      simp only [u32]
      omega

theorem count_fold_pages (f : Nat → Nat) (l : List Nat) (t : Nat) :
    l.foldl (fun t page_no => u32 (t + f page_no)) (u32 t) = u32 (t + (l.map f).sum) := by
  induction l generalizing t with
  | nil => simp
  | cons a l ih =>
    simp only [List.foldl_cons, List.map_cons, List.sum_cons]
    have : u32 (u32 t + f a) = u32 (t + f a) := by simp only [u32]; omega
    rw [this, ih]
    congr 1
    omega

theorem get_total_entries_total (s : State) (log_id : Nat)
    (ht : (s.LOGS log_id).total_entries < 4294967296) :
    ((get_total_entries s log_id).LOGS log_id).total_entries =
      u32 ((s.LOGS log_id).total_entries + nonblank_slots (s.LOGS log_id) s.nvm.mem) := by
  simp only [get_total_entries, Function.update_same, nonblank_slots]
  have hpage : ∀ page_no t, t < 4294967296 →
      get_total_entries_page (s.LOGS log_id) s.nvm.mem page_no t =
        u32 (t + ((List.range (s.LOGS log_id).last_entry_no).filter (fun loc =>
          !memcmp_empty s.nvm.mem
            (slot_addr ((s.LOGS log_id).page_addrs page_no) (s.LOGS log_id).entry_size loc)
            (4 * (s.LOGS log_id).entry_size))).length) := by
    intro page_no t ht
    exact count_fold _ _ t ht
  have hfold : ∀ (l : List Nat) (t : Nat), t < 4294967296 →
      l.foldl (fun t page_no => get_total_entries_page (s.LOGS log_id) s.nvm.mem page_no t) t =
      l.foldl (fun t page_no => u32 (t +
        ((List.range (s.LOGS log_id).last_entry_no).filter (fun loc =>
          !memcmp_empty s.nvm.mem
            (slot_addr ((s.LOGS log_id).page_addrs page_no) (s.LOGS log_id).entry_size loc)
            (4 * (s.LOGS log_id).entry_size))).length)) t := by
    intro l
    induction l with
    | nil => intro t _; rfl
    | cons a l ih =>
      intro t ht
      simp only [List.foldl_cons]
      rw [hpage a t ht]
      exact ih _ (by simp only [u32]; omega)
  rw [hfold _ _ ht]
  have hu : (s.LOGS log_id).total_entries = u32 (s.LOGS log_id).total_entries := by
    simp only [u32]; omega
  conv_lhs => rw [hu]
  exact count_fold_pages _ _ _

theorem get_total_entries_frame (s : State) (log_id : Nat) :
    (get_total_entries s log_id).no_avail_pages = s.no_avail_pages
    ∧ (get_total_entries s log_id).avail_pages = s.avail_pages
    ∧ (get_total_entries s log_id).nvm = s.nvm
    ∧ (∀ j, j ≠ log_id → (get_total_entries s log_id).LOGS j = s.LOGS j)
    ∧ ((get_total_entries s log_id).LOGS log_id).page_addrs = (s.LOGS log_id).page_addrs
    ∧ ((get_total_entries s log_id).LOGS log_id).no_pages = (s.LOGS log_id).no_pages
    ∧ ((get_total_entries s log_id).LOGS log_id).entry_size = (s.LOGS log_id).entry_size
    ∧ ((get_total_entries s log_id).LOGS log_id).size_bytes = (s.LOGS log_id).size_bytes
    ∧ ((get_total_entries s log_id).LOGS log_id).last_entry_no = (s.LOGS log_id).last_entry_no
    ∧ ((get_total_entries s log_id).LOGS log_id).current_page = (s.LOGS log_id).current_page
    ∧ ((get_total_entries s log_id).LOGS log_id).current_loc = (s.LOGS log_id).current_loc
    ∧ ((get_total_entries s log_id).LOGS log_id).current_entry_no =
        (s.LOGS log_id).current_entry_no := by
  refine ⟨rfl, rfl, rfl, ?_, ?_, ?_, ?_, ?_, ?_, ?_, ?_, ?_⟩
  · intro j hj
    simp [get_total_entries, Function.update_noteq hj]
  all_goals simp [get_total_entries]

theorem update_log_loop_full (P : Params) (pn : Nat) (s : State)
    (hmax : P.NVM_LOGGER_MAX_LOGS < 4294967296)
    (hfull : ∀ i, i < P.NVM_LOGGER_MAX_LOGS → is_empty_log P (s.LOGS i) = false)
    (fuel : Nat) (cfg : log_config_t) (hid : cfg.log_id < P.NVM_LOGGER_MAX_LOGS) :
    update_log_loop P pn fuel s cfg =
      (s, { cfg with log_id := (cfg.log_id + fuel) % P.NVM_LOGGER_MAX_LOGS }) := by
  induction fuel generalizing cfg with
  | zero =>
    simp only [update_log_loop, Nat.add_zero]
    rw [Nat.mod_eq_of_lt hid]
  | succ fuel ih =>
    simp only [update_log_loop]
    rw [hfull _ hid]
    simp only [Bool.false_eq_true, if_false]
    have hu : u32 (cfg.log_id + 1) = cfg.log_id + 1 := by
      simp only [u32]; omega
    have hlt : (cfg.log_id + 1) % P.NVM_LOGGER_MAX_LOGS < P.NVM_LOGGER_MAX_LOGS :=
      Nat.mod_lt _ (by omega)
    rw [hu, ih _ hlt]
    simp only [Nat.mod_add_mod]
    congr 3
    omega

theorem update_log_full (P : Params) (pn : Nat) (s : State)
    (hmax : P.NVM_LOGGER_MAX_LOGS < 4294967296)
    (hfull : ∀ i, i < P.NVM_LOGGER_MAX_LOGS → is_empty_log P (s.LOGS i) = false)
    (cfg : log_config_t) (hid : cfg.log_id < P.NVM_LOGGER_MAX_LOGS) :
    update_log P s cfg pn = (prepare_page_metadata P s cfg.log_id, cfg.log_id) := by
  simp only [update_log]
  rw [update_log_loop_full P pn s hmax hfull _ cfg hid]
  simp only [Nat.add_mod_right]
  rw [Nat.mod_eq_of_lt hid]

theorem prepare_page_metadata_frame (P : Params) (s : State) (log_id : Nat) :
    (prepare_page_metadata P s log_id).LOGS = s.LOGS
    ∧ (prepare_page_metadata P s log_id).no_avail_pages = s.no_avail_pages
    ∧ (prepare_page_metadata P s log_id).avail_pages = s.avail_pages :=
  ⟨rfl, rfl, rfl⟩

/-- When every directory slot is occupied and the configuration is new,
`nvm_logger_log_init` takes the pages from the free-page count, rewrites the page
metadata of the log already stored at the requested id and returns that id. -/
theorem log_init_directory_full (P : Params) (s : State) (cfg : log_config_t) (pn : Nat)
    (hmax : P.NVM_LOGGER_MAX_LOGS < 4294967296)
    (hfull : ∀ i, i < P.NVM_LOGGER_MAX_LOGS → is_empty_log P (s.LOGS i) = false)
    (hid : cfg.log_id < P.NVM_LOGGER_MAX_LOGS)
    (h0 : s.no_avail_pages ≠ 0) (hm : ¬ config_matches s cfg)
    (hp : cfg.no_of_pages ≤ s.no_avail_pages) :
    nvm_logger_log_init P s cfg pn =
      (prepare_page_metadata P
        { s with no_avail_pages := u32sub s.no_avail_pages cfg.no_of_pages } cfg.log_id,
       cfg.log_id) := by
  rw [log_init_eq_of_new P s cfg pn h0 hm hp]
  exact update_log_full P pn
    { s with no_avail_pages := u32sub s.no_avail_pages cfg.no_of_pages } hmax hfull cfg hid

/-- C9: a configuration that differs from the log stored at its id and asks for
more pages than are free is refused: `nvm_logger_log_init` returns
`NVM_LOGGER_MAX_LOGS` and the whole state (log directory, free-page count, page
bookkeeping, flash contents and driver calls) is the one before the call. -/
theorem log_init_not_enough_pages (P : Params) (s : State) (cfg : log_config_t) (pn : Nat)
    (hm : ¬ config_matches s cfg) (hp : s.no_avail_pages < cfg.no_of_pages) :
    (nvm_logger_log_init P s cfg pn).2 = P.NVM_LOGGER_MAX_LOGS
    ∧ (nvm_logger_log_init P s cfg pn).1 = s := by
  rw [log_init_eq_of_short P s cfg pn hm hp]
  exact ⟨rfl, rfl⟩

/-- C7 (amended): when the free-page count is not zero, `nvm_logger_log_init`
with the configuration of the log already stored at `log_id` returns `log_id`,
which is not `NVM_LOGGER_MAX_LOGS`, and leaves the free-page count, the page
bookkeeping, the flash device, every other log and every member of the log
other than `total_entries` unchanged. -/
theorem log_init_same_config (P : Params) (s : State) (cfg : log_config_t) (pn : Nat)
    (hid : cfg.log_id < P.NVM_LOGGER_MAX_LOGS)
    (h0 : s.no_avail_pages ≠ 0) (hm : config_matches s cfg) :
    (nvm_logger_log_init P s cfg pn).2 = cfg.log_id
    ∧ (nvm_logger_log_init P s cfg pn).2 ≠ P.NVM_LOGGER_MAX_LOGS
    ∧ (nvm_logger_log_init P s cfg pn).1.no_avail_pages = s.no_avail_pages
    ∧ (nvm_logger_log_init P s cfg pn).1.avail_pages = s.avail_pages
    ∧ (nvm_logger_log_init P s cfg pn).1.nvm = s.nvm
    ∧ (∀ j, j ≠ cfg.log_id → (nvm_logger_log_init P s cfg pn).1.LOGS j = s.LOGS j)
    ∧ ((nvm_logger_log_init P s cfg pn).1.LOGS cfg.log_id).page_addrs =
        (s.LOGS cfg.log_id).page_addrs
    ∧ ((nvm_logger_log_init P s cfg pn).1.LOGS cfg.log_id).no_pages =
        (s.LOGS cfg.log_id).no_pages
    ∧ ((nvm_logger_log_init P s cfg pn).1.LOGS cfg.log_id).entry_size =
        (s.LOGS cfg.log_id).entry_size
    ∧ ((nvm_logger_log_init P s cfg pn).1.LOGS cfg.log_id).size_bytes =
        (s.LOGS cfg.log_id).size_bytes
    ∧ ((nvm_logger_log_init P s cfg pn).1.LOGS cfg.log_id).last_entry_no =
        (s.LOGS cfg.log_id).last_entry_no
    ∧ ((nvm_logger_log_init P s cfg pn).1.LOGS cfg.log_id).current_page =
        (s.LOGS cfg.log_id).current_page
    ∧ ((nvm_logger_log_init P s cfg pn).1.LOGS cfg.log_id).current_loc =
        (s.LOGS cfg.log_id).current_loc
    ∧ ((nvm_logger_log_init P s cfg pn).1.LOGS cfg.log_id).current_entry_no =
        (s.LOGS cfg.log_id).current_entry_no := by
  rw [log_init_eq_of_match P s cfg pn h0 hm]
  exact ⟨rfl, by simpa using Nat.ne_of_lt hid, get_total_entries_frame s cfg.log_id⟩

theorem mod_window {n a b : Nat} (hab : a ≤ b) (hwin : b < a + n)
    (hmod : a % n = b % n) : a = b := by
  by_contra hne
  have hlt : a < b := lt_of_le_of_ne hab hne
  have hdvd : n ∣ b - a := (Nat.modEq_iff_dvd' hab).mp hmod
  have := Nat.le_of_dvd (by omega) hdvd
  omega

theorem slot_below {j e : Nat} (w : Nat) (h : j < e) : j * w + w ≤ e * w := by
  have := Nat.mul_le_mul_right w (show j + 1 ≤ e from h)
  rw [Nat.succ_mul] at this
  exact this

theorem page_of_addr (P : Params) (L0 : log_metadata_t) (G : Geometry P L0) (p x : Nat)
    (hp : p < L0.no_pages) (hx : x < FLASH_PAGE_SIZE) :
    (L0.page_addrs p + x) / FLASH_PAGE_SIZE = L0.page_addrs p / FLASH_PAGE_SIZE := by
  have := G.page_aligned p hp
  simp only [FLASH_PAGE_SIZE] at *
  omega

theorem page_of_addr_inj (P : Params) (L0 : log_metadata_t) (G : Geometry P L0) (p q : Nat)
    (hp : p < L0.no_pages) (hq : q < L0.no_pages)
    (h : L0.page_addrs p / FLASH_PAGE_SIZE = L0.page_addrs q / FLASH_PAGE_SIZE) : p = q := by
  apply G.page_inj p q hp hq
  have h1 := G.page_aligned p hp
  have h2 := G.page_aligned q hq
  simp only [FLASH_PAGE_SIZE] at *
  omega

theorem addr_inj (P : Params) (L0 : log_metadata_t) (G : Geometry P L0) (p q x y : Nat)
    (hp : p < L0.no_pages) (hq : q < L0.no_pages)
    (hx : x < FLASH_PAGE_SIZE) (hy : y < FLASH_PAGE_SIZE)
    (h : L0.page_addrs p + x = L0.page_addrs q + y) : p = q ∧ x = y := by
  have hpq : p = q := by
    apply page_of_addr_inj P L0 G p q hp hq
    rw [← page_of_addr P L0 G p x hp hx, ← page_of_addr P L0 G q y hq hy, h]
  subst hpq
  exact ⟨rfl, by omega⟩

theorem FreshLog.geometry {P : Params} {s : State} {log_id : Nat} (F : FreshLog P s log_id) :
    Geometry P (s.LOGS log_id) := by
  have hs1 := F.size_pos
  have hs2 := F.size_le
  have hes : (s.LOGS log_id).entry_size = ((s.LOGS log_id).size_bytes + 3) / 4 := by
    rw [F.entry_size_eq]
    simp only [u8, CEIL_DIV]
    omega
  have hes1 : 1 ≤ (s.LOGS log_id).entry_size := by omega
  have hes2 : (s.LOGS log_id).entry_size ≤ 255 := by omega
  obtain ⟨hb1, hb2, hb3⟩ := last_entry_no_bounds _ hes1 hes2
  refine
    { size_pos := hs1
      size_le := by simp only [slot_bytes, WORD_SIZE]; omega
      last_pos := by rw [F.last_eq]; omega
      last_fit := by rw [F.last_eq]; exact hb3
      pages_pos := F.pages_pos
      pages_le := F.pages_le
      page_aligned := F.page_aligned
      page_bound := F.page_bound
      page_inj := F.page_inj
      meta_lo := F.meta_lo
      meta_hi := F.meta_hi }

theorem held_mono {L0 : log_metadata_t} {r e g j : Nat} (h : held L0 r e g j) :
    held L0 r (e + 1) g j := by
  obtain ⟨h1, h2, h3⟩ := h
  exact ⟨h1, h2, by omega⟩

theorem held_offset (P : Params) (L0 : log_metadata_t) (G : Geometry P L0) {j b : Nat}
    (hj : j < L0.last_entry_no) (hb : b < L0.size_bytes) :
    j * slot_bytes L0 + b < BYTES_PER_PAGE := by
  have h1 := slot_below (slot_bytes L0) hj
  have h2 := G.last_fit
  have h3 := G.size_le
  omega

theorem ring_write (P : Params) (L0 : log_metadata_t) (G : Geometry P L0)
    (recs : Nat → Buffer) (d : Nvmc) (r e : Nat)
    (M : RingMem L0 recs d.mem r e) (he : e < L0.last_entry_no) :
    RingMem L0 recs
      (hal_nvmc_write_data d (L0.page_addrs (r % L0.no_pages) + e * slot_bytes L0)
        (recs (r * L0.last_entry_no + e)) L0.size_bytes).mem r (e + 1) := by
  have hc : r % L0.no_pages < L0.no_pages := Nat.mod_lt _ G.pages_pos
  have hfit := G.last_fit
  have hsz := G.size_le
  have hew := slot_below (slot_bytes L0) he
  -- a byte inside the written range lies in slot `e` of the current page
  have hrange : ∀ p x, p < L0.no_pages → x < BYTES_PER_PAGE →
      (L0.page_addrs (r % L0.no_pages) + e * slot_bytes L0 ≤ L0.page_addrs p + x ∧
        L0.page_addrs p + x <
          L0.page_addrs (r % L0.no_pages) + e * slot_bytes L0 + L0.size_bytes) →
      p = r % L0.no_pages ∧ e * slot_bytes L0 ≤ x ∧ x < e * slot_bytes L0 + L0.size_bytes := by
    intro p x hp hx hin
    have hxy : L0.page_addrs p + x = L0.page_addrs (r % L0.no_pages) +
        (L0.page_addrs p + x - L0.page_addrs (r % L0.no_pages)) := by omega
    have := addr_inj P L0 G p (r % L0.no_pages) x _ hp hc
      (by simp only [FLASH_PAGE_SIZE, BYTES_PER_PAGE] at *; omega)
      (by simp only [FLASH_PAGE_SIZE, BYTES_PER_PAGE] at *; omega) hxy
    obtain ⟨hpc, hx2⟩ := this
    subst hpc
    exact ⟨rfl, by omega, by omega⟩
  -- the slot under the cursor is blank
  have hcur : ∀ b, b < L0.size_bytes →
      d.mem (L0.page_addrs (r % L0.no_pages) + (e * slot_bytes L0 + b)) = 0xFF := by
    intro b hb
    apply M.blank _ _ hc (held_offset P L0 G he hb)
    intro g j hh hmod hcov
    obtain ⟨hj, hwin, hcase⟩ := hh
    rcases hcase with hlt | ⟨hg, hje⟩
    · have := mod_window (Nat.le_of_lt hlt) hwin hmod
      omega
    · have := slot_below (slot_bytes L0) hje
      omega
  constructor
  · intro g j b hh hb
    obtain ⟨hj, hwin, hcase⟩ := hh
    simp only [hal_nvmc_write_data]
    by_cases hnew : g = r ∧ j = e
    · obtain ⟨hg, hje⟩ := hnew
      subst hg hje
      rw [if_pos ⟨by omega, by omega⟩, hcur b hb, Byte.ff_and]
      congr 1
      omega
    · have hold : held L0 r e g j := ⟨hj, hwin, by omega⟩
      have hgp : g % L0.no_pages < L0.no_pages := Nat.mod_lt _ G.pages_pos
      rw [if_neg]
      · exact M.stored g j b hold hb
      · intro hin
        obtain ⟨hp, hx1, hx2⟩ := hrange _ _ hgp (held_offset P L0 G hj hb) hin
        have hgr : g = r := mod_window (by omega) hwin hp
        have hje : j < e := by omega
        have := slot_below (slot_bytes L0) hje
        omega
  · intro p x hp hx hunc
    simp only [hal_nvmc_write_data]
    rw [if_neg]
    · exact M.blank p x hp hx (fun g j hh hmod => hunc g j (held_mono hh) hmod)
    · intro hin
      obtain ⟨hpc, hx1, hx2⟩ := hrange p x hp hx hin
      exact hunc r e ⟨he, by have := G.pages_pos; omega, Or.inr ⟨rfl, by omega⟩⟩ hpc.symm
        ⟨hx1, hx2⟩

theorem ring_rotate_blank (L0 : log_metadata_t) (recs : Nat → Buffer) (mem : Flash) (r : Nat)
    (M : RingMem L0 recs mem r L0.last_entry_no) (hr : r + 1 < L0.no_pages) :
    RingMem L0 recs mem (r + 1) 0 := by
  constructor
  · intro g j b hh hb
    obtain ⟨hj, hwin, hcase⟩ := hh
    exact M.stored g j b ⟨hj, by omega, by omega⟩ hb
  · intro p x hp hx hunc
    apply M.blank p x hp hx
    intro g j hh hmod
    obtain ⟨hj, hwin, hcase⟩ := hh
    exact hunc g j ⟨hj, by omega, by omega⟩ hmod

theorem next_page_mod {g n r : Nat} (h : g + n = r + 1) : g % n = (r + 1) % n := by
  rw [← h, Nat.add_mod_right]

theorem ring_rotate_erase (P : Params) (L0 : log_metadata_t) (G : Geometry P L0)
    (recs : Nat → Buffer) (d : Nvmc) (r : Nat)
    (M : RingMem L0 recs d.mem r L0.last_entry_no) :
    RingMem L0 recs
      (empty_page P d (L0.page_addrs ((r + 1) % L0.no_pages))).mem (r + 1) 0 := by
  have hc : (r + 1) % L0.no_pages < L0.no_pages := Nat.mod_lt _ G.pages_pos
  have hal := G.page_aligned _ hc
  have hbd := G.page_bound _ hc
  have hlo := G.meta_lo
  have hhi := G.meta_hi
  have hmeta : u32 (L0.page_addrs ((r + 1) % L0.no_pages) + P.NVM_LOGGER_PAGE_METADATA_ADDR) =
      L0.page_addrs ((r + 1) % L0.no_pages) + P.NVM_LOGGER_PAGE_METADATA_ADDR := by
    simp only [u32, FLASH_PAGE_SIZE, SIZEOF_PAGE_METADATA] at *
    omega
  -- a data byte of another page is untouched
  have hother : ∀ p x, p < L0.no_pages → x < BYTES_PER_PAGE → p ≠ (r + 1) % L0.no_pages →
      (empty_page P d (L0.page_addrs ((r + 1) % L0.no_pages))).mem (L0.page_addrs p + x) =
        d.mem (L0.page_addrs p + x) := by
    intro p x hp hx hne
    have hpg := page_of_addr P L0 G p x hp (by simp only [FLASH_PAGE_SIZE, BYTES_PER_PAGE] at *; omega)
    have hdiff : L0.page_addrs p / FLASH_PAGE_SIZE ≠
        L0.page_addrs ((r + 1) % L0.no_pages) / FLASH_PAGE_SIZE :=
      fun h => hne (page_of_addr_inj P L0 G _ _ hp hc h)
    apply empty_page_mem_other
    · rw [hpg]
      exact hdiff
    · rw [hmeta]
      intro hin
      apply hdiff
      rw [← hpg]
      simp only [FLASH_PAGE_SIZE, SIZEOF_PAGE_METADATA, BYTES_PER_PAGE] at *
      omega
  constructor
  · intro g j b hh hb
    obtain ⟨hj, hwin, hcase⟩ := hh
    have hgp : g % L0.no_pages < L0.no_pages := Nat.mod_lt _ G.pages_pos
    have hne : g % L0.no_pages ≠ (r + 1) % L0.no_pages := by
      intro h
      have := mod_window (show g ≤ r + 1 by omega) hwin h
      omega
    rw [hother _ _ hgp (held_offset P L0 G hj hb) hne]
    exact M.stored g j b ⟨hj, by omega, by omega⟩ hb
  · intro p x hp hx hunc
    by_cases hpc : p = (r + 1) % L0.no_pages
    · subst hpc
      apply empty_page_mem_erased
      · exact page_of_addr P L0 G _ x hc
          (by simp only [FLASH_PAGE_SIZE, BYTES_PER_PAGE] at *; omega)
      · rw [hmeta]
        simp only [BYTES_PER_PAGE] at *
        omega
    · rw [hother p x hp hx hpc]
      apply M.blank p x hp hx
      intro g j hh hmod
      obtain ⟨hj, hwin, hcase⟩ := hh
      by_cases hw : r + 1 < g + L0.no_pages
      · exact hunc g j ⟨hj, hw, by omega⟩ hmod
      · exfalso
        apply hpc
        rw [← hmod]
        exact next_page_mod (by omega)

theorem ring_dest_blank_iff (P : Params) (L0 : log_metadata_t) (G : Geometry P L0)
    (recs : Nat → Buffer) (hrec : records_not_blank recs L0.size_bytes) (mem : Flash) (r : Nat)
    (M : RingMem L0 recs mem r L0.last_entry_no) :
    memcmp_empty mem (L0.page_addrs ((r + 1) % L0.no_pages)) BYTES_PER_PAGE = true ↔
      r + 1 < L0.no_pages := by
  rw [memcmp_empty_iff]
  constructor
  · intro hall
    by_contra hnot
    have hE := G.last_pos
    have hheld : held L0 r L0.last_entry_no (r + 1 - L0.no_pages) 0 := by
      have := G.pages_pos
      exact ⟨by omega, by omega, by omega⟩
    obtain ⟨b, hb, hne⟩ := hrec ((r + 1 - L0.no_pages) * L0.last_entry_no + 0)
    have hst := M.stored _ 0 b hheld hb
    rw [next_page_mod (show r + 1 - L0.no_pages + L0.no_pages = r + 1 by omega)] at hst
    have hoff := held_offset P L0 G (show 0 < L0.last_entry_no by omega) hb
    rw [hall (0 * slot_bytes L0 + b) hoff] at hst
    exact hne hst.symm
  · intro hr i hi
    have hc : (r + 1) % L0.no_pages < L0.no_pages := Nat.mod_lt _ G.pages_pos
    apply M.blank _ i hc hi
    intro g j hh hmod
    obtain ⟨hj, hwin, hcase⟩ := hh
    rw [Nat.mod_eq_of_lt (show g < L0.no_pages by omega), Nat.mod_eq_of_lt hr] at hmod
    omega

theorem last_le_page (P : Params) (L0 : log_metadata_t) (G : Geometry P L0) :
    L0.last_entry_no ≤ BYTES_PER_PAGE ∧ 1 ≤ slot_bytes L0 := by
  have h1 := G.size_pos
  have h2 := G.size_le
  have h3 := G.last_fit
  have h4 : L0.last_entry_no * 1 ≤ L0.last_entry_no * slot_bytes L0 :=
    Nat.mul_le_mul_left _ (by omega)
  omega

theorem total_bound (P : Params) (L0 : log_metadata_t) (G : Geometry P L0) (r : Nat) :
    min r (L0.no_pages - 1) * L0.last_entry_no ≤ 254 * 4080 := by
  have h1 := G.pages_le
  have h2 := (last_le_page P L0 G).1
  simp only [BYTES_PER_PAGE] at h2
  exact Nat.mul_le_mul (by omega) h2

/-- One call of `nvm_logger_feed_data` keeps the ring invariant: the cursor moves
to the next slot, or to the first slot of the next page filled. -/
theorem ring_feed (P : Params) (L0 : log_metadata_t) (G : Geometry P L0)
    (recs : Nat → Buffer) (hrec : records_not_blank recs L0.size_bytes)
    (s : State) (log_id r e : Nat)
    (C : RingCur L0 (s.LOGS log_id) r e) (M : RingMem L0 recs s.nvm.mem r e) :
    (e + 1 < L0.last_entry_no →
      RingCur L0
        ((nvm_logger_feed_data P s log_id (recs (r * L0.last_entry_no + e))).LOGS log_id)
        r (e + 1)
      ∧ RingMem L0 recs
        (nvm_logger_feed_data P s log_id (recs (r * L0.last_entry_no + e))).nvm.mem r (e + 1))
    ∧ (e + 1 = L0.last_entry_no →
      RingCur L0
        ((nvm_logger_feed_data P s log_id (recs (r * L0.last_entry_no + e))).LOGS log_id)
        (r + 1) 0
      ∧ RingMem L0 recs
        (nvm_logger_feed_data P s log_id (recs (r * L0.last_entry_no + e))).nvm.mem
        (r + 1) 0) := by
  have hc : r % L0.no_pages < L0.no_pages := Nat.mod_lt _ G.pages_pos
  have hc' : (r + 1) % L0.no_pages < L0.no_pages := Nat.mod_lt _ G.pages_pos
  have hEle := (last_le_page P L0 G).1
  have hw1 := (last_le_page P L0 G).2
  have hfit := G.last_fit
  have hbd := G.page_bound _ hc
  have htb := total_bound P L0 G r
  have hple := G.pages_le
  have hppos := G.pages_pos
  have hew := slot_below (slot_bytes L0) C.entry_lt
  have hW := ring_write P L0 G recs s.nvm r e M C.entry_lt
  have hwr : hal_nvmc_write_data s.nvm (s.LOGS log_id).current_loc
      (recs (r * L0.last_entry_no + e)) (s.LOGS log_id).size_bytes =
      hal_nvmc_write_data s.nvm (L0.page_addrs (r % L0.no_pages) + e * slot_bytes L0)
        (recs (r * L0.last_entry_no + e)) L0.size_bytes := by
    rw [C.current_loc_eq, C.size_bytes_eq]
  have hnext : u8 (((s.LOGS log_id).current_page + 1) % (s.LOGS log_id).no_pages) =
      (r + 1) % L0.no_pages := by
    rw [C.current_page_eq, C.no_pages_eq, Nat.mod_add_mod]
    simp only [u8]
    omega
  constructor
  · intro hlt
    have hadv : (feed_advance (s.LOGS log_id)).current_entry_no <
        (s.LOGS log_id).last_entry_no := by
      simp only [feed_advance, u32, C.current_entry_no_eq, C.last_entry_no_eq,
        BYTES_PER_PAGE] at *
      omega
    rw [feed_eq_of_lt P s log_id _ hadv]
    simp only [Function.update_same]
    refine ⟨?_, ?_⟩
    · refine
        { entry_size_eq := C.entry_size_eq
          page_addrs_eq := C.page_addrs_eq
          no_pages_eq := C.no_pages_eq
          last_entry_no_eq := C.last_entry_no_eq
          size_bytes_eq := C.size_bytes_eq
          entry_lt := hlt
          current_page_eq := C.current_page_eq
          current_entry_no_eq := ?_
          current_loc_eq := ?_
          total_entries_eq := ?_ }
      · simp only [feed_advance, u32, C.current_entry_no_eq, BYTES_PER_PAGE] at *
        omega
      · have hsm : (e + 1) * slot_bytes L0 = e * slot_bytes L0 + slot_bytes L0 :=
          Nat.succ_mul _ _
        simp only [feed_advance, u32, C.current_loc_eq, C.entry_size_eq, hsm]
        simp only [slot_bytes, FLASH_PAGE_SIZE, BYTES_PER_PAGE] at *
        omega
      · simp only [feed_advance, u32, C.total_entries_eq, BYTES_PER_PAGE] at *
        omega
    · rw [hwr]
      exact hW
  · intro heq
    have hadv : ¬ (feed_advance (s.LOGS log_id)).current_entry_no <
        (s.LOGS log_id).last_entry_no := by
      simp only [feed_advance, u32, C.current_entry_no_eq, C.last_entry_no_eq,
        BYTES_PER_PAGE] at *
      omega
    rw [heq] at hW
    have hiff := ring_dest_blank_iff P L0 G recs hrec _ r hW
    by_cases hr : r + 1 < L0.no_pages
    · have hb : memcmp_empty
          (hal_nvmc_write_data s.nvm (s.LOGS log_id).current_loc
            (recs (r * L0.last_entry_no + e)) (s.LOGS log_id).size_bytes).mem
          ((s.LOGS log_id).page_addrs
            (u8 (((s.LOGS log_id).current_page + 1) % (s.LOGS log_id).no_pages)))
          BYTES_PER_PAGE = true := by
        rw [hwr, hnext, C.page_addrs_eq]
        exact hiff.mpr hr
      rw [feed_eq_of_blank P s log_id _ hadv hb]
      simp only [Function.update_same, hnext]
      refine ⟨?_, ?_⟩
      · refine
          { entry_size_eq := C.entry_size_eq
            page_addrs_eq := C.page_addrs_eq
            no_pages_eq := C.no_pages_eq
            last_entry_no_eq := C.last_entry_no_eq
            size_bytes_eq := C.size_bytes_eq
            entry_lt := G.last_pos
            current_page_eq := rfl
            current_entry_no_eq := rfl
            current_loc_eq := ?_
            total_entries_eq := ?_ }
        · simp only [C.page_addrs_eq]
          omega
        · have hsm : (r + 1) * L0.last_entry_no = r * L0.last_entry_no + L0.last_entry_no :=
            Nat.succ_mul _ _
          have hm1 : min r (L0.no_pages - 1) = r := by omega
          have hm2 : min (r + 1) (L0.no_pages - 1) = r + 1 := by omega
          rw [hm1] at htb
          simp only [feed_advance, u32, C.total_entries_eq, hm1, hm2, hsm, BYTES_PER_PAGE] at *
          omega
      · rw [hwr]
        exact ring_rotate_blank L0 recs _ r hW hr
    · have hb : memcmp_empty
          (hal_nvmc_write_data s.nvm (s.LOGS log_id).current_loc
            (recs (r * L0.last_entry_no + e)) (s.LOGS log_id).size_bytes).mem
          ((s.LOGS log_id).page_addrs
            (u8 (((s.LOGS log_id).current_page + 1) % (s.LOGS log_id).no_pages)))
          BYTES_PER_PAGE = false := by
        rw [hwr, hnext, C.page_addrs_eq, Bool.eq_false_iff, Ne, hiff]
        exact hr
      rw [feed_eq_of_erase P s log_id _ hadv hb]
      simp only [Function.update_same, hnext]
      refine ⟨?_, ?_⟩
      · refine
          { entry_size_eq := C.entry_size_eq
            page_addrs_eq := C.page_addrs_eq
            no_pages_eq := C.no_pages_eq
            last_entry_no_eq := C.last_entry_no_eq
            size_bytes_eq := C.size_bytes_eq
            entry_lt := G.last_pos
            current_page_eq := rfl
            current_entry_no_eq := rfl
            current_loc_eq := ?_
            total_entries_eq := ?_ }
        · simp only [C.page_addrs_eq]
          omega
        · have hm1 : min r (L0.no_pages - 1) = L0.no_pages - 1 := by omega
          have hm2 : min (r + 1) (L0.no_pages - 1) = L0.no_pages - 1 := by omega
          rw [hm1] at htb
          simp only [u32sub, u32, C.total_entries_eq, C.last_entry_no_eq, hm1, hm2,
            BYTES_PER_PAGE] at *
          omega
      · rw [hwr, C.page_addrs_eq]
        exact ring_rotate_erase P L0 G recs _ r hW

theorem succ_div_mod (k E : Nat) (hE : 0 < E) :
    (k % E + 1 < E → (k + 1) / E = k / E ∧ (k + 1) % E = k % E + 1)
    ∧ (k % E + 1 = E → (k + 1) / E = k / E + 1 ∧ (k + 1) % E = 0) := by
  have hk := Nat.mod_add_div k E
  constructor
  · intro h
    rw [Nat.div_mod_unique hE]
    exact ⟨by omega, h⟩
  · intro h
    rw [Nat.div_mod_unique hE]
    refine ⟨?_, hE⟩
    rw [Nat.mul_add, Nat.mul_one]
    omega

/-- After any number of records fed to a fresh log the ring invariant holds, the
cursor being at slot `k % last_entry_no` of page number `k / last_entry_no` in
the order of filling. -/
theorem ring_feed_seq (P : Params) (s : State) (log_id : Nat) (recs : Nat → Buffer)
    (F : FreshLog P s log_id) (hrec : records_not_blank recs (s.LOGS log_id).size_bytes)
    (k : Nat) :
    RingCur (s.LOGS log_id) ((feed_seq P s log_id recs k).LOGS log_id)
      (k / (s.LOGS log_id).last_entry_no) (k % (s.LOGS log_id).last_entry_no)
    ∧ RingMem (s.LOGS log_id) recs (feed_seq P s log_id recs k).nvm.mem
      (k / (s.LOGS log_id).last_entry_no) (k % (s.LOGS log_id).last_entry_no) := by
  have G := F.geometry
  have hE : 0 < (s.LOGS log_id).last_entry_no := G.last_pos
  induction k with
  | zero =>
    simp only [feed_seq, Nat.zero_div, Nat.zero_mod]
    refine ⟨?_, ?_⟩
    · refine
        { entry_size_eq := rfl
          page_addrs_eq := rfl
          no_pages_eq := rfl
          last_entry_no_eq := rfl
          size_bytes_eq := rfl
          entry_lt := hE
          current_page_eq := by rw [F.current_page_eq, Nat.zero_mod]
          current_entry_no_eq := F.current_entry_no_eq
          current_loc_eq := by rw [F.current_loc_eq, Nat.zero_mod]; omega
          total_entries_eq := by rw [F.total_entries_eq]; simp }
    · constructor
      · intro g j b hh hb
        obtain ⟨_, _, hcase⟩ := hh
        omega
      · intro p x hp hx _
        exact F.blank p x hp hx
  | succ k ih =>
    obtain ⟨C, M⟩ := ih
    have hstep := ring_feed P (s.LOGS log_id) G recs hrec (feed_seq P s log_id recs k) log_id
      _ _ C M
    have hidx : k / (s.LOGS log_id).last_entry_no * (s.LOGS log_id).last_entry_no +
        k % (s.LOGS log_id).last_entry_no = k := Nat.div_add_mod' k _
    rw [hidx] at hstep
    have hlt : k % (s.LOGS log_id).last_entry_no < (s.LOGS log_id).last_entry_no :=
      Nat.mod_lt _ hE
    simp only [feed_seq]
    by_cases hcase : k % (s.LOGS log_id).last_entry_no + 1 < (s.LOGS log_id).last_entry_no
    · obtain ⟨h1, h2⟩ := (succ_div_mod k _ hE).1 hcase
      rw [h1, h2]
      exact hstep.1 hcase
    · have heq : k % (s.LOGS log_id).last_entry_no + 1 = (s.LOGS log_id).last_entry_no := by
        omega
      obtain ⟨h1, h2⟩ := (succ_div_mod k _ hE).2 heq
      rw [h1, h2]
      exact hstep.2 heq

theorem memcpy_read_eq (fl : Flash) (src n : Nat) (d : Buffer)
    (h : ∀ b, b < n → fl (src + b) = d b) : memcpy_read fl src n = record_bytes d n := by
  simp only [memcpy_read, record_bytes]
  apply List.map_congr_left
  intro b hb
  exact h b (List.mem_range.mp hb)

theorem slot_not_blank (P : Params) (L0 : log_metadata_t) (G : Geometry P L0)
    (recs : Nat → Buffer) (hrec : records_not_blank recs L0.size_bytes) (mem : Flash)
    (r e g : Nat) (M : RingMem L0 recs mem r e) (hh : held L0 r e g 0) :
    memcmp_empty mem (L0.page_addrs (g % L0.no_pages)) (L0.entry_size * WORD_SIZE) = false := by
  rw [Bool.eq_false_iff, Ne, memcmp_empty_iff]
  intro hall
  obtain ⟨b, hb, hne⟩ := hrec (g * L0.last_entry_no + 0)
  have hst := M.stored g 0 b hh hb
  have hsz := G.size_le
  simp only [slot_bytes] at hsz
  rw [Nat.zero_mul, Nat.zero_add, hall b (by omega)] at hst
  exact hne hst.symm

theorem scan_hit (P : Params) (L0 L : log_metadata_t) (G : Geometry P L0)
    (recs : Nat → Buffer) (hrec : records_not_blank recs L0.size_bytes) (mem : Flash)
    (r e g : Nat) (C : RingCur L0 L r e) (M : RingMem L0 recs mem r e)
    (hh : held L0 r e g 0) (fuel : Nat) (hfuel : 1 ≤ fuel) :
    fetch_scan L mem fuel (g % L0.no_pages) = some (L0.page_addrs (g % L0.no_pages)) := by
  obtain ⟨f, hf⟩ : ∃ f, fuel = f + 1 := ⟨fuel - 1, by omega⟩
  subst hf
  simp only [fetch_scan, C.page_addrs_eq, C.entry_size_eq]
  rw [slot_not_blank P L0 G recs hrec mem r e g M hh]
  simp

theorem scan_wrap (P : Params) (L0 L : log_metadata_t) (G : Geometry P L0)
    (recs : Nat → Buffer) (hrec : records_not_blank recs L0.size_bytes) (mem : Flash)
    (r e : Nat) (C : RingCur L0 L r e) (M : RingMem L0 recs mem r e)
    (hr1 : 1 ≤ r) (hr : r + 1 < L0.no_pages) (t : Nat) :
    ∀ m fuel, m + t + 1 = L0.no_pages → r < m → t + 2 ≤ fuel →
      fetch_scan L mem fuel m = some (L0.page_addrs 0) := by
  have hzero : held L0 r e 0 0 := ⟨G.last_pos, by omega, Or.inl (by omega)⟩
  have hhit := fun fuel hf => scan_hit P L0 L G recs hrec mem r e 0 C M hzero fuel hf
  rw [Nat.zero_mod] at hhit
  have hw := (last_le_page P L0 G).2
  have hfit := G.last_fit
  have hE := G.last_pos
  have hple := G.pages_le
  induction t with
  | zero =>
    intro m fuel hm hrm hfuel
    obtain ⟨f, hf⟩ : ∃ f, fuel = f + 1 := ⟨fuel - 1, by omega⟩
    subst hf
    have hblank : memcmp_empty mem (L0.page_addrs m) (L0.entry_size * WORD_SIZE) = true := by
      rw [memcmp_empty_iff]
      intro i hi
      have hsl : L0.last_entry_no * 1 ≤ L0.last_entry_no * slot_bytes L0 :=
        Nat.mul_le_mul_left _ hw
      have h1 : 1 * slot_bytes L0 ≤ L0.last_entry_no * slot_bytes L0 :=
        Nat.mul_le_mul_right _ hE
      apply M.blank m i (by omega) (by simp only [slot_bytes] at *; omega)
      intro g j hh hmod
      obtain ⟨_, _, hcase⟩ := hh
      rw [Nat.mod_eq_of_lt (show g < L0.no_pages by omega)] at hmod
      omega
    simp only [fetch_scan, C.page_addrs_eq, C.entry_size_eq, C.no_pages_eq, hblank, if_true]
    have hnext : u32 (m + 1) % L0.no_pages = 0 := by
      have : u32 (m + 1) = L0.no_pages := by simp only [u32]; omega
      rw [this, Nat.mod_self]
    rw [hnext]
    exact hhit f (by omega)
  | succ t ih =>
    intro m fuel hm hrm hfuel
    obtain ⟨f, hf⟩ : ∃ f, fuel = f + 1 := ⟨fuel - 1, by omega⟩
    subst hf
    have hblank : memcmp_empty mem (L0.page_addrs m) (L0.entry_size * WORD_SIZE) = true := by
      rw [memcmp_empty_iff]
      intro i hi
      have h1 : 1 * slot_bytes L0 ≤ L0.last_entry_no * slot_bytes L0 :=
        Nat.mul_le_mul_right _ hE
      apply M.blank m i (by omega) (by simp only [slot_bytes] at *; omega)
      intro g j hh hmod
      obtain ⟨_, _, hcase⟩ := hh
      rw [Nat.mod_eq_of_lt (show g < L0.no_pages by omega)] at hmod
      omega
    simp only [fetch_scan, C.page_addrs_eq, C.entry_size_eq, C.no_pages_eq, hblank, if_true]
    have hnext : u32 (m + 1) % L0.no_pages = m + 1 := by
      have : u32 (m + 1) = m + 1 := by simp only [u32]; omega
      rw [this, Nat.mod_eq_of_lt (by omega)]
    rw [hnext]
    exact ih (m + 1) f (by omega) (by omega) (by omega)

theorem read_held (L0 : log_metadata_t) (recs : Nat → Buffer) (mem : Flash) (r e g : Nat)
    (M : RingMem L0 recs mem r e) (hh : held L0 r e g 0) :
    memcpy_read mem (L0.page_addrs (g % L0.no_pages)) L0.size_bytes =
      record_bytes (recs (g * L0.last_entry_no)) L0.size_bytes := by
  apply memcpy_read_eq
  intro b hb
  have := M.stored g 0 b hh hb
  rw [Nat.zero_mul, Nat.zero_add, Nat.add_zero] at this
  exact this

/-- In a ring state that holds a record, a request at or beyond `total_entries`
ends within `no_pages` iterations of the scan and yields the first record of
the oldest page kept. -/
theorem fetch_oldest_ring (P : Params) (L0 : log_metadata_t) (G : Geometry P L0)
    (recs : Nat → Buffer) (hrec : records_not_blank recs L0.size_bytes)
    (s : State) (log_id r e : Nat)
    (C : RingCur L0 (s.LOGS log_id) r e) (M : RingMem L0 recs s.nvm.mem r e)
    (hsome : 1 ≤ (s.LOGS log_id).total_entries)
    (n fuel : Nat) (hn : (s.LOGS log_id).total_entries ≤ n) (hfuel : L0.no_pages ≤ fuel) :
    nvm_logger_fetch_tail_data s log_id n fuel =
      some (record_bytes (recs ((r + 1 - L0.no_pages) * L0.last_entry_no)) L0.size_bytes) := by
  have hppos := G.pages_pos
  have hE := G.last_pos
  have hc : r % L0.no_pages < L0.no_pages := Nat.mod_lt _ hppos
  have htot := C.total_entries_eq
  simp only [nvm_logger_fetch_tail_data, fetch_src]
  rw [if_pos (show n ≥ (s.LOGS log_id).total_entries from hn)]
  rw [C.current_page_eq, C.current_entry_no_eq, C.no_pages_eq, C.size_bytes_eq]
  by_cases hm : min r (L0.no_pages - 1) = 0
  · -- every record held is on the cursor page
    have hte : (s.LOGS log_id).total_entries = e := by
      rw [htot, hm, Nat.zero_mul, Nat.zero_add]
    have hg0 : r + 1 - L0.no_pages = r := by omega
    have hh : held L0 r e r 0 := ⟨hE, by omega, Or.inr ⟨rfl, by omega⟩⟩
    rw [hte, hg0]
    simp only [ne_eq, not_true_eq_false, if_false, Nat.add_zero, Nat.mod_mod]
    rw [scan_hit P L0 _ G recs hrec _ r e r C M hh fuel (by omega)]
    simp only [Option.map_some']
    rw [read_held L0 recs _ r e r M hh]
  · have hr1 : 1 ≤ r := by omega
    have hp2 : 2 ≤ L0.no_pages := by omega
    have hmE : L0.last_entry_no ≤ min r (L0.no_pages - 1) * L0.last_entry_no :=
      Nat.le_mul_of_pos_left _ (by omega)
    have hne : (s.LOGS log_id).total_entries ≠ e := by omega
    rw [if_pos hne, Nat.mod_add_mod]
    by_cases hr : r + 1 < L0.no_pages
    · have hg0 : r + 1 - L0.no_pages = 0 := by omega
      have hzero : held L0 r e 0 0 := ⟨hE, by omega, Or.inl (by omega)⟩
      rw [hg0, Nat.mod_eq_of_lt hr]
      rw [scan_wrap P L0 _ G recs hrec _ r e C M hr1 hr (L0.no_pages - (r + 1) - 1)
        (r + 1) fuel (by omega) (by omega) (by omega)]
      simp only [Option.map_some']
      have := read_held L0 recs _ r e 0 M hzero
      rw [Nat.zero_mod] at this
      rw [this]
    · have hh : held L0 r e (r + 1 - L0.no_pages) 0 := ⟨hE, by omega, Or.inl (by omega)⟩
      have hmod : (r + 1 - L0.no_pages) % L0.no_pages = (r + 1) % L0.no_pages :=
        next_page_mod (by omega)
      have h1 := scan_hit P L0 _ G recs hrec _ r e _ C M hh fuel (by omega)
      have h2 := read_held L0 recs _ r e _ M hh
      rw [hmod] at h1 h2
      rw [h1]
      simp only [Option.map_some']
      rw [h2]

theorem held_core (E n q j r e : Nat) (hj : j < E) (he : e < E) :
    (r < q + n ∧ (q < r ∨ (q = r ∧ j < e))) ↔
      ((r + 1 - n) * E ≤ q * E + j ∧ q * E + j < r * E + e) := by
  constructor
  · rintro ⟨hwin, hcase⟩
    have h1 : (r + 1 - n) * E ≤ q * E := Nat.mul_le_mul_right _ (by omega)
    refine ⟨by omega, ?_⟩
    rcases hcase with hlt | ⟨hg, hje⟩
    · have h2 : (q + 1) * E ≤ r * E := Nat.mul_le_mul_right _ hlt
      rw [Nat.succ_mul] at h2
      omega
    · subst hg
      omega
  · rintro ⟨ho, hlt⟩
    constructor
    · by_contra hnot
      have h1 : (q + 1) * E ≤ (r + 1 - n) * E := Nat.mul_le_mul_right _ (by omega)
      rw [Nat.succ_mul] at h1
      omega
    · by_cases hqr : q < r
      · exact Or.inl hqr
      · right
        by_cases hq : q = r
        · subst hq
          exact ⟨rfl, by omega⟩
        · exfalso
          have h1 : (r + 1) * E ≤ q * E := Nat.mul_le_mul_right _ (by omega)
          rw [Nat.succ_mul] at h1
          omega

theorem held_iff_index (L0 : log_metadata_t) (hE : 0 < L0.last_entry_no) (k i : Nat) :
    held L0 (k / L0.last_entry_no) (k % L0.last_entry_no)
        (i / L0.last_entry_no) (i % L0.last_entry_no) ↔
      oldest_index L0 k ≤ i ∧ i < k := by
  have hil := Nat.mod_lt i hE
  have hkl := Nat.mod_lt k hE
  have hc := held_core L0.last_entry_no L0.no_pages (i / L0.last_entry_no)
    (i % L0.last_entry_no) (k / L0.last_entry_no) (k % L0.last_entry_no) hil hkl
  rw [Nat.div_add_mod' i, Nat.div_add_mod' k] at hc
  simp only [held, oldest_index]
  rw [← hc]
  constructor
  · rintro ⟨_, h⟩
    exact h
  · intro h
    exact ⟨hil, h⟩

theorem index_split (E g j : Nat) (hj : j < E) :
    (g * E + j) / E = g ∧ (g * E + j) % E = j := by
  have hE : 0 < E := by omega
  rw [Nat.div_mod_unique hE]
  exact ⟨by rw [Nat.mul_comm]; omega, hj⟩

theorem total_eq_index (P : Params) (L0 : log_metadata_t) (G : Geometry P L0) (k : Nat) :
    min (k / L0.last_entry_no) (L0.no_pages - 1) * L0.last_entry_no + k % L0.last_entry_no =
      k - oldest_index L0 k := by
  have hk := Nat.div_add_mod' k L0.last_entry_no
  have hp := G.pages_pos
  simp only [oldest_index]
  by_cases hr : k / L0.last_entry_no + 1 ≤ L0.no_pages
  · have h0 : k / L0.last_entry_no + 1 - L0.no_pages = 0 := by omega
    have hm : min (k / L0.last_entry_no) (L0.no_pages - 1) = k / L0.last_entry_no := by omega
    rw [h0, hm, Nat.zero_mul]
    omega
  · have hm : min (k / L0.last_entry_no) (L0.no_pages - 1) = L0.no_pages - 1 := by omega
    have hsplit : k / L0.last_entry_no =
        (k / L0.last_entry_no + 1 - L0.no_pages) + (L0.no_pages - 1) := by omega
    have hmul : k / L0.last_entry_no * L0.last_entry_no =
        (k / L0.last_entry_no + 1 - L0.no_pages) * L0.last_entry_no +
          (L0.no_pages - 1) * L0.last_entry_no := by
      conv_lhs => rw [hsplit]
      exact Nat.add_mul _ _ _
    rw [hm]
    omega

/-- C5 (amended): for a fresh log on blank pages, records that are not all
`0xFF`, and any number `k` of records fed such that the log holds a record,
every request `n >= total_entries` ends within `no_pages` iterations of its scan
and copies the oldest record still stored. The records stored are exactly
those numbered from `oldest_index` to `k - 1`: each reads back at its slot, and
every byte of the data regions outside their slots is `0xFF`. -/
theorem fetch_tail_beyond_total (P : Params) (s : State) (log_id : Nat)
    (recs : Nat → Buffer) (F : FreshLog P s log_id)
    (hrec : records_not_blank recs (s.LOGS log_id).size_bytes)
    (k n fuel : Nat)
    (hsome : oldest_index (s.LOGS log_id) k < k)
    (hn : ((feed_seq P s log_id recs k).LOGS log_id).total_entries ≤ n)
    (hfuel : (s.LOGS log_id).no_pages ≤ fuel) :
    nvm_logger_fetch_tail_data (feed_seq P s log_id recs k) log_id n fuel =
        some (record_bytes (recs (oldest_index (s.LOGS log_id) k)) (s.LOGS log_id).size_bytes)
    ∧ ((feed_seq P s log_id recs k).LOGS log_id).total_entries =
        k - oldest_index (s.LOGS log_id) k
    ∧ (∀ i, oldest_index (s.LOGS log_id) k ≤ i → i < k →
        memcpy_read (feed_seq P s log_id recs k).nvm.mem (record_addr (s.LOGS log_id) i)
          (s.LOGS log_id).size_bytes = record_bytes (recs i) (s.LOGS log_id).size_bytes)
    ∧ (∀ p x, p < (s.LOGS log_id).no_pages → x < BYTES_PER_PAGE →
        (∀ i, oldest_index (s.LOGS log_id) k ≤ i → i < k →
          (i / (s.LOGS log_id).last_entry_no) % (s.LOGS log_id).no_pages = p →
          ¬ ((i % (s.LOGS log_id).last_entry_no) * slot_bytes (s.LOGS log_id) ≤ x ∧
            x < (i % (s.LOGS log_id).last_entry_no) * slot_bytes (s.LOGS log_id) +
              (s.LOGS log_id).size_bytes)) →
        (feed_seq P s log_id recs k).nvm.mem ((s.LOGS log_id).page_addrs p + x) = 0xFF) := by
  have G := F.geometry
  have hE : 0 < (s.LOGS log_id).last_entry_no := G.last_pos
  obtain ⟨C, M⟩ := ring_feed_seq P s log_id recs F hrec k
  have htot : ((feed_seq P s log_id recs k).LOGS log_id).total_entries =
      k - oldest_index (s.LOGS log_id) k := by
    rw [C.total_entries_eq]
    exact total_eq_index P _ G k
  refine ⟨?_, htot, ?_, ?_⟩
  · exact fetch_oldest_ring P _ G recs hrec _ log_id _ _ C M (by omega) n fuel hn hfuel
  · intro i ho hlt
    apply memcpy_read_eq
    intro b hb
    have hh := (held_iff_index _ hE k i).mpr ⟨ho, hlt⟩
    have := M.stored _ _ b hh hb
    rw [Nat.div_add_mod' i] at this
    simp only [record_addr]
    rw [Nat.add_assoc]
    exact this
  · intro p x hp hx hunc
    apply M.blank p x hp hx
    intro g j hh hmod
    obtain ⟨h1, h2⟩ := index_split (s.LOGS log_id).last_entry_no g j hh.1
    have hh2 : held (s.LOGS log_id) (k / (s.LOGS log_id).last_entry_no)
        (k % (s.LOGS log_id).last_entry_no)
        ((g * (s.LOGS log_id).last_entry_no + j) / (s.LOGS log_id).last_entry_no)
        ((g * (s.LOGS log_id).last_entry_no + j) % (s.LOGS log_id).last_entry_no) := by
      rw [h1, h2]
      exact hh
    obtain ⟨ho, hlt⟩ := (held_iff_index _ hE k _).mp hh2
    have := hunc _ ho hlt (by rw [h1]; exact hmod)
    rw [h2] at this
    exact this

theorem cursor_blank (P : Params) (L0 : log_metadata_t) (G : Geometry P L0)
    (recs : Nat → Buffer) (mem : Flash) (r e : Nat)
    (M : RingMem L0 recs mem r e) (he : e < L0.last_entry_no) (b : Nat)
    (hb : b < L0.size_bytes) :
    mem (L0.page_addrs (r % L0.no_pages) + (e * slot_bytes L0 + b)) = 0xFF := by
  have hc : r % L0.no_pages < L0.no_pages := Nat.mod_lt _ G.pages_pos
  have hsz := G.size_le
  apply M.blank _ _ hc (held_offset P L0 G he hb)
  intro g j hh hmod hcov
  obtain ⟨hj, hwin, hcase⟩ := hh
  rcases hcase with hlt | ⟨hg, hje⟩
  · have := mod_window (Nat.le_of_lt hlt) hwin hmod
    omega
  · have := slot_below (slot_bytes L0) hje
    omega

/-- In a ring state whose cursor is not at the start of a page, request 0 reads
the slot under the cursor, which is blank. -/
theorem fetch_cursor_slot (P : Params) (L0 : log_metadata_t) (G : Geometry P L0)
    (recs : Nat → Buffer) (s : State) (log_id r e : Nat)
    (C : RingCur L0 (s.LOGS log_id) r e) (M : RingMem L0 recs s.nvm.mem r e)
    (he : 1 ≤ e) (fuel : Nat) :
    nvm_logger_fetch_tail_data s log_id 0 fuel =
      some (record_bytes (fun _ => 0xFF) L0.size_bytes) := by
  have hc : r % L0.no_pages < L0.no_pages := Nat.mod_lt _ G.pages_pos
  have hbd := G.page_bound _ hc
  have hew := slot_below (slot_bytes L0) C.entry_lt
  have hfit := G.last_fit
  simp only [nvm_logger_fetch_tail_data, fetch_src]
  rw [if_neg (by rw [C.total_entries_eq]; omega), if_neg (by rw [C.current_entry_no_eq]; omega)]
  simp only [Option.map_some', Nat.mul_zero]
  have hsrc : u32sub (s.LOGS log_id).current_loc (WORD_SIZE * u32 0) =
      L0.page_addrs (r % L0.no_pages) + e * slot_bytes L0 := by
    rw [C.current_loc_eq]
    simp only [u32sub, u32, WORD_SIZE, FLASH_PAGE_SIZE, BYTES_PER_PAGE] at *
    omega
  rw [hsrc, C.size_bytes_eq]
  apply congrArg some
  apply memcpy_read_eq
  intro b hb
  rw [Nat.add_assoc]
  exact cursor_blank P L0 G recs _ r e M C.entry_lt b hb

/-- In a ring state, a request `n` with `1 <= n < current_entry_no` reads the
slot `n` places before the cursor: the `n`-th most recent record counted from 1. -/
theorem fetch_within_page (P : Params) (L0 : log_metadata_t) (G : Geometry P L0)
    (recs : Nat → Buffer) (s : State) (log_id r e : Nat)
    (C : RingCur L0 (s.LOGS log_id) r e) (M : RingMem L0 recs s.nvm.mem r e)
    (n : Nat) (hn1 : 1 ≤ n) (hn : n < e) (fuel : Nat) :
    nvm_logger_fetch_tail_data s log_id n fuel =
      some (record_bytes (recs (r * L0.last_entry_no + (e - n))) L0.size_bytes) := by
  have hc : r % L0.no_pages < L0.no_pages := Nat.mod_lt _ G.pages_pos
  have hbd := G.page_bound _ hc
  have hew := slot_below (slot_bytes L0) C.entry_lt
  have hfit := G.last_fit
  have hne := Nat.mul_le_mul_right (slot_bytes L0) (Nat.le_of_lt hn)
  have hsub : (e - n) * slot_bytes L0 = e * slot_bytes L0 - n * slot_bytes L0 :=
    Nat.sub_mul _ _ _
  have hcomm : L0.entry_size * n = n * L0.entry_size := Nat.mul_comm _ _
  have hnw : n * slot_bytes L0 = 4 * (n * L0.entry_size) := by
    simp only [slot_bytes, WORD_SIZE]
    rw [← Nat.mul_assoc, Nat.mul_comm]
  simp only [nvm_logger_fetch_tail_data, fetch_src]
  rw [if_neg (by rw [C.total_entries_eq]; omega), if_neg (by rw [C.current_entry_no_eq]; omega)]
  simp only [Option.map_some']
  have hsrc : u32sub (s.LOGS log_id).current_loc
      (WORD_SIZE * u32 ((s.LOGS log_id).entry_size * n)) =
      L0.page_addrs (r % L0.no_pages) + (e - n) * slot_bytes L0 := by
    rw [C.current_loc_eq, C.entry_size_eq, hcomm]
    simp only [u32sub, u32, WORD_SIZE, FLASH_PAGE_SIZE, BYTES_PER_PAGE] at *
    omega
  rw [hsrc, C.size_bytes_eq]
  apply congrArg some
  apply memcpy_read_eq
  intro b hb
  rw [Nat.add_assoc]
  have hent := C.entry_lt
  exact M.stored r (e - n) b ⟨by omega, by have := G.pages_pos; omega, Or.inr ⟨rfl, by omega⟩⟩ hb

theorem record_bytes_ne (d d2 : Buffer) (n b : Nat) (hb : b < n) (h : d b ≠ d2 b) :
    record_bytes d n ≠ record_bytes d2 n := by
  intro heq
  apply h
  simp only [record_bytes] at heq
  have := List.map_inj_left.mp heq b (List.mem_range.mpr hb)
  exact this

theorem demo_fresh : FreshLog demo_params demo_state 0 := by
  have hp : ∀ p, p < (demo_state.LOGS 0).no_pages → p = 0 ∨ p = 1 := by
    intro p hp
    change p < 2 at hp
    omega
  refine
    { size_pos := by decide
      size_le := by decide
      entry_size_eq := by decide
      last_eq := by decide
      pages_pos := by decide
      pages_le := by decide
      page_aligned := ?_
      page_bound := ?_
      page_inj := ?_
      current_page_eq := rfl
      current_entry_no_eq := rfl
      total_entries_eq := rfl
      current_loc_eq := rfl
      blank := fun _ _ _ _ => rfl
      meta_lo := by decide
      meta_hi := by decide }
  · intro p h
    rcases hp p h with rfl | rfl <;> decide
  · intro p h
    rcases hp p h with rfl | rfl <;> decide
  · intro p q h1 h2
    rcases hp p h1 with rfl | rfl <;> rcases hp q h2 with rfl | rfl <;> decide

theorem demo_records_not_blank : records_not_blank demo_records (demo_state.LOGS 0).size_bytes := by
  intro i
  refine ⟨0, by decide, ?_⟩
  intro h
  have := congrArg Fin.val h
  simp only [demo_records] at this
  have h255 : ((0xFF : Byte) : Nat) = 255 := rfl
  rw [h255] at this
  omega

theorem blank_record_write (d : Nvmc) (a n : Nat) (h : ∀ x, d.mem x = 0xFF) (x : Nat) :
    (hal_nvmc_write_data d a blank_record n).mem x = 0xFF := by
  simp only [hal_nvmc_write_data, blank_record, h]
  split_ifs
  · exact Byte.ff_and _
  · rfl

/-- Witness of `feed_data_within_page`: the first record fed to the fresh log
of the concrete configuration. -/
theorem feed_data_within_page_witness :
    (demo_state.LOGS 0).current_entry_no + 1 < (demo_state.LOGS 0).last_entry_no
    ∧ ((nvm_logger_feed_data demo_params demo_state 0 (demo_records 0)).LOGS 0).current_entry_no =
        (demo_state.LOGS 0).current_entry_no + 1
    ∧ ((nvm_logger_feed_data demo_params demo_state 0 (demo_records 0)).LOGS 0).total_entries =
        u32 ((demo_state.LOGS 0).total_entries + 1) :=
  ⟨by decide,
   (feed_data_within_page demo_params demo_state 0 (demo_records 0) (by decide)
      (by decide)).2.2.2.2.1,
   (feed_data_within_page demo_params demo_state 0 (demo_records 0) (by decide)
      (by decide)).2.2.2.2.2.1⟩

/-- C2 (code defect): after one record is fed to the fresh log of the concrete
configuration, request 0 copies the blank slot under the cursor, 1020 bytes of
`0xFF`, and not the record just written. -/
theorem fetch_tail_zero_reads_cursor_slot :
    nvm_logger_fetch_tail_data
        (nvm_logger_feed_data demo_params demo_state 0 (demo_records 0)) 0 0 1 =
      some (record_bytes (fun _ => 0xFF) 1020)
    ∧ record_bytes (demo_records 0) 1020 ≠ record_bytes (fun _ => 0xFF) 1020 := by
  obtain ⟨C, M⟩ :=
    ring_feed_seq demo_params demo_state 0 demo_records demo_fresh demo_records_not_blank 1
  refine ⟨?_, ?_⟩
  · exact fetch_cursor_slot demo_params _ demo_fresh.geometry demo_records _ 0 _ _ C M
      (by decide) 1
  · exact record_bytes_ne _ _ 1020 0 (by decide) (by decide)

/-- C3 (code defect): after two records are fed to the fresh log of the concrete
configuration (capacity 8), request `min 2 8 - 1` copies the second record, the
most recent one, while the oldest record still stored is the first. -/
theorem fetch_tail_oldest_of_two :
    nvm_logger_fetch_tail_data (feed_seq demo_params demo_state 0 demo_records 2) 0
        (min 2 ((demo_state.LOGS 0).no_pages * (demo_state.LOGS 0).last_entry_no) - 1) 1 =
      some (record_bytes (demo_records 1) 1020)
    ∧ record_bytes (demo_records 1) 1020 ≠ record_bytes (demo_records 0) 1020
    ∧ memcpy_read (feed_seq demo_params demo_state 0 demo_records 2).nvm.mem
        (record_addr (demo_state.LOGS 0) 0) 1020 = record_bytes (demo_records 0) 1020 := by
  obtain ⟨C, M⟩ :=
    ring_feed_seq demo_params demo_state 0 demo_records demo_fresh demo_records_not_blank 2
  refine ⟨?_, ?_, ?_⟩
  · exact fetch_within_page demo_params _ demo_fresh.geometry demo_records _ 0 _ _ C M 1
      (by decide) (by decide) 1
  · exact record_bytes_ne _ _ 1020 0 (by decide) (by decide)
  · apply memcpy_read_eq
    intro b hb
    have h := M.stored 0 0 b ⟨by decide, by decide, by decide⟩ hb
    have e1 : record_addr (demo_state.LOGS 0) 0 + b =
        (demo_state.LOGS 0).page_addrs (0 % (demo_state.LOGS 0).no_pages) +
          (0 * slot_bytes (demo_state.LOGS 0) + b) := by
      simp [record_addr]
    rw [e1]
    exact h

/-- C4 (code defect): five records are fed to the fresh log of the concrete
configuration (two pages of four slots), so that the cursor is at slot 1 of
page 1 and `total_entries` is 5. Request 1, which is `current_entry_no`, is
resolved to page 0 and slot index 4, which is `last_entry_no` and so not a
record slot: the source address is the page base plus 4080, behind the last
slot, and differs from the slot of the record written one call before the most
recent one (record number 3). -/
theorem fetch_tail_at_page_boundary :
    ((feed_seq demo_params demo_state 0 demo_records 5).LOGS 0).current_entry_no = 1
    ∧ ((feed_seq demo_params demo_state 0 demo_records 5).LOGS 0).total_entries = 5
    ∧ ((feed_seq demo_params demo_state 0 demo_records 5).LOGS 0).last_entry_no = 4
    ∧ fetch_entry_page ((feed_seq demo_params demo_state 0 demo_records 5).LOGS 0) 0 = 0
    ∧ fetch_entry_slot ((feed_seq demo_params demo_state 0 demo_records 5).LOGS 0) 0 0 = 4
    ∧ fetch_src (feed_seq demo_params demo_state 0 demo_records 5) 0 1 1 = some (159744 + 4080)
    ∧ record_addr (demo_state.LOGS 0) 3 = 159744 + 3060 := by
  obtain ⟨C, _⟩ :=
    ring_feed_seq demo_params demo_state 0 demo_records demo_fresh demo_records_not_blank 5
  have hce : ((feed_seq demo_params demo_state 0 demo_records 5).LOGS 0).current_entry_no = 1 :=
    C.current_entry_no_eq
  have hte : ((feed_seq demo_params demo_state 0 demo_records 5).LOGS 0).total_entries = 5 :=
    C.total_entries_eq
  have hle : ((feed_seq demo_params demo_state 0 demo_records 5).LOGS 0).last_entry_no = 4 :=
    C.last_entry_no_eq
  have hnp : ((feed_seq demo_params demo_state 0 demo_records 5).LOGS 0).no_pages = 2 :=
    C.no_pages_eq
  have hes : ((feed_seq demo_params demo_state 0 demo_records 5).LOGS 0).entry_size = 255 :=
    C.entry_size_eq
  have hcp : ((feed_seq demo_params demo_state 0 demo_records 5).LOGS 0).current_page = 1 :=
    C.current_page_eq
  have hcl : ((feed_seq demo_params demo_state 0 demo_records 5).LOGS 0).current_loc =
      156668 := C.current_loc_eq
  have hpa : ((feed_seq demo_params demo_state 0 demo_records 5).LOGS 0).page_addrs =
      demo_page_addrs := C.page_addrs_eq
  have hpage : fetch_entry_page
      ((feed_seq demo_params demo_state 0 demo_records 5).LOGS 0) 0 = 0 := by
    simp only [fetch_entry_page, hcp, hnp, hle, hcl]
    decide
  have hslot : fetch_entry_slot
      ((feed_seq demo_params demo_state 0 demo_records 5).LOGS 0) 0 0 = 4 := by
    simp only [fetch_entry_slot, hcp, hnp, hle]
    decide
  refine ⟨hce, hte, hle, hpage, hslot, ?_, by decide⟩
  simp only [fetch_src, hte, hce, hpage, hslot, hpa, hes]
  decide

theorem scan_all_blank (L : log_metadata_t) (mem : Flash) (h : ∀ x, mem x = 0xFF) :
    ∀ fuel loc, fetch_scan L mem fuel loc = none := by
  intro fuel
  induction fuel with
  | zero => intro loc; rfl
  | succ f ih =>
    intro loc
    have hb : memcmp_empty mem (L.page_addrs loc) (L.entry_size * WORD_SIZE) = true := by
      rw [memcmp_empty_iff]
      intro i _
      exact h _
    simp only [fetch_scan, hb, if_true]
    exact ih _

/-- C5 (counterexample): one record whose 1020 bytes are all `0xFF` is fed to the
fresh log of the concrete configuration. The log then holds one record
(`total_entries` is 1), and request 1 never ends: whatever the number of
iterations allowed, the scan yields no result. -/
theorem fetch_tail_blank_record_never_ends :
    ((nvm_logger_feed_data demo_params demo_state 0 blank_record).LOGS 0).total_entries = 1
    ∧ ¬ ∃ fuel, nvm_logger_fetch_tail_data
        (nvm_logger_feed_data demo_params demo_state 0 blank_record) 0 1 fuel ≠ none := by
  have hlt : (feed_advance (demo_state.LOGS 0)).current_entry_no <
      (demo_state.LOGS 0).last_entry_no := by decide
  have hs := feed_eq_of_lt demo_params demo_state 0 blank_record hlt
  have hte : ((nvm_logger_feed_data demo_params demo_state 0 blank_record).LOGS 0).total_entries
      = 1 := by
    rw [hs]
    decide
  have hmem : ∀ x, (nvm_logger_feed_data demo_params demo_state 0 blank_record).nvm.mem x =
      0xFF := by
    intro x
    rw [hs]
    exact blank_record_write _ _ _ (fun _ => rfl) x
  refine ⟨hte, ?_⟩
  rintro ⟨fuel, hne⟩
  apply hne
  simp only [nvm_logger_fetch_tail_data, fetch_src, hte]
  rw [if_pos (by decide)]
  rw [scan_all_blank _ _ hmem]
  rfl

/-- Witness of `fetch_tail_beyond_total`: nine records fed to the fresh log of
the concrete configuration (capacity 8); request 9 yields record number 4, the
first record of the page filled second. -/
theorem fetch_tail_beyond_total_witness :
    nvm_logger_fetch_tail_data (feed_seq demo_params demo_state 0 demo_records 9) 0 9 2 =
      some (record_bytes (demo_records 4) 1020) :=
  (fetch_tail_beyond_total demo_params demo_state 0 demo_records demo_fresh
    demo_records_not_blank 9 9 2 (by decide)
    (by
      rw [(ring_feed_seq demo_params demo_state 0 demo_records demo_fresh
        demo_records_not_blank 9).1.total_entries_eq]
      decide)
    (by decide)).1

/-- Witness of `feed_data_page_change`: the fourth record fed to the fresh log
of the concrete configuration fills page 0, and five records go through one
page change. -/
theorem feed_data_page_change_witness :
    ((nvm_logger_feed_data demo_params (feed_seq demo_params demo_state 0 demo_records 3) 0
        (demo_records 3)).LOGS 0).current_entry_no = 0
    ∧ rotations demo_params demo_state 0 demo_records ((demo_state.LOGS 0).last_entry_no + 1) =
        1 :=
  have C := (ring_feed_seq demo_params demo_state 0 demo_records demo_fresh
    demo_records_not_blank 3).1
  have h := feed_data_page_change demo_params (feed_seq demo_params demo_state 0 demo_records 3)
    0 (demo_records 3)
    (by rw [C.no_pages_eq]; decide) (by rw [C.no_pages_eq]; decide)
    (by rw [C.last_entry_no_eq]; decide)
    (by rw [C.current_entry_no_eq, C.last_entry_no_eq]; decide)
    demo_state demo_records rfl (by decide) (by decide) (by decide)
  ⟨h.2.2.1, h.2.2.2.2.2.2⟩

/-- C7 (counterexample): with no page free, `nvm_logger_log_init` called with the
configuration of the log already stored in slot 0 returns
`NVM_LOGGER_MAX_LOGS`, not the id 0. -/
theorem log_init_same_config_no_free_page :
    config_matches demo_exhausted_state demo_config
    ∧ demo_exhausted_state.no_avail_pages = 0
    ∧ (nvm_logger_log_init demo_params demo_exhausted_state demo_config 0).2 =
        demo_params.NVM_LOGGER_MAX_LOGS
    ∧ (nvm_logger_log_init demo_params demo_exhausted_state demo_config 0).2 ≠
        demo_config.log_id := by
  have h := log_init_eq_of_full demo_params demo_exhausted_state demo_config 0 rfl
  rw [h]
  exact ⟨by decide, rfl, rfl, by decide⟩

/-- Witness of `log_init_same_config`: the concrete configuration with two pages
free. -/
theorem log_init_same_config_witness :
    (nvm_logger_log_init demo_params demo_state demo_config 0).2 = demo_config.log_id
    ∧ (nvm_logger_log_init demo_params demo_state demo_config 0).1.no_avail_pages =
        demo_state.no_avail_pages :=
  have h := log_init_same_config demo_params demo_state demo_config 0 (by decide) (by decide)
    (by decide)
  ⟨h.1, h.2.2.1⟩

/-- Witness of `log_init_not_enough_pages`: a new log of three pages requested
from the concrete configuration, which has two pages free. -/
theorem log_init_not_enough_pages_witness :
    (nvm_logger_log_init demo_params demo_state { demo_new_config with no_of_pages := 3 } 0).2 =
        demo_params.NVM_LOGGER_MAX_LOGS
    ∧ (nvm_logger_log_init demo_params demo_state { demo_new_config with no_of_pages := 3 } 0).1
        = demo_state :=
  log_init_not_enough_pages demo_params demo_state { demo_new_config with no_of_pages := 3 } 0
    (by decide) (by decide)

/-- C10 (code defect): both directory slots are occupied, one page is free, and
the configuration differs from the log in slot 0. `nvm_logger_log_init` returns
the id 0 of that log instead of `NVM_LOGGER_MAX_LOGS`, lowers the free-page
count from 1 to 0 and writes the page metadata of both pages of log 0. -/
theorem log_init_directory_full_returns_id :
    (∀ i, i < demo_params.NVM_LOGGER_MAX_LOGS →
      is_empty_log demo_params (demo_full_state.LOGS i) = false)
    ∧ ¬ config_matches demo_full_state demo_new_config
    ∧ demo_new_config.no_of_pages ≤ demo_full_state.no_avail_pages
    ∧ (nvm_logger_log_init demo_params demo_full_state demo_new_config 0).2 = 0
    ∧ (nvm_logger_log_init demo_params demo_full_state demo_new_config 0).2 ≠
        demo_params.NVM_LOGGER_MAX_LOGS
    ∧ demo_full_state.no_avail_pages = 1
    ∧ (nvm_logger_log_init demo_params demo_full_state demo_new_config 0).1.no_avail_pages = 0
    ∧ (nvm_logger_log_init demo_params demo_full_state demo_new_config 0).1.nvm.calls =
        [HalCall.write (159744 + 4080) 12, HalCall.write (155648 + 4080) 12] := by
  have hfull : ∀ i, i < demo_params.NVM_LOGGER_MAX_LOGS →
      is_empty_log demo_params (demo_full_state.LOGS i) = false := by
    intro i hi
    have : i = 0 ∨ i = 1 := by
      change i < 2 at hi
      omega
    rcases this with rfl | rfl <;> decide
  have h := log_init_directory_full demo_params demo_full_state demo_new_config 0 (by decide)
    hfull (by decide) (by decide) (by decide) (by decide)
  rw [h]
  exact ⟨hfull, by decide, by decide, rfl, by decide, rfl, by decide, by decide⟩

theorem demo_one_record_mem (x : Nat) :
    demo_one_record_state.nvm.mem x =
      if 159744 ≤ x ∧ x < 159744 + 1020 then demo_records 0 (x - 159744) else 0xFF := by
  have hlt : (feed_advance (demo_state.LOGS 0)).current_entry_no <
      (demo_state.LOGS 0).last_entry_no := by decide
  have hs := feed_eq_of_lt demo_params demo_state 0 (demo_records 0) hlt
  unfold demo_one_record_state
  rw [hs]
  show (hal_nvmc_write_data demo_state.nvm 159744 (demo_records 0) 1020).mem x = _
  simp only [hal_nvmc_write_data]
  split_ifs
  · exact Byte.ff_and _
  · rfl

theorem demo_one_record_blank (a : Nat) (h : 160764 ≤ a ∨ a + 1020 ≤ 159744) :
    memcmp_empty demo_one_record_state.nvm.mem a 1020 = true := by
  rw [memcmp_empty_iff]
  intro i hi
  rw [demo_one_record_mem, if_neg (by omega)]

theorem demo_one_record_first :
    memcmp_empty demo_one_record_state.nvm.mem 159744 1020 = false := by
  rw [Bool.eq_false_iff, Ne, memcmp_empty_iff]
  intro hall
  have h := hall 0 (by decide)
  rw [demo_one_record_mem, if_pos (by decide)] at h
  revert h
  decide

theorem demo_one_record_count :
    nonblank_slots (demo_one_record_state.LOGS 0) demo_one_record_state.nvm.mem = 1 := by
  have h1 : (demo_one_record_state.LOGS 0).no_pages = 2 := by decide
  have h2 : (demo_one_record_state.LOGS 0).last_entry_no = 4 := by decide
  have h3 : (demo_one_record_state.LOGS 0).entry_size = 255 := by decide
  have h4 : (demo_one_record_state.LOGS 0).page_addrs = demo_page_addrs := by
    unfold demo_one_record_state
    exact (feed_static demo_params demo_state 0 (demo_records 0)).2.1
  have e00 : slot_addr (demo_page_addrs 0) 255 0 = 159744 := by decide
  have e01 : slot_addr (demo_page_addrs 0) 255 1 = 160764 := by decide
  have e02 : slot_addr (demo_page_addrs 0) 255 2 = 161784 := by decide
  have e03 : slot_addr (demo_page_addrs 0) 255 3 = 162804 := by decide
  have e10 : slot_addr (demo_page_addrs 1) 255 0 = 155648 := by decide
  have e11 : slot_addr (demo_page_addrs 1) 255 1 = 156668 := by decide
  have e12 : slot_addr (demo_page_addrs 1) 255 2 = 157688 := by decide
  have e13 : slot_addr (demo_page_addrs 1) 255 3 = 158708 := by decide
  have hr2 : List.range 2 = [0, 1] := by decide
  have hr4 : List.range 4 = [0, 1, 2, 3] := by decide
  simp only [nonblank_slots, h1, h2, h3, h4, hr2, hr4, List.map_cons, List.map_nil,
    List.filter_cons, List.filter_nil, e00, e01, e02, e03, e10, e11, e12, e13,
    demo_one_record_first, Nat.reduceMul,
    demo_one_record_blank 160764 (by omega), demo_one_record_blank 161784 (by omega),
    demo_one_record_blank 162804 (by omega), demo_one_record_blank 155648 (by omega),
    demo_one_record_blank 156668 (by omega), demo_one_record_blank 157688 (by omega),
    demo_one_record_blank 158708 (by omega)]
  decide

/-- C8 (code defect): the concrete configuration holds one record, in one slot
that is not blank, and `total_entries` is 1. Calling `nvm_logger_log_init` again
with the same configuration makes `total_entries` 2, and calling it once more
makes it 3: the count of the scan is added to the old value. -/
theorem log_init_again_adds_count :
    nonblank_slots (demo_one_record_state.LOGS 0) demo_one_record_state.nvm.mem = 1
    ∧ (demo_one_record_state.LOGS 0).total_entries = 1
    ∧ config_matches demo_one_record_state demo_config
    ∧ ((nvm_logger_log_init demo_params demo_one_record_state demo_config 0).1.LOGS 0).total_entries
        = 2
    ∧ ((nvm_logger_log_init demo_params
          (nvm_logger_log_init demo_params demo_one_record_state demo_config 0).1
          demo_config 0).1.LOGS 0).total_entries = 3 := by
  have hm : config_matches demo_one_record_state demo_config := by decide
  have h0 : demo_one_record_state.no_avail_pages ≠ 0 := by decide
  have hte : (demo_one_record_state.LOGS 0).total_entries = 1 := by decide
  have hinit := log_init_eq_of_match demo_params demo_one_record_state demo_config 0 h0 hm
  have hfr := get_total_entries_frame demo_one_record_state 0
  have htot := get_total_entries_total demo_one_record_state 0 (by rw [hte]; decide)
  rw [hte, demo_one_record_count] at htot
  obtain ⟨hf1, _, hf3, _, hf5, hf6, hf7, hf8, hf9, _, _, _⟩ := hfr
  have hm2 : config_matches (get_total_entries demo_one_record_state 0) demo_config := by
    refine ⟨?_, ?_, ?_⟩
    · exact hf8.trans hm.1
    · exact hf6.trans hm.2.1
    · show ((get_total_entries demo_one_record_state 0).LOGS 0).page_addrs 0 = _
      rw [hf5]
      exact hm.2.2
  have h02 : (get_total_entries demo_one_record_state 0).no_avail_pages ≠ 0 := by
    rw [hf1]
    exact h0
  have hcount2 : nonblank_slots ((get_total_entries demo_one_record_state 0).LOGS 0)
      (get_total_entries demo_one_record_state 0).nvm.mem = 1 := by
    rw [hf3]
    simp only [nonblank_slots, hf5, hf6, hf7, hf9]
    exact demo_one_record_count
  have htot2 := get_total_entries_total (get_total_entries demo_one_record_state 0) 0
    (by rw [htot]; decide)
  rw [htot, hcount2] at htot2
  refine ⟨demo_one_record_count, hte, hm, ?_, ?_⟩
  · rw [hinit]
    exact htot
  · rw [hinit]
    show ((nvm_logger_log_init demo_params (get_total_entries demo_one_record_state 0)
      demo_config 0).1.LOGS 0).total_entries = 3
    rw [log_init_eq_of_match demo_params _ demo_config 0 h02 hm2]
    exact htot2

theorem scan_step_blank (fl : Flash) (fuel : Nat) (L : log_metadata_t) (p j : Nat)
    (hj : j < L.last_entry_no)
    (hb : memcmp_empty fl (scan_addr L p j) (4 * L.entry_size) = true) :
    get_next_loc_loop fl (fuel + 1) L p (scan_addr L p j) j =
      Outcome.done (with_cursor L p j, scan_addr L p j) := by
  simp only [get_next_loc_loop, hb, if_true]
  rw [if_neg (by simp only [ge_iff_le, not_le]; exact hj)]
  rfl

theorem scan_step_next (fl : Flash) (fuel : Nat) (L : log_metadata_t) (p j : Nat)
    (hj : j + 1 < L.last_entry_no) (hl : L.last_entry_no < 4294967296)
    (hb : memcmp_empty fl (scan_addr L p j) (4 * L.entry_size) = false) :
    get_next_loc_loop fl (fuel + 1) L p (scan_addr L p j) j =
      get_next_loc_loop fl fuel L p (scan_addr L p (j + 1)) (j + 1) := by
  have hu : u32 (j + 1) = j + 1 := by
    unfold u32
    omega
  simp only [get_next_loc_loop, hb, hu]
  rw [if_neg (by simp), if_neg (by simp only [ge_iff_le, not_le]; exact hj)]
  rfl

theorem scan_step_wrap (fl : Flash) (fuel : Nat) (L : log_metadata_t) (p j : Nat)
    (hj : j + 1 = L.last_entry_no) (hl : L.last_entry_no < 4294967296)
    (hp : p < L.no_pages) (hn : L.no_pages < 256)
    (hb : memcmp_empty fl (scan_addr L p j) (4 * L.entry_size) = false) :
    get_next_loc_loop fl (fuel + 1) L p (scan_addr L p j) j =
      get_next_loc_loop fl fuel L ((p + 1) % L.no_pages)
        (scan_addr L ((p + 1) % L.no_pages) 0) 0 := by
  have hu : u32 (j + 1) = j + 1 := by
    unfold u32
    omega
  have hu2 : u32 (p + 1) = p + 1 := by
    unfold u32
    omega
  simp only [get_next_loc_loop, hb, hu, hu2]
  rw [if_neg (by simp), if_pos (by simp only [ge_iff_le]; omega), if_neg (by omega)]
  rfl

theorem scan_finds (fl : Flash) (L : log_metadata_t) (p0 j0 : Nat)
    (F : FirstBlank L fl p0 j0) :
    ∀ fuel p j, p < L.no_pages → j < L.last_entry_no →
      p * L.last_entry_no + j ≤ p0 * L.last_entry_no + j0 →
      p0 * L.last_entry_no + j0 < p * L.last_entry_no + j + fuel →
      get_next_loc_loop fl fuel L p (scan_addr L p j) j =
        Outcome.done (with_cursor L p0 j0, scan_addr L p0 j0) := by
  intro fuel
  induction fuel with
  | zero =>
    intro p j _ _ h1 h2
    omega
  | succ f ih =>
    intro p j hp hj h1 h2
    by_cases heq : p * L.last_entry_no + j = p0 * L.last_entry_no + j0
    · have e1 := index_split L.last_entry_no p j hj
      have e2 := index_split L.last_entry_no p0 j0 F.slot_lt
      rw [heq] at e1
      have hpp : p = p0 := by rw [← e1.1, e2.1]
      have hjj : j = j0 := by rw [← e1.2, e2.2]
      subst hpp
      subst hjj
      exact scan_step_blank fl f L p j hj F.blank
    · have hlt : p * L.last_entry_no + j < p0 * L.last_entry_no + j0 := by omega
      have hnb := F.before p j hp hj hlt
      by_cases hnext : j + 1 < L.last_entry_no
      · rw [scan_step_next fl f L p j hnext F.last_lt hnb]
        exact ih p (j + 1) hp hnext (by omega) (by omega)
      · have hlast : j + 1 = L.last_entry_no := by omega
        have hsucc : (p + 1) * L.last_entry_no = p * L.last_entry_no + L.last_entry_no :=
          Nat.succ_mul _ _
        have hp0 : p < p0 := by
          by_contra hge
          have hge2 : p0 ≤ p := by omega
          have := Nat.mul_le_mul_right L.last_entry_no hge2
          have := F.slot_lt
          omega
        have hp1 : p + 1 < L.no_pages := by
          have := F.page_lt
          omega
        have hle : (p + 1) * L.last_entry_no ≤ p0 * L.last_entry_no :=
          Nat.mul_le_mul_right _ hp0
        rw [scan_step_wrap fl f L p j hlast F.last_lt hp F.pages_lt hnb,
          Nat.mod_eq_of_lt hp1]
        exact ih (p + 1) 0 hp1 (by omega) (by omega) (by omega)

theorem get_next_loc_finds (s : State) (log_id fuel p0 j0 : Nat)
    (F : FirstBlank (s.LOGS log_id) s.nvm.mem p0 j0)
    (hfuel : p0 * (s.LOGS log_id).last_entry_no + j0 < fuel) :
    get_next_loc s log_id fuel =
      Outcome.done
        ({ s with LOGS := Function.update s.LOGS log_id (with_cursor (s.LOGS log_id) p0 j0) },
          scan_addr (s.LOGS log_id) p0 j0) := by
  have h := scan_finds s.nvm.mem (s.LOGS log_id) p0 j0 F fuel 0 0
    (by have := F.page_lt; omega) (by have := F.slot_lt; omega) (by omega) (by omega)
  unfold get_next_loc
  have e0 : (s.LOGS log_id).page_addrs 0 = scan_addr (s.LOGS log_id) 0 0 := rfl
  rw [e0, h]

/-- A log none of whose record slots is blank: the loop of `get_next_loc` goes
round its pages and does not end, whatever the number of iterations allowed. -/
theorem scan_never_ends (fl : Flash) (L : log_metadata_t)
    (hn : L.no_pages < 256) (hl : L.last_entry_no < 4294967296)
    (hfull : ∀ p j, p < L.no_pages → j < L.last_entry_no →
      memcmp_empty fl (scan_addr L p j) (4 * L.entry_size) = false) :
    ∀ fuel p j, p < L.no_pages → j < L.last_entry_no →
      get_next_loc_loop fl fuel L p (scan_addr L p j) j = Outcome.unfinished := by
  intro fuel
  induction fuel with
  | zero =>
    intro p j _ _
    rfl
  | succ f ih =>
    intro p j hp hj
    have hnb := hfull p j hp hj
    by_cases hnext : j + 1 < L.last_entry_no
    · rw [scan_step_next fl f L p j hnext hl hnb]
      exact ih p (j + 1) hp hnext
    · have hlast : j + 1 = L.last_entry_no := by omega
      rw [scan_step_wrap fl f L p j hlast hl hp hn hnb]
      exact ih _ 0 (Nat.mod_lt _ (by omega)) (by omega)

/-- A directory slot that owns no page (every member zero): `get_next_loc`
takes the slot for blank, its comparison being over zero bytes, and then
evaluates `(page_no + 1) % no_pages` with `no_pages` zero. -/
theorem get_next_loc_no_pages (s : State) (log_id fuel : Nat)
    (hes : (s.LOGS log_id).entry_size = 0) (hlast : (s.LOGS log_id).last_entry_no = 0)
    (hnp : (s.LOGS log_id).no_pages = 0) :
    get_next_loc s log_id (fuel + 1) = Outcome.div_zero := by
  have hb : memcmp_empty s.nvm.mem ((s.LOGS log_id).page_addrs 0)
      (4 * (s.LOGS log_id).entry_size) = true := by
    rw [hes]
    rfl
  unfold get_next_loc
  simp only [get_next_loc_loop, hb, if_true, hlast, hnp, ge_iff_le, le_refl]

theorem Outcome.eq_done_of_is_done {α : Type} (o : Outcome α) (d : α) (h : o.is_done = true) :
    o = Outcome.done (o.result d) := by
  cases o with
  | done a => rfl
  | div_zero => simp [Outcome.is_done] at h
  | out_of_bounds => simp [Outcome.is_done] at h
  | unfinished => simp [Outcome.is_done] at h

theorem mod_init_eq (P : Params) (s : State) (fuel : Nat) (s1 : State)
    (h : mod_init_scan P s = Outcome.done s1) :
    nvm_logger_mod_init P s fuel = mod_init_cursors fuel P.NVM_LOGGER_MAX_LOGS 0 s1 := by
  unfold mod_init_scan at h
  unfold nvm_logger_mod_init
  rw [h]

theorem mod_init_cursors_run (fuel : Nat) (cur : Nat → Nat × Nat) :
    ∀ n k s,
      (∀ i, k ≤ i → i < k + n →
        FirstBlank (s.LOGS i) s.nvm.mem (cur i).1 (cur i).2 ∧
        (cur i).1 * (s.LOGS i).last_entry_no + (cur i).2 < fuel) →
      ∃ s2, mod_init_cursors fuel n k s = Outcome.done s2
        ∧ s2.nvm = s.nvm ∧ s2.no_avail_pages = s.no_avail_pages
        ∧ s2.avail_pages = s.avail_pages
        ∧ (∀ i, k ≤ i → i < k + n →
            s2.LOGS i = with_cursor (s.LOGS i) (cur i).1 (cur i).2)
        ∧ (∀ i, ¬ (k ≤ i ∧ i < k + n) → s2.LOGS i = s.LOGS i) := by
  intro n
  induction n with
  | zero =>
    intro k s _
    exact ⟨s, rfl, rfl, rfl, rfl, fun i h1 h2 => by omega, fun _ _ => rfl⟩
  | succ m ih =>
    intro k s h
    obtain ⟨F, hf⟩ := h k (le_refl _) (by omega)
    have hstep := get_next_loc_finds s k fuel _ _ F hf
    generalize hs : ({ s with
        LOGS := Function.update s.LOGS k
                  (with_cursor (s.LOGS k) (cur k).1 (cur k).2) } : State) = s1 at hstep
    have hL : s1.LOGS = Function.update s.LOGS k (with_cursor (s.LOGS k) (cur k).1 (cur k).2) := by
      rw [← hs]
    have hN : s1.nvm = s.nvm := by rw [← hs]
    have hA : s1.no_avail_pages = s.no_avail_pages ∧ s1.avail_pages = s.avail_pages := by
      rw [← hs]
      exact ⟨rfl, rfl⟩
    have hrest : ∀ i, k + 1 ≤ i → i < k + 1 + m →
        FirstBlank (s1.LOGS i) s1.nvm.mem (cur i).1 (cur i).2 ∧
        (cur i).1 * (s1.LOGS i).last_entry_no + (cur i).2 < fuel := by
      intro i h1 h2
      have hne : i ≠ k := by omega
      rw [hL, hN]
      simp only [Function.update_noteq hne]
      exact h i (by omega) (by omega)
    obtain ⟨s2, e, h1, h2, h3, h4, h5⟩ := ih (k + 1) s1 hrest
    rw [hN] at h1
    rw [hA.1] at h2
    rw [hA.2] at h3
    rw [hL] at h4 h5
    refine ⟨s2, ?_, h1, h2, h3, ?_, ?_⟩
    · simp only [mod_init_cursors, hstep]
      exact e
    · intro i hi1 hi2
      by_cases hik : i = k
      · subst hik
        rw [h5 i (by omega)]
        simp
      · rw [h4 i (by omega) (by omega)]
        simp only [Function.update_noteq hik]
    · intro i hi
      have hik : i ≠ k := by omega
      rw [h5 i (by omega)]
      simp only [Function.update_noteq hik]

theorem prepare_log_metadata_nvm (P : Params) (s s1 : State) (p_mem_loc page_no : Nat)
    (h : prepare_log_metadata P s p_mem_loc page_no = Outcome.done s1) : s1.nvm = s.nvm := by
  unfold prepare_log_metadata at h
  split_ifs at h
  · injection h with h
    rw [← h]
  · injection h with h
    rw [← h]

theorem mod_init_pages_nvm (P : Params) :
    ∀ n page_no p_mem_loc s s1,
      mod_init_pages P n page_no p_mem_loc s = Outcome.done s1 → s1.nvm = s.nvm := by
  intro n
  induction n with
  | zero =>
    intro page_no p_mem_loc s s1 h
    injection h with h
    rw [← h]
  | succ m ih =>
    intro page_no p_mem_loc s s1 h
    simp only [mod_init_pages] at h
    split at h
    · rename_i s2 hs2
      rw [ih _ _ _ _ h, prepare_log_metadata_nvm P _ _ _ _ hs2]
    · exact absurd h (by simp)
    · exact absurd h (by simp)
    · exact absurd h (by simp)

theorem boot_scan_done :
    mod_init_scan demo_params (reset_state boot_flash) = Outcome.done boot_scanned :=
  Outcome.eq_done_of_is_done _ _ (by decide)

theorem boot_scanned_mem : boot_scanned.nvm.mem = boot_flash := by
  have h := mod_init_pages_nvm demo_params _ _ _ _ _ boot_scan_done
  rw [h]
  rfl

theorem boot_flash_blank (a : Nat) (h : a < 159728 ∨ (159740 ≤ a ∧ a < 163824) ∨ 163836 ≤ a) :
    boot_flash a = 0xFF := by
  unfold boot_flash
  rw [if_neg (by omega), if_neg (by omega)]

theorem boot_first_blank (i : Nat) (hi : i < 2) :
    FirstBlank (boot_scanned.LOGS i) boot_scanned.nvm.mem 0 0 := by
  have hc : i = 0 ∨ i = 1 := by omega
  have hes : (boot_scanned.LOGS i).entry_size = 255 := by
    rcases hc with rfl | rfl <;> decide
  have hpa : (boot_scanned.LOGS i).page_addrs 0 = 159744 - 4096 * i := by
    rcases hc with rfl | rfl <;> decide
  refine ⟨?_, ?_, ?_, ?_, ?_, ?_⟩
  · rcases hc with rfl | rfl <;> decide
  · rcases hc with rfl | rfl <;> decide
  · rcases hc with rfl | rfl <;> decide
  · rcases hc with rfl | rfl <;> decide
  · rw [memcmp_empty_iff, boot_scanned_mem, hes]
    intro b hb
    show boot_flash ((boot_scanned.LOGS i).page_addrs 0 + b) = 0xFF
    rw [hpa]
    apply boot_flash_blank
    omega
  · intro p j _ _ h
    omega

/-- Recovery completes when, after the pages loop, each directory slot holds a
log with a blank record slot. -/
theorem mod_init_run (P : Params) (s s1 : State) (cur : Nat → Nat × Nat) (fuel : Nat)
    (hscan : mod_init_scan P s = Outcome.done s1)
    (hlogs : ∀ i, i < P.NVM_LOGGER_MAX_LOGS →
      FirstBlank (s1.LOGS i) s1.nvm.mem (cur i).1 (cur i).2)
    (hfuel : ∀ i, i < P.NVM_LOGGER_MAX_LOGS →
      (cur i).1 * (s1.LOGS i).last_entry_no + (cur i).2 < fuel) :
    ∃ s2, nvm_logger_mod_init P s fuel = Outcome.done s2
      ∧ s2.nvm = s1.nvm ∧ s2.no_avail_pages = s1.no_avail_pages
      ∧ s2.avail_pages = s1.avail_pages
      ∧ (∀ i, i < P.NVM_LOGGER_MAX_LOGS →
          s2.LOGS i = with_cursor (s1.LOGS i) (cur i).1 (cur i).2)
      ∧ (∀ i, P.NVM_LOGGER_MAX_LOGS ≤ i → s2.LOGS i = s1.LOGS i) := by
  obtain ⟨s2, e, h1, h2, h3, h4, h5⟩ :=
    mod_init_cursors_run fuel cur P.NVM_LOGGER_MAX_LOGS 0 s1
      (fun i _ hi => ⟨hlogs i (by omega), hfuel i (by omega)⟩)
  refine ⟨s2, ?_, h1, h2, h3, ?_, ?_⟩
  · rw [mod_init_eq P s fuel s1 hscan]
    exact e
  · intro i hi
    exact h4 i (Nat.zero_le _) (by omega)
  · intro i hi
    exact h5 i (by omega)

theorem full_scan_done :
    mod_init_scan demo_params (reset_state full_flash) = Outcome.done full_scanned :=
  Outcome.eq_done_of_is_done _ _ (by decide)

theorem full_scanned_mem : full_scanned.nvm.mem = full_flash := by
  have h := mod_init_pages_nvm demo_params _ _ _ _ _ full_scan_done
  rw [h]
  rfl

theorem full_flash_slot (j : Nat) (hj : j < 4) :
    memcmp_empty full_flash (159744 + 1020 * j) 1020 = false := by
  rw [Bool.eq_false_iff, Ne, memcmp_empty_iff]
  intro hall
  have h := hall 0 (by decide)
  have e : full_flash (159744 + 1020 * j + 0) = 1 := by
    unfold full_flash
    rw [if_pos (by omega)]
  rw [e] at h
  revert h
  decide

/-- The page of log 0 is full, each of its four record slots holding a record of
bytes `0x01`, and its page metadata is valid. The pages loop of
`nvm_logger_mod_init` recovers the log (one page, four slots of 255 words), and
the call of `get_next_loc` for it does not end: whatever the number of
iterations allowed, `nvm_logger_mod_init` has not completed. -/
theorem mod_init_full_log_never_ends :
    (full_scanned.LOGS 0).no_pages = 1
    ∧ (full_scanned.LOGS 0).last_entry_no = 4
    ∧ (full_scanned.LOGS 0).entry_size = 255
    ∧ (full_scanned.LOGS 0).page_addrs 0 = 159744
    ∧ ∀ fuel, nvm_logger_mod_init demo_params (reset_state full_flash) fuel =
        Outcome.unfinished := by
  refine ⟨by decide, by decide, by decide, by decide, ?_⟩
  intro fuel
  rw [mod_init_eq demo_params _ fuel full_scanned full_scan_done]
  have hfull : ∀ p j, p < (full_scanned.LOGS 0).no_pages →
      j < (full_scanned.LOGS 0).last_entry_no →
      memcmp_empty full_scanned.nvm.mem (scan_addr (full_scanned.LOGS 0) p j)
        (4 * (full_scanned.LOGS 0).entry_size) = false := by
    intro p j hp hj
    have hp0 : p = 0 := by
      have : (full_scanned.LOGS 0).no_pages = 1 := by decide
      omega
    have hj4 : j < 4 := by
      have : (full_scanned.LOGS 0).last_entry_no = 4 := by decide
      omega
    have hes : (full_scanned.LOGS 0).entry_size = 255 := by decide
    subst hp0
    rw [full_scanned_mem, hes]
    have ha : scan_addr (full_scanned.LOGS 0) 0 j = 159744 + 1020 * j := by
      have hc : j = 0 ∨ j = 1 ∨ j = 2 ∨ j = 3 := by omega
      rcases hc with rfl | rfl | rfl | rfl <;> decide
    rw [ha]
    exact full_flash_slot j hj4
  have hscan := scan_never_ends full_scanned.nvm.mem (full_scanned.LOGS 0) (by decide)
    (by decide) hfull fuel 0 0 (by decide) (by decide)
  have hget : get_next_loc full_scanned 0 fuel = Outcome.unfinished := by
    unfold get_next_loc
    have e0 : (full_scanned.LOGS 0).page_addrs 0 = scan_addr (full_scanned.LOGS 0) 0 0 := rfl
    rw [e0, hscan]
  show mod_init_cursors fuel 2 0 full_scanned = Outcome.unfinished
  simp only [mod_init_cursors, hget]

theorem blank_scan_done :
    mod_init_scan demo_params (reset_state (fun _ => 0xFF)) = Outcome.done blank_scanned :=
  Outcome.eq_done_of_is_done _ _ (by decide)

/-- C23 (code defect): the flash is erased, every byte reading `0xFF`, as
before the first log is created. The pages loop of `nvm_logger_mod_init` ends
and leaves the directory as it was after reset: slot 0 owns no page, and its
`entry_size` and `last_entry_no` are 0. The call of `get_next_loc` for slot 0
compares zero bytes, takes the slot at address `page_addrs[0]` for blank, and
then, `current_page_entry_no >= last_entry_no` being `0 >= 0`, evaluates
`(page_no + 1) % no_pages` with `no_pages` 0: whatever the number of iterations
allowed, `nvm_logger_mod_init` ends in a remainder by zero and does not
complete. -/
theorem mod_init_blank_flash_div_zero :
    (∀ p, p < 4 → page_erased demo_params (fun _ => 0xFF) p = true)
    ∧ mod_init_scan demo_params (reset_state (fun _ => 0xFF)) = Outcome.done blank_scanned
    ∧ (blank_scanned.LOGS 0).no_pages = 0
    ∧ (blank_scanned.LOGS 0).entry_size = 0
    ∧ (blank_scanned.LOGS 0).last_entry_no = 0
    ∧ ∀ fuel, nvm_logger_mod_init demo_params (reset_state (fun _ => 0xFF)) (fuel + 1) =
        Outcome.div_zero := by
  refine ⟨by decide, blank_scan_done, by decide, by decide, by decide, ?_⟩
  intro fuel
  rw [mod_init_eq demo_params _ (fuel + 1) blank_scanned blank_scan_done]
  have hget := get_next_loc_no_pages blank_scanned 0 fuel (by decide) (by decide) (by decide)
  show mod_init_cursors (fuel + 1) 2 0 blank_scanned = Outcome.div_zero
  simp only [mod_init_cursors, hget]

theorem State.eq_of_fields (a b : State) (h1 : a.no_avail_pages = b.no_avail_pages)
    (h2 : a.LOGS = b.LOGS) (h3 : a.avail_pages = b.avail_pages) (h4 : a.nvm = b.nvm) :
    a = b := by
  cases a
  cases b
  simp only at h1 h2 h3 h4
  subst h1 h2 h3 h4
  rfl

theorem boot_init_done :
    nvm_logger_mod_init demo_params (reset_state boot_flash) 1 = Outcome.done boot_state := by
  obtain ⟨s2, e, h1, h2, h3, h4, h5⟩ :=
    mod_init_run demo_params (reset_state boot_flash) boot_scanned (fun _ => (0, 0)) 1
      boot_scan_done (fun i hi => boot_first_blank i hi) (fun i _ => by simp)
  rw [e]
  apply congrArg
  apply State.eq_of_fields
  · exact h2
  · funext i
    show s2.LOGS i = if i < 2 then with_cursor (boot_scanned.LOGS i) 0 0 else boot_scanned.LOGS i
    by_cases hi : i < 2
    · rw [if_pos hi]
      exact h4 i hi
    · rw [if_neg hi]
      exact h5 i (by
        show 2 ≤ i
        omega)
  · exact h3
  · exact h1

theorem boot_rescan_done : mod_init_scan demo_params boot_state = Outcome.done boot_rescanned :=
  Outcome.eq_done_of_is_done _ _ (by decide)

theorem boot_rescanned_mem : boot_rescanned.nvm.mem = boot_flash := by
  have h := mod_init_pages_nvm demo_params _ _ _ _ _ boot_rescan_done
  rw [h]
  exact boot_scanned_mem

theorem boot_rescanned_first_blank (i : Nat) (hi : i < 2) :
    FirstBlank (boot_rescanned.LOGS i) boot_rescanned.nvm.mem 0 0 := by
  have hc : i = 0 ∨ i = 1 := by omega
  have hes : (boot_rescanned.LOGS i).entry_size = 255 := by
    rcases hc with rfl | rfl <;> decide
  have hpa : (boot_rescanned.LOGS i).page_addrs 0 = 159744 - 4096 * i := by
    rcases hc with rfl | rfl <;> decide
  refine ⟨?_, ?_, ?_, ?_, ?_, ?_⟩
  · rcases hc with rfl | rfl <;> decide
  · rcases hc with rfl | rfl <;> decide
  · rcases hc with rfl | rfl <;> decide
  · rcases hc with rfl | rfl <;> decide
  · rw [memcmp_empty_iff, boot_rescanned_mem, hes]
    intro b hb
    show boot_flash ((boot_rescanned.LOGS i).page_addrs 0 + b) = 0xFF
    rw [hpa]
    apply boot_flash_blank
    omega
  · intro p j _ _ h
    omega

/-- C13 (code defect): recovery is run twice on the concrete flash, which holds
two logs of one page each. After the first run each log has `no_pages` 1 and
two pages are free. The second run completes too and leaves the free-page count
at 2, but each log now has `no_pages` 2: the pages loop counts every page again
on top of the count of the first run. -/
theorem mod_init_twice_doubles_no_pages :
    nvm_logger_mod_init demo_params (reset_state boot_flash) 1 = Outcome.done boot_state
    ∧ (boot_state.LOGS 0).no_pages = 1
    ∧ (boot_state.LOGS 1).no_pages = 1
    ∧ boot_state.no_avail_pages = 2
    ∧ ∃ s3, nvm_logger_mod_init demo_params boot_state 1 = Outcome.done s3
        ∧ (s3.LOGS 0).no_pages = 2
        ∧ (s3.LOGS 1).no_pages = 2
        ∧ s3.no_avail_pages = 2
        ∧ (s3.LOGS 0).page_addrs 0 = (boot_state.LOGS 0).page_addrs 0
        ∧ (s3.LOGS 0).page_addrs 1 = 0 := by
  refine ⟨boot_init_done, by decide, by decide, by decide, ?_⟩
  obtain ⟨s3, e, _, h2, _, h4, _⟩ :=
    mod_init_run demo_params boot_state boot_rescanned (fun _ => (0, 0)) 1
      boot_rescan_done (fun i hi => boot_rescanned_first_blank i hi) (fun i _ => by simp)
  refine ⟨s3, e, ?_, ?_, ?_, ?_, ?_⟩
  · rw [h4 0 (by decide)]
    decide
  · rw [h4 1 (by decide)]
    decide
  · rw [h2]
    decide
  · rw [h4 0 (by decide)]
    decide
  · rw [h4 0 (by decide)]
    decide

/-- C16 (code defect): after recovery from the concrete flash, log 0 has one
page of four record slots. Three records are fed to it, the log is emptied, and
three records are fed again. `nvm_logger_empty_log` resets the cursor but not
`total_entries`, which is then 6, more than `no_pages * last_entry_no`, which
is 4. -/
theorem empty_log_keeps_total_entries :
    nvm_logger_mod_init demo_params (reset_state boot_flash) 1 = Outcome.done boot_state
    ∧ ((feed_seq demo_params boot_state 0 demo_records 3).LOGS 0).total_entries = 3
    ∧ ((nvm_logger_empty_log demo_params
          (feed_seq demo_params boot_state 0 demo_records 3) 0).LOGS 0).total_entries = 3
    ∧ ((nvm_logger_empty_log demo_params
          (feed_seq demo_params boot_state 0 demo_records 3) 0).LOGS 0).current_entry_no = 0
    ∧ ((feed_seq demo_params
          (nvm_logger_empty_log demo_params (feed_seq demo_params boot_state 0 demo_records 3) 0)
          0 demo_records 3).LOGS 0).total_entries = 6
    ∧ ((feed_seq demo_params
          (nvm_logger_empty_log demo_params (feed_seq demo_params boot_state 0 demo_records 3) 0)
          0 demo_records 3).LOGS 0).no_pages *
        ((feed_seq demo_params
          (nvm_logger_empty_log demo_params (feed_seq demo_params boot_state 0 demo_records 3) 0)
          0 demo_records 3).LOGS 0).last_entry_no = 4 := by
  refine ⟨boot_init_done, by decide, by decide, by decide, by decide, by decide⟩

theorem mod_init_pages_step (P : Params) (n k : Nat) (s s1 : State)
    (h : mod_init_pages P (n + 1) k (meta_addr P k) s = Outcome.done s1) :
    ∃ s2, prepare_log_metadata P
        { s with avail_pages := Function.update s.avail_pages k true } (meta_addr P k) k =
          Outcome.done s2
      ∧ mod_init_pages P n (k + 1) (meta_addr P (k + 1)) s2 = Outcome.done s1 := by
  simp only [mod_init_pages] at h
  split at h
  · rename_i s2 hs2
    exact ⟨s2, hs2, h⟩
  · exact absurd h (by simp)
  · exact absurd h (by simp)
  · exact absurd h (by simp)

/-- The state after the pages loop has visited page `k`, member by member. -/
theorem visit_fields (P : Params) (k : Nat) (s s2 : State)
    (h : prepare_log_metadata P
        { s with avail_pages := Function.update s.avail_pages k true } (meta_addr P k) k =
          Outcome.done s2) :
    s2.nvm = s.nvm
    ∧ s2.avail_pages = Function.update s.avail_pages k (page_erased P s.nvm.mem k)
    ∧ (page_erased P s.nvm.mem k = true →
        s2.no_avail_pages = s.no_avail_pages ∧ s2.LOGS = s.LOGS)
    ∧ (page_erased P s.nvm.mem k = false →
        u8 (CEIL_DIV (page_data_size P s.nvm.mem k) 4) ≠ 0
        ∧ s2.no_avail_pages = u32sub s.no_avail_pages 1
        ∧ s2.LOGS = Function.update s.LOGS (page_log_id P s.nvm.mem k)
            (recovered_log_metadata P (s.LOGS (page_log_id P s.nvm.mem k)) s.nvm.mem
              (meta_addr P k))) := by
  unfold prepare_log_metadata at h
  simp only at h
  by_cases he : memcmp_empty s.nvm.mem (meta_addr P k) SIZEOF_PAGE_METADATA = true
  · rw [if_pos he] at h
    injection h with h
    subst h
    have hpe : page_erased P s.nvm.mem k = true := he
    refine ⟨rfl, ?_, fun _ => ⟨rfl, rfl⟩, ?_⟩
    · rw [hpe]
    · intro hf
      rw [hpe] at hf
      exact absurd hf (by decide)
  · rw [if_neg he] at h
    have hpe : page_erased P s.nvm.mem k = false := by
      unfold page_erased
      exact Bool.eq_false_iff.mpr he
    by_cases hr : P.NVM_LOGGER_MAX_LOGS ≤ metadata_log_id s.nvm.mem (meta_addr P k) ∨
        P.NVM_LOGGER_MAX_PAGES ≤ metadata_log_page_no s.nvm.mem (meta_addr P k)
    · rw [if_pos hr] at h
      exact absurd h (by simp)
    rw [if_neg hr] at h
    by_cases hz : u8 (CEIL_DIV (metadata_data_size s.nvm.mem (meta_addr P k)) 4) * 4 = 0
    · rw [if_pos hz] at h
      exact absurd h (by simp)
    · rw [if_neg hz] at h
      injection h with h
      subst h
      refine ⟨rfl, ?_, ?_, fun _ => ⟨?_, rfl, rfl⟩⟩
      · rw [hpe]
        simp
      · intro ht
        rw [hpe] at ht
        exact absurd ht (by decide)
      · intro h0
        apply hz
        unfold page_data_size at h0
        rw [h0]

/-- A page the pages loop visits with a result is erased, or its record names
a log below `NVM_LOGGER_MAX_LOGS` and a page number below
`NVM_LOGGER_MAX_PAGES`. -/
theorem visit_in_range (P : Params) (k : Nat) (s s2 : State)
    (h : prepare_log_metadata P
        { s with avail_pages := Function.update s.avail_pages k true } (meta_addr P k) k =
          Outcome.done s2)
    (he : page_erased P s.nvm.mem k = false) :
    page_log_id P s.nvm.mem k < P.NVM_LOGGER_MAX_LOGS
    ∧ page_log_page_no P s.nvm.mem k < P.NVM_LOGGER_MAX_PAGES := by
  unfold prepare_log_metadata at h
  simp only at h
  have hne : ¬ memcmp_empty s.nvm.mem (meta_addr P k) SIZEOF_PAGE_METADATA = true := by
    intro hc
    have hpe : page_erased P s.nvm.mem k = true := hc
    rw [hpe] at he
    exact absurd he (by decide)
  rw [if_neg hne] at h
  by_cases hr : P.NVM_LOGGER_MAX_LOGS ≤ metadata_log_id s.nvm.mem (meta_addr P k) ∨
      P.NVM_LOGGER_MAX_PAGES ≤ metadata_log_page_no s.nvm.mem (meta_addr P k)
  · rw [if_pos hr] at h
    exact absurd h (by simp)
  · unfold page_log_id page_log_page_no
    omega

/-- When the pages loop ends with a result, every record it has visited that is
not erased names a log below `NVM_LOGGER_MAX_LOGS` and a page number below
`NVM_LOGGER_MAX_PAGES`, and gives an entry size that is not zero. -/
theorem mod_init_pages_in_range (P : Params) (fl : Flash) :
    ∀ n k s s1, s.nvm.mem = fl →
      mod_init_pages P n k (meta_addr P k) s = Outcome.done s1 →
      ∀ q, k ≤ q → q < k + n → page_erased P fl q = false →
        page_log_id P fl q < P.NVM_LOGGER_MAX_LOGS
        ∧ page_log_page_no P fl q < P.NVM_LOGGER_MAX_PAGES
        ∧ u8 (CEIL_DIV (page_data_size P fl q) 4) ≠ 0 := by
  intro n
  induction n with
  | zero =>
    intro k s s1 _ _ q h1 h2
    omega
  | succ m ih =>
    intro k s s1 hfl h q hq1 hq2 hpe
    obtain ⟨s2, hvis, hrest⟩ := mod_init_pages_step P m k s s1 h
    obtain ⟨v1, _, _, v4⟩ := visit_fields P k s s2 hvis
    have hfl2 : s2.nvm.mem = fl := by rw [v1, hfl]
    by_cases hqk : q = k
    · subst hqk
      have hr := visit_in_range P q s s2 hvis (by rw [hfl]; exact hpe)
      rw [hfl] at hr v4
      exact ⟨hr.1, hr.2, (v4 hpe).1⟩
    · exact ih (k + 1) s2 s1 hfl2 hrest q (by omega) (by omega) hpe

theorem used_pages_succ (P : Params) (fl : Flash) (k n : Nat) :
    used_pages P fl k (n + 1) =
      (if page_erased P fl k = true then 0 else 1) + used_pages P fl (k + 1) n := by
  unfold used_pages
  rw [List.range'_succ, List.filter_cons]
  cases page_erased P fl k
  · simp
    omega
  · simp

theorem pages_of_log_succ (P : Params) (fl : Flash) (id k n : Nat) :
    pages_of_log P fl id k (n + 1) =
      (if page_erased P fl k = false ∧ page_log_id P fl k = id then 1 else 0) +
        pages_of_log P fl id (k + 1) n := by
  unfold pages_of_log
  rw [List.range'_succ, List.filter_cons]
  by_cases he : page_erased P fl k = false
  · by_cases hi : page_log_id P fl k = id
    · simp [he, hi]
      omega
    · simp [he, hi]
  · have he2 : page_erased P fl k = true := by
      cases h : page_erased P fl k
      · exact absurd h he
      · rfl
    simp [he2]

theorem mod_init_pages_avail (P : Params) (fl : Flash) :
    ∀ n k s s1, s.nvm.mem = fl →
      mod_init_pages P n k (meta_addr P k) s = Outcome.done s1 →
      s1.nvm = s.nvm
      ∧ (∀ p, k ≤ p → p < k + n → s1.avail_pages p = page_erased P fl p)
      ∧ (∀ p, ¬ (k ≤ p ∧ p < k + n) → s1.avail_pages p = s.avail_pages p) := by
  intro n
  induction n with
  | zero =>
    intro k s s1 _ h
    injection h with h
    subst h
    exact ⟨rfl, fun p h1 h2 => by omega, fun _ _ => rfl⟩
  | succ m ih =>
    intro k s s1 hfl h
    obtain ⟨s2, hv, hrest⟩ := mod_init_pages_step P m k s s1 h
    obtain ⟨v1, v2, _, _⟩ := visit_fields P k s s2 hv
    have hfl2 : s2.nvm.mem = fl := by rw [v1, hfl]
    obtain ⟨r1, r2, r3⟩ := ih (k + 1) s2 s1 hfl2 hrest
    refine ⟨by rw [r1, v1], ?_, ?_⟩
    · intro p hp1 hp2
      by_cases hpk : p = k
      · subst hpk
        rw [r3 p (by omega), v2, hfl]
        simp
      · exact r2 p (by omega) (by omega)
    · intro p hp
      have hpk : p ≠ k := by omega
      rw [r3 p (by omega), v2]
      simp [hpk]

theorem mod_init_pages_count (P : Params) (fl : Flash) :
    ∀ n k s s1, s.nvm.mem = fl →
      mod_init_pages P n k (meta_addr P k) s = Outcome.done s1 →
      s.no_avail_pages < 4294967296 → used_pages P fl k n ≤ s.no_avail_pages →
      s1.no_avail_pages = s.no_avail_pages - used_pages P fl k n := by
  intro n
  induction n with
  | zero =>
    intro k s s1 _ h _ _
    injection h with h
    subst h
    simp [used_pages]
  | succ m ih =>
    intro k s s1 hfl h hlt hle
    obtain ⟨s2, hv, hrest⟩ := mod_init_pages_step P m k s s1 h
    obtain ⟨v1, _, v3, v4⟩ := visit_fields P k s s2 hv
    have hfl2 : s2.nvm.mem = fl := by rw [v1, hfl]
    rw [used_pages_succ] at hle ⊢
    rw [hfl] at v3 v4
    by_cases he : page_erased P fl k = true
    · obtain ⟨e1, _⟩ := v3 he
      rw [if_pos he] at hle ⊢
      rw [ih (k + 1) s2 s1 hfl2 hrest (by rw [e1]; exact hlt) (by rw [e1]; omega), e1]
      omega
    · have he2 : page_erased P fl k = false := by
        cases h : page_erased P fl k
        · rfl
        · exact absurd h he
      obtain ⟨_, e1, _⟩ := v4 he2
      rw [if_neg he] at hle ⊢
      have e2 : s2.no_avail_pages = s.no_avail_pages - 1 := by
        rw [e1]
        unfold u32sub u32
        omega
      rw [ih (k + 1) s2 s1 hfl2 hrest (by rw [e2]; omega) (by rw [e2]; omega), e2]
      omega

theorem mod_init_pages_no_pages (P : Params) (fl : Flash) (id : Nat) :
    ∀ n k s s1, s.nvm.mem = fl →
      mod_init_pages P n k (meta_addr P k) s = Outcome.done s1 →
      (s.LOGS id).no_pages < 256 →
      (s1.LOGS id).no_pages = u8 ((s.LOGS id).no_pages + pages_of_log P fl id k n) := by
  intro n
  induction n with
  | zero =>
    intro k s s1 _ h hlt
    injection h with h
    subst h
    simp only [pages_of_log, List.range'_zero, List.filter_nil, List.length_nil, Nat.add_zero]
    unfold u8
    omega
  | succ m ih =>
    intro k s s1 hfl h hlt
    obtain ⟨s2, hv, hrest⟩ := mod_init_pages_step P m k s s1 h
    obtain ⟨v1, _, v3, v4⟩ := visit_fields P k s s2 hv
    have hfl2 : s2.nvm.mem = fl := by rw [v1, hfl]
    rw [pages_of_log_succ]
    rw [hfl] at v3 v4
    by_cases he : page_erased P fl k = true
    · obtain ⟨_, e1⟩ := v3 he
      have hne : ¬ (page_erased P fl k = false ∧ page_log_id P fl k = id) := by
        rw [he]
        simp
      rw [if_neg hne, ih (k + 1) s2 s1 hfl2 hrest (by rw [e1]; exact hlt), e1]
      simp
    · have he2 : page_erased P fl k = false := by
        cases h : page_erased P fl k
        · rfl
        · exact absurd h he
      obtain ⟨_, _, e1⟩ := v4 he2
      by_cases hid : page_log_id P fl k = id
      · have hL : (s2.LOGS id).no_pages = u8 ((s.LOGS id).no_pages + 1) := by
          rw [e1, hid]
          simp [recovered_log_metadata]
        have hlt2 : (s2.LOGS id).no_pages < 256 := by
          rw [hL]
          unfold u8
          omega
        rw [if_pos ⟨he2, hid⟩, ih (k + 1) s2 s1 hfl2 hrest hlt2, hL]
        unfold u8
        omega
      · have hL : s2.LOGS id = s.LOGS id := by
          rw [e1]
          exact Function.update_noteq (Ne.symm hid) _ _
        have hne : ¬ (page_erased P fl k = false ∧ page_log_id P fl k = id) := by
          intro hc
          exact hid hc.2
        rw [if_neg hne, ih (k + 1) s2 s1 hfl2 hrest (by rw [hL]; exact hlt), hL]
        simp

theorem mod_init_pages_addr_frame (P : Params) (fl : Flash) (id pn v : Nat) :
    ∀ n k s s1, s.nvm.mem = fl →
      mod_init_pages P n k (meta_addr P k) s = Outcome.done s1 →
      (s.LOGS id).page_addrs pn = v →
      (∀ q, k ≤ q → q < k + n → page_erased P fl q = false → page_log_id P fl q = id →
        page_log_page_no P fl q = pn → page_base P q = v) →
      (s1.LOGS id).page_addrs pn = v := by
  intro n
  induction n with
  | zero =>
    intro k s s1 _ h hv _
    injection h with h
    subst h
    exact hv
  | succ m ih =>
    intro k s s1 hfl h hv hw
    obtain ⟨s2, hvis, hrest⟩ := mod_init_pages_step P m k s s1 h
    obtain ⟨v1, _, v3, v4⟩ := visit_fields P k s s2 hvis
    have hfl2 : s2.nvm.mem = fl := by rw [v1, hfl]
    rw [hfl] at v3 v4
    apply ih (k + 1) s2 s1 hfl2 hrest
    · by_cases he : page_erased P fl k = true
      · rw [(v3 he).2]
        exact hv
      · have he2 : page_erased P fl k = false := by
          cases h : page_erased P fl k
          · rfl
          · exact absurd h he
        obtain ⟨_, _, e1⟩ := v4 he2
        rw [e1]
        by_cases hid : page_log_id P fl k = id
        · rw [hid]
          simp only [Function.update_same, recovered_log_metadata]
          by_cases hpn : page_log_page_no P fl k = pn
          · have hb := hw k (le_refl _) (by omega) he2 hid hpn
            have hpn2 : metadata_log_page_no fl (meta_addr P k) = pn := hpn
            rw [hpn2]
            simp only [Function.update_same]
            exact hb
          · have hpn2 : pn ≠ metadata_log_page_no fl (meta_addr P k) := fun hc => hpn hc.symm
            rw [Function.update_noteq hpn2]
            exact hv
        · rw [Function.update_noteq (Ne.symm hid)]
          exact hv
    · intro q hq1 hq2
      exact hw q (by omega) (by omega)

theorem mod_init_pages_size_frame (P : Params) (fl : Flash) (id d : Nat) :
    ∀ n k s s1, s.nvm.mem = fl →
      mod_init_pages P n k (meta_addr P k) s = Outcome.done s1 →
      (s.LOGS id).size_bytes = d → (s.LOGS id).entry_size = u8 (CEIL_DIV d 4) →
      (∀ q, k ≤ q → q < k + n → page_erased P fl q = false → page_log_id P fl q = id →
        page_data_size P fl q = d) →
      (s1.LOGS id).size_bytes = d ∧ (s1.LOGS id).entry_size = u8 (CEIL_DIV d 4) := by
  intro n
  induction n with
  | zero =>
    intro k s s1 _ h h1 h2 _
    injection h with h
    subst h
    exact ⟨h1, h2⟩
  | succ m ih =>
    intro k s s1 hfl h h1 h2 hw
    obtain ⟨s2, hvis, hrest⟩ := mod_init_pages_step P m k s s1 h
    obtain ⟨v1, _, v3, v4⟩ := visit_fields P k s s2 hvis
    have hfl2 : s2.nvm.mem = fl := by rw [v1, hfl]
    rw [hfl] at v3 v4
    have hs2 : (s2.LOGS id).size_bytes = d ∧ (s2.LOGS id).entry_size = u8 (CEIL_DIV d 4) := by
      by_cases he : page_erased P fl k = true
      · rw [(v3 he).2]
        exact ⟨h1, h2⟩
      · have he2 : page_erased P fl k = false := by
          cases h : page_erased P fl k
          · rfl
          · exact absurd h he
        obtain ⟨_, _, e1⟩ := v4 he2
        rw [e1]
        by_cases hid : page_log_id P fl k = id
        · have hd := hw k (le_refl _) (by omega) he2 hid
          have hd2 : metadata_data_size fl (meta_addr P k) = d := hd
          rw [hid]
          simp only [Function.update_same, recovered_log_metadata, hfl, hd2]
          exact ⟨trivial, trivial⟩
        · rw [Function.update_noteq (Ne.symm hid)]
          exact ⟨h1, h2⟩
    exact ih (k + 1) s2 s1 hfl2 hrest hs2.1 hs2.2 (fun q hq1 hq2 => hw q (by omega) (by omega))

/-- The base address of a page whose metadata record is not erased is in the
page list of the log the record names, at the page number the record gives,
unless a page visited later names the same log and page number. -/
theorem mod_init_pages_addr (P : Params) (fl : Flash) (p : Nat) :
    ∀ n k s s1, s.nvm.mem = fl →
      mod_init_pages P n k (meta_addr P k) s = Outcome.done s1 →
      k ≤ p → p < k + n → page_erased P fl p = false →
      (∀ q, p < q → q < k + n → page_erased P fl q = false →
        page_log_id P fl q = page_log_id P fl p →
        page_log_page_no P fl q = page_log_page_no P fl p → page_base P q = page_base P p) →
      (s1.LOGS (page_log_id P fl p)).page_addrs (page_log_page_no P fl p) = page_base P p := by
  intro n
  induction n with
  | zero =>
    intro k s s1 _ _ h1 h2
    omega
  | succ m ih =>
    intro k s s1 hfl h hp1 hp2 hpe hw
    obtain ⟨s2, hvis, hrest⟩ := mod_init_pages_step P m k s s1 h
    obtain ⟨v1, _, _, v4⟩ := visit_fields P k s s2 hvis
    have hfl2 : s2.nvm.mem = fl := by rw [v1, hfl]
    rw [hfl] at v4
    by_cases hpk : p = k
    · subst hpk
      obtain ⟨_, _, e1⟩ := v4 hpe
      apply mod_init_pages_addr_frame P fl _ _ _ m (p + 1) s2 s1 hfl2 hrest
      · rw [e1]
        simp only [Function.update_same, recovered_log_metadata, hfl]
        show Function.update _ (page_log_page_no P fl p) _ (page_log_page_no P fl p) = _
        simp only [Function.update_same]
        rfl
      · intro q hq1 hq2
        exact hw q (by omega) (by omega)
    · exact ih (k + 1) s2 s1 hfl2 hrest (by omega) (by omega) hpe
        (fun q hq1 hq2 => hw q hq1 (by omega))

/-- The record size of a page whose metadata record is not erased is the one of
the log the record names, unless a page visited later names the same log with
another record size. -/
theorem mod_init_pages_size (P : Params) (fl : Flash) (p : Nat) :
    ∀ n k s s1, s.nvm.mem = fl →
      mod_init_pages P n k (meta_addr P k) s = Outcome.done s1 →
      k ≤ p → p < k + n → page_erased P fl p = false →
      (∀ q, p < q → q < k + n → page_erased P fl q = false →
        page_log_id P fl q = page_log_id P fl p →
        page_data_size P fl q = page_data_size P fl p) →
      (s1.LOGS (page_log_id P fl p)).size_bytes = page_data_size P fl p
      ∧ (s1.LOGS (page_log_id P fl p)).entry_size =
          u8 (CEIL_DIV (page_data_size P fl p) 4) := by
  intro n
  induction n with
  | zero =>
    intro k s s1 _ _ h1 h2
    omega
  | succ m ih =>
    intro k s s1 hfl h hp1 hp2 hpe hw
    obtain ⟨s2, hvis, hrest⟩ := mod_init_pages_step P m k s s1 h
    obtain ⟨v1, _, _, v4⟩ := visit_fields P k s s2 hvis
    have hfl2 : s2.nvm.mem = fl := by rw [v1, hfl]
    rw [hfl] at v4
    by_cases hpk : p = k
    · subst hpk
      obtain ⟨_, _, e1⟩ := v4 hpe
      apply mod_init_pages_size_frame P fl _ _ m (p + 1) s2 s1 hfl2 hrest
      · rw [e1]
        simp only [Function.update_same, recovered_log_metadata, hfl]
        rfl
      · rw [e1]
        simp only [Function.update_same, recovered_log_metadata, hfl]
        rfl
      · intro q hq1 hq2
        exact hw q (by omega) (by omega)
    · exact ih (k + 1) s2 s1 hfl2 hrest (by omega) (by omega) hpe
        (fun q hq1 hq2 => hw q hq1 (by omega))

/-- The pages loop ends with a result when every record that is not erased names
a log below `NVM_LOGGER_MAX_LOGS` and a page number below
`NVM_LOGGER_MAX_PAGES` and gives an entry size that is not zero. -/
theorem mod_init_pages_done (P : Params) (fl : Flash) :
    ∀ n k s, s.nvm.mem = fl →
      (∀ q, k ≤ q → q < k + n → page_erased P fl q = false →
        page_log_id P fl q < P.NVM_LOGGER_MAX_LOGS
        ∧ page_log_page_no P fl q < P.NVM_LOGGER_MAX_PAGES
        ∧ u8 (CEIL_DIV (page_data_size P fl q) 4) ≠ 0) →
      ∃ s1, mod_init_pages P n k (meta_addr P k) s = Outcome.done s1 := by
  intro n
  induction n with
  | zero =>
    intro k s _ _
    exact ⟨s, rfl⟩
  | succ m ih =>
    intro k s hfl hw
    have hprep : ∃ s2, prepare_log_metadata P
        { s with avail_pages := Function.update s.avail_pages k true } (meta_addr P k) k =
          Outcome.done s2 := by
      unfold prepare_log_metadata
      simp only
      by_cases he : memcmp_empty s.nvm.mem (meta_addr P k) SIZEOF_PAGE_METADATA = true
      · rw [if_pos he]
        exact ⟨_, rfl⟩
      · rw [if_neg he]
        have hpe : page_erased P fl k = false := by
          rw [← hfl]
          unfold page_erased
          exact Bool.eq_false_iff.mpr he
        obtain ⟨hr1, hr2, hnz⟩ := hw k (le_refl _) (by omega) hpe
        have hr : ¬ (P.NVM_LOGGER_MAX_LOGS ≤ metadata_log_id s.nvm.mem (meta_addr P k) ∨
            P.NVM_LOGGER_MAX_PAGES ≤ metadata_log_page_no s.nvm.mem (meta_addr P k)) := by
          rw [hfl]
          unfold page_log_id at hr1
          unfold page_log_page_no at hr2
          omega
        have hnz2 : ¬ u8 (CEIL_DIV (metadata_data_size s.nvm.mem (meta_addr P k)) 4) * 4 = 0 := by
          rw [hfl]
          intro hc
          apply hnz
          unfold page_data_size
          omega
        rw [if_neg hr, if_neg hnz2]
        exact ⟨_, rfl⟩
    obtain ⟨s2, hs2⟩ := hprep
    have hfl2 : s2.nvm.mem = fl := by
      rw [prepare_log_metadata_nvm P _ _ _ _ hs2]
      exact hfl
    obtain ⟨s1, hs1⟩ := ih (k + 1) s2 hfl2 (fun q hq1 hq2 => hw q (by omega) (by omega))
    refine ⟨s1, ?_⟩
    simp only [mod_init_pages, hs2]
    exact hs1

theorem get_next_loc_loop_frame (fl : Flash) (L : log_metadata_t) :
    ∀ fuel page_no p_mem_loc c L1 r,
      get_next_loc_loop fl fuel L page_no p_mem_loc c = Outcome.done (L1, r) →
      L1.page_addrs = L.page_addrs ∧ L1.no_pages = L.no_pages
      ∧ L1.entry_size = L.entry_size ∧ L1.size_bytes = L.size_bytes
      ∧ L1.last_entry_no = L.last_entry_no ∧ L1.total_entries = L.total_entries := by
  intro fuel
  induction fuel with
  | zero =>
    intro page_no p_mem_loc c L1 r h
    exact absurd h (by simp [get_next_loc_loop])
  | succ f ih =>
    intro page_no p_mem_loc c L1 r h
    simp only [get_next_loc_loop] at h
    split_ifs at h
    · injection h with h
      injection h with h1 _
      subst h1
      exact ⟨rfl, rfl, rfl, rfl, rfl, rfl⟩
    · injection h with h
      injection h with h1 _
      subst h1
      exact ⟨rfl, rfl, rfl, rfl, rfl, rfl⟩
    · exact ih _ _ _ _ _ h
    · exact ih _ _ _ _ _ h

theorem get_next_loc_frame (s : State) (log_id fuel : Nat) (s1 : State) (r : Nat)
    (h : get_next_loc s log_id fuel = Outcome.done (s1, r)) :
    s1.nvm = s.nvm ∧ s1.avail_pages = s.avail_pages ∧ s1.no_avail_pages = s.no_avail_pages
    ∧ ∀ i, (s1.LOGS i).page_addrs = (s.LOGS i).page_addrs
      ∧ (s1.LOGS i).no_pages = (s.LOGS i).no_pages
      ∧ (s1.LOGS i).entry_size = (s.LOGS i).entry_size
      ∧ (s1.LOGS i).size_bytes = (s.LOGS i).size_bytes
      ∧ (s1.LOGS i).last_entry_no = (s.LOGS i).last_entry_no
      ∧ (s1.LOGS i).total_entries = (s.LOGS i).total_entries := by
  unfold get_next_loc at h
  split at h
  · rename_i L p hl
    injection h with h
    injection h with h1 _
    subst h1
    refine ⟨rfl, rfl, rfl, ?_⟩
    intro i
    by_cases hi : i = log_id
    · subst hi
      simp only [Function.update_same]
      exact get_next_loc_loop_frame _ _ _ _ _ _ _ _ hl
    · have e : Function.update s.LOGS log_id L i = s.LOGS i := Function.update_noteq hi _ _
      show (Function.update s.LOGS log_id L i).page_addrs = _ ∧
        (Function.update s.LOGS log_id L i).no_pages = _ ∧
        (Function.update s.LOGS log_id L i).entry_size = _ ∧
        (Function.update s.LOGS log_id L i).size_bytes = _ ∧
        (Function.update s.LOGS log_id L i).last_entry_no = _ ∧
        (Function.update s.LOGS log_id L i).total_entries = _
      rw [e]
      exact ⟨rfl, rfl, rfl, rfl, rfl, rfl⟩
  · exact absurd h (by simp)
  · exact absurd h (by simp)
  · exact absurd h (by simp)

theorem mod_init_cursors_frame (fuel : Nat) :
    ∀ n k s s1, mod_init_cursors fuel n k s = Outcome.done s1 →
      s1.nvm = s.nvm ∧ s1.avail_pages = s.avail_pages ∧ s1.no_avail_pages = s.no_avail_pages
      ∧ ∀ i, (s1.LOGS i).page_addrs = (s.LOGS i).page_addrs
        ∧ (s1.LOGS i).no_pages = (s.LOGS i).no_pages
        ∧ (s1.LOGS i).entry_size = (s.LOGS i).entry_size
        ∧ (s1.LOGS i).size_bytes = (s.LOGS i).size_bytes
        ∧ (s1.LOGS i).last_entry_no = (s.LOGS i).last_entry_no
        ∧ (s1.LOGS i).total_entries = (s.LOGS i).total_entries := by
  intro n
  induction n with
  | zero =>
    intro k s s1 h
    injection h with h
    subst h
    exact ⟨rfl, rfl, rfl, fun _ => ⟨rfl, rfl, rfl, rfl, rfl, rfl⟩⟩
  | succ m ih =>
    intro k s s1 h
    simp only [mod_init_cursors] at h
    split at h
    · rename_i r hr
      obtain ⟨a1, a2, a3, a4⟩ := get_next_loc_frame s k fuel r.1 r.2 hr
      obtain ⟨b1, b2, b3, b4⟩ := ih (k + 1) r.1 s1 h
      refine ⟨b1.trans a1, b2.trans a2, b3.trans a3, ?_⟩
      intro i
      obtain ⟨c1, c2, c3, c4, c5, c6⟩ := a4 i
      obtain ⟨d1, d2, d3, d4, d5, d6⟩ := b4 i
      exact ⟨d1.trans c1, d2.trans c2, d3.trans c3, d4.trans c4, d5.trans c5, d6.trans c6⟩
    · exact absurd h (by simp)
    · exact absurd h (by simp)
    · exact absurd h (by simp)

/-- What `nvm_logger_mod_init` leaves, when it completes, is what its pages loop
has left, but for the cursor of each log. -/
theorem mod_init_frame (P : Params) (s s2 : State) (fuel : Nat)
    (h : nvm_logger_mod_init P s fuel = Outcome.done s2) :
    ∃ s1, mod_init_scan P s = Outcome.done s1
      ∧ s2.nvm = s1.nvm ∧ s2.avail_pages = s1.avail_pages
      ∧ s2.no_avail_pages = s1.no_avail_pages
      ∧ ∀ i, (s2.LOGS i).page_addrs = (s1.LOGS i).page_addrs
        ∧ (s2.LOGS i).no_pages = (s1.LOGS i).no_pages
        ∧ (s2.LOGS i).entry_size = (s1.LOGS i).entry_size
        ∧ (s2.LOGS i).size_bytes = (s1.LOGS i).size_bytes
        ∧ (s2.LOGS i).last_entry_no = (s1.LOGS i).last_entry_no
        ∧ (s2.LOGS i).total_entries = (s1.LOGS i).total_entries := by
  unfold nvm_logger_mod_init at h
  split at h
  · rename_i s1 hs1
    exact ⟨s1, hs1, mod_init_cursors_frame fuel _ _ _ _ h⟩
  · exact absurd h (by simp)
  · exact absurd h (by simp)
  · exact absurd h (by simp)

theorem free_count (P : Params) (fl : Flash) (avail : Nat → Bool) :
    ∀ n k, (∀ p, k ≤ p → p < k + n → avail p = page_erased P fl p) →
      ((List.range' k n).filter avail).length + used_pages P fl k n = n := by
  intro n
  induction n with
  | zero =>
    intro k _
    simp [used_pages]
  | succ m ih =>
    intro k h
    have hk := h k (le_refl _) (by omega)
    have hrest := ih (k + 1) (fun p hp1 hp2 => h p (by omega) (by omega))
    rw [used_pages_succ, List.range'_succ, List.filter_cons, hk]
    cases he : page_erased P fl k
    · simp only [Bool.false_eq_true, if_false]
      omega
    · simp only [if_true, List.length_cons]
      omega

theorem meta_addr_eq (P : Params) (hdiv : P.NVM_LOGGER_PAGE_OFFSETS % 4 = 0)
    (htop : P.NVM_LOG_PAGE0 + P.NVM_LOGGER_PAGE_METADATA_ADDR < 4294967296) :
    ∀ k, k * P.NVM_LOGGER_PAGE_OFFSETS ≤ P.NVM_LOG_PAGE0 →
      meta_addr P k =
        P.NVM_LOG_PAGE0 - k * P.NVM_LOGGER_PAGE_OFFSETS + P.NVM_LOGGER_PAGE_METADATA_ADDR
      ∧ page_base P k = P.NVM_LOG_PAGE0 - k * P.NVM_LOGGER_PAGE_OFFSETS := by
  intro k
  induction k with
  | zero =>
    intro _
    have e : meta_addr P 0 = P.NVM_LOG_PAGE0 + P.NVM_LOGGER_PAGE_METADATA_ADDR := by
      show u32 _ = _
      unfold u32
      omega
    refine ⟨by rw [e]; omega, ?_⟩
    unfold page_base
    rw [e]
    unfold u32sub u32
    omega
  | succ j ih =>
    intro hk
    have hs : (j + 1) * P.NVM_LOGGER_PAGE_OFFSETS =
        j * P.NVM_LOGGER_PAGE_OFFSETS + P.NVM_LOGGER_PAGE_OFFSETS := Nat.succ_mul _ _
    obtain ⟨e, _⟩ := ih (by omega)
    have e2 : meta_addr P (j + 1) =
        P.NVM_LOG_PAGE0 - (j + 1) * P.NVM_LOGGER_PAGE_OFFSETS +
          P.NVM_LOGGER_PAGE_METADATA_ADDR := by
      show u32sub (meta_addr P j) (WORD_SIZE * (P.NVM_LOGGER_PAGE_OFFSETS / WORD_SIZE)) = _
      rw [e]
      unfold u32sub u32 WORD_SIZE
      omega
    refine ⟨e2, ?_⟩
    unfold page_base
    rw [e2]
    unfold u32sub u32
    omega

theorem pages_of_log_le (P : Params) (fl : Flash) (id k n : Nat) :
    pages_of_log P fl id k n ≤ n := by
  unfold pages_of_log
  have h := List.length_filter_le
    (fun p => !page_erased P fl p && decide (page_log_id P fl p = id)) (List.range' k n)
  rw [List.length_range'] at h
  exact h

/-- C12 (amended): the directory is all zero, `NVM_LOGGER_MAX_PAGES` equals
`NVM_LOG_MAX_PAGES` and is below 256, and among the metadata records of the
pages that are not erased every log id is below `NVM_LOGGER_MAX_LOGS` and every
page number below `NVM_LOGGER_MAX_PAGES`, the record sizes lie between 1 and
1020 bytes and agree within a log, and no two records name the same log and
page number. Then
the pages loop of `nvm_logger_mod_init` ends, and after it: a page is marked
free exactly when its metadata record is erased; the base address of every
other page is in the page list of the log its record names, at the page number
the record gives; that log has as `no_pages` the number of pages whose record
names it and as `entry_size` the record size in words, rounded up; and the
free-page count is the number of pages marked free. Whenever
`nvm_logger_mod_init` completes, these members are as the pages loop left
them. -/
theorem mod_init_recovers (P : Params) (s : State)
    (hzero : ∀ i, s.LOGS i = EMPTY_LOG_METADATA)
    (hconst : P.NVM_LOGGER_MAX_PAGES = P.NVM_LOG_MAX_PAGES)
    (hN : P.NVM_LOG_MAX_PAGES < 256)
    (hrange : ∀ p, p < P.NVM_LOG_MAX_PAGES → page_erased P s.nvm.mem p = false →
      page_log_id P s.nvm.mem p < P.NVM_LOGGER_MAX_LOGS
      ∧ page_log_page_no P s.nvm.mem p < P.NVM_LOGGER_MAX_PAGES)
    (hsize : ∀ p, p < P.NVM_LOG_MAX_PAGES → page_erased P s.nvm.mem p = false →
      1 ≤ page_data_size P s.nvm.mem p ∧ page_data_size P s.nvm.mem p ≤ 1020)
    (hdist : ∀ p, p < P.NVM_LOG_MAX_PAGES → ∀ q, q < P.NVM_LOG_MAX_PAGES →
      page_erased P s.nvm.mem p = false → page_erased P s.nvm.mem q = false →
      page_log_id P s.nvm.mem p = page_log_id P s.nvm.mem q →
      page_log_page_no P s.nvm.mem p = page_log_page_no P s.nvm.mem q → p = q)
    (hcons : ∀ p, p < P.NVM_LOG_MAX_PAGES → ∀ q, q < P.NVM_LOG_MAX_PAGES →
      page_erased P s.nvm.mem p = false → page_erased P s.nvm.mem q = false →
      page_log_id P s.nvm.mem p = page_log_id P s.nvm.mem q →
      page_data_size P s.nvm.mem p = page_data_size P s.nvm.mem q) :
    ∃ s1, mod_init_scan P s = Outcome.done s1
      ∧ (∀ p, p < P.NVM_LOG_MAX_PAGES →
          (s1.avail_pages p = true ↔ page_erased P s.nvm.mem p = true))
      ∧ (∀ p, p < P.NVM_LOG_MAX_PAGES → page_erased P s.nvm.mem p = false →
          (s1.LOGS (page_log_id P s.nvm.mem p)).page_addrs (page_log_page_no P s.nvm.mem p) =
            page_base P p
          ∧ (s1.LOGS (page_log_id P s.nvm.mem p)).no_pages =
              pages_of_log P s.nvm.mem (page_log_id P s.nvm.mem p) 0 P.NVM_LOG_MAX_PAGES
          ∧ (s1.LOGS (page_log_id P s.nvm.mem p)).entry_size =
              CEIL_DIV (page_data_size P s.nvm.mem p) 4)
      ∧ s1.no_avail_pages = free_pages s1 P.NVM_LOG_MAX_PAGES
      ∧ (∀ fuel s2, nvm_logger_mod_init P s fuel = Outcome.done s2 →
          s2.avail_pages = s1.avail_pages ∧ s2.no_avail_pages = s1.no_avail_pages
          ∧ ∀ i, (s2.LOGS i).page_addrs = (s1.LOGS i).page_addrs
            ∧ (s2.LOGS i).no_pages = (s1.LOGS i).no_pages
            ∧ (s2.LOGS i).entry_size = (s1.LOGS i).entry_size) := by
  have hu8 : ∀ p, p < P.NVM_LOG_MAX_PAGES → page_erased P s.nvm.mem p = false →
      u8 (CEIL_DIV (page_data_size P s.nvm.mem p) 4) =
        CEIL_DIV (page_data_size P s.nvm.mem p) 4
      ∧ CEIL_DIV (page_data_size P s.nvm.mem p) 4 ≠ 0 := by
    intro p hp he
    obtain ⟨h1, h2⟩ := hsize p hp he
    unfold u8 CEIL_DIV
    omega
  have hfl0 : ({ s with no_avail_pages := P.NVM_LOGGER_MAX_PAGES } : State).nvm.mem =
      s.nvm.mem := rfl
  obtain ⟨s1, hs1⟩ := mod_init_pages_done P s.nvm.mem P.NVM_LOG_MAX_PAGES 0
    { s with no_avail_pages := P.NVM_LOGGER_MAX_PAGES } hfl0
    (fun q _ hq he => by
      refine ⟨(hrange q (by omega) he).1, (hrange q (by omega) he).2, ?_⟩
      rw [(hu8 q (by omega) he).1]
      exact (hu8 q (by omega) he).2)
  have hscan : mod_init_scan P s = Outcome.done s1 := hs1
  obtain ⟨a1, a2, _⟩ := mod_init_pages_avail P s.nvm.mem _ _ _ _ hfl0 hs1
  have hfree := free_count P s.nvm.mem s1.avail_pages P.NVM_LOG_MAX_PAGES 0
    (fun p hp1 hp2 => a2 p hp1 hp2)
  have hcount := mod_init_pages_count P s.nvm.mem _ _ _ _ hfl0 hs1
    (by show P.NVM_LOGGER_MAX_PAGES < 4294967296; omega)
    (by show used_pages P s.nvm.mem 0 P.NVM_LOG_MAX_PAGES ≤ P.NVM_LOGGER_MAX_PAGES; omega)
  refine ⟨s1, hscan, ?_, ?_, ?_, ?_⟩
  · intro p hp
    rw [a2 p (Nat.zero_le _) (by omega)]
  · intro p hp he
    refine ⟨?_, ?_, ?_⟩
    · apply mod_init_pages_addr P s.nvm.mem p _ _ _ _ hfl0 hs1 (Nat.zero_le _) (by omega) he
      intro q hpq hq heq hid hpn
      have := hdist p hp q (by omega) he heq hid.symm hpn.symm
      omega
    · have h := mod_init_pages_no_pages P s.nvm.mem (page_log_id P s.nvm.mem p) _ _ _ _ hfl0 hs1
        (by
          show (s.LOGS _).no_pages < 256
          rw [hzero]
          decide)
      rw [h]
      have hz : (s.LOGS (page_log_id P s.nvm.mem p)).no_pages = 0 := by
        rw [hzero]
        rfl
      have hz2 : ({ s with no_avail_pages := P.NVM_LOGGER_MAX_PAGES } : State).LOGS
          (page_log_id P s.nvm.mem p) = s.LOGS (page_log_id P s.nvm.mem p) := rfl
      rw [hz2, hz]
      have hle := pages_of_log_le P s.nvm.mem (page_log_id P s.nvm.mem p) 0 P.NVM_LOG_MAX_PAGES
      unfold u8
      omega
    · have h := (mod_init_pages_size P s.nvm.mem p _ _ _ _ hfl0 hs1 (Nat.zero_le _) (by omega) he
        (fun q _ hq heq hid => hcons q (by omega) p hp heq he hid)).2
      rw [h]
      exact (hu8 p hp he).1
  · rw [hcount]
    show P.NVM_LOGGER_MAX_PAGES - _ = free_pages s1 P.NVM_LOG_MAX_PAGES
    unfold free_pages
    omega
  · intro fuel s2 h2
    obtain ⟨s1b, hb, _, b2, b3, b4⟩ := mod_init_frame P s s2 fuel h2
    rw [hscan] at hb
    injection hb with hb
    subst hb
    exact ⟨b2, b3, fun i => ⟨(b4 i).1, (b4 i).2.1, (b4 i).2.2.1⟩⟩

theorem first_blank_at_start (L : log_metadata_t) (fl : Flash)
    (h1 : 0 < L.no_pages) (h2 : 0 < L.last_entry_no) (h3 : L.no_pages < 256)
    (h4 : L.last_entry_no < 4294967296)
    (hb : ∀ b, b < 4 * L.entry_size → fl (L.page_addrs 0 + b) = 0xFF) :
    FirstBlank L fl 0 0 := by
  refine ⟨h1, h2, h3, h4, ?_, ?_⟩
  · rw [memcmp_empty_iff]
    exact hb
  · intro p j _ _ h
    omega

/-- Witness of `mod_init_recovers`: the concrete flash, with two logs of one
page each and two erased pages. -/
theorem mod_init_recovers_witness :
    ∃ s1, mod_init_scan demo_params (reset_state boot_flash) = Outcome.done s1
      ∧ (∀ p, p < 4 → (s1.avail_pages p = true ↔ page_erased demo_params boot_flash p = true))
      ∧ s1.no_avail_pages = free_pages s1 4 :=
  have h := mod_init_recovers demo_params (reset_state boot_flash) (fun _ => rfl) rfl
    (by decide) (by decide) (by decide)
    (by
      intro p hp q hq
      change p < 4 at hp
      change q < 4 at hq
      interval_cases p <;> interval_cases q <;> decide)
    (by
      intro p hp q hq
      change p < 4 at hp
      change q < 4 at hq
      interval_cases p <;> interval_cases q <;> decide)
  Exists.elim h (fun s1 h1 => ⟨s1, h1.1, h1.2.1, h1.2.2.2.1⟩)

theorem wide_scan_done :
    mod_init_scan demo_params (reset_state wide_flash) = Outcome.done wide_scanned :=
  Outcome.eq_done_of_is_done _ _ (by decide)

theorem wide_scanned_mem : wide_scanned.nvm.mem = wide_flash := by
  have h := mod_init_pages_nvm demo_params _ _ _ _ _ wide_scan_done
  rw [h]
  rfl

theorem wide_flash_blank (a : Nat) (h : a < 159728 ∨ (159740 ≤ a ∧ a < 163824) ∨ 163836 ≤ a) :
    wide_flash a = 0xFF := by
  unfold wide_flash
  rw [if_neg (by omega), if_neg (by omega)]

theorem wide_first_blank (i : Nat) (hi : i < 2) :
    FirstBlank (wide_scanned.LOGS i) wide_scanned.nvm.mem 0 0 := by
  have hc : i = 0 ∨ i = 1 := by omega
  have hes : (wide_scanned.LOGS i).entry_size ≤ 255 := by
    rcases hc with rfl | rfl <;> decide
  have hpa : (wide_scanned.LOGS i).page_addrs 0 = 159744 - 4096 * i := by
    rcases hc with rfl | rfl <;> decide
  apply first_blank_at_start
  · rcases hc with rfl | rfl <;> decide
  · rcases hc with rfl | rfl <;> decide
  · rcases hc with rfl | rfl <;> decide
  · rcases hc with rfl | rfl <;> decide
  · intro b hb
    rw [wide_scanned_mem, hpa]
    apply wide_flash_blank
    omega

/-- C12 (counterexample): the metadata record of the page at `0x27000` is valid
and names log 0 with a record size of 1028 bytes, which is 257 words.
`nvm_logger_mod_init` completes, and the log has `entry_size` 1: the member is
8 bits wide and holds 257 modulo 256. -/
theorem mod_init_truncates_entry_size :
    page_erased demo_params wide_flash 0 = false
    ∧ page_log_id demo_params wide_flash 0 = 0
    ∧ page_data_size demo_params wide_flash 0 = 1028
    ∧ CEIL_DIV 1028 4 = 257
    ∧ ∃ s2, nvm_logger_mod_init demo_params (reset_state wide_flash) 1 = Outcome.done s2
        ∧ (s2.LOGS 0).entry_size = 1 := by
  refine ⟨by decide, by decide, by decide, by decide, ?_⟩
  obtain ⟨s2, e, _, _, _, h4, _⟩ :=
    mod_init_run demo_params (reset_state wide_flash) wide_scanned (fun _ => (0, 0)) 1
      wide_scan_done (fun i hi => wide_first_blank i hi) (fun i _ => by simp)
  refine ⟨s2, e, ?_⟩
  rw [h4 0 (by decide)]
  decide

theorem mod_init_pages_log_frame (P : Params) (fl : Flash) (id : Nat) :
    ∀ n k s s1, s.nvm.mem = fl →
      mod_init_pages P n k (meta_addr P k) s = Outcome.done s1 →
      (∀ q, k ≤ q → q < k + n → page_erased P fl q = false → page_log_id P fl q ≠ id) →
      s1.LOGS id = s.LOGS id := by
  intro n
  induction n with
  | zero =>
    intro k s s1 _ h _
    injection h with h
    subst h
    rfl
  | succ m ih =>
    intro k s s1 hfl h hw
    obtain ⟨s2, hvis, hrest⟩ := mod_init_pages_step P m k s s1 h
    obtain ⟨v1, _, v3, v4⟩ := visit_fields P k s s2 hvis
    have hfl2 : s2.nvm.mem = fl := by rw [v1, hfl]
    rw [hfl] at v3 v4
    rw [ih (k + 1) s2 s1 hfl2 hrest (fun q hq1 hq2 => hw q (by omega) (by omega))]
    by_cases he : page_erased P fl k = true
    · rw [(v3 he).2]
    · have he2 : page_erased P fl k = false := by
        cases h : page_erased P fl k
        · rfl
        · exact absurd h he
      rw [(v4 he2).2.2]
      exact Function.update_noteq (Ne.symm (hw k (le_refl _) (by omega) he2)) _ _

/-- Recovery has a result only when every metadata record that is not erased
names a log below `NVM_LOGGER_MAX_LOGS` and a page number below
`NVM_LOGGER_MAX_PAGES` and gives an entry size that is not zero. -/
theorem mod_init_done_in_range (P : Params) (s s2 : State) (fuel : Nat)
    (h : nvm_logger_mod_init P s fuel = Outcome.done s2) :
    ∀ p, p < P.NVM_LOG_MAX_PAGES → page_erased P s.nvm.mem p = false →
      page_log_id P s.nvm.mem p < P.NVM_LOGGER_MAX_LOGS
      ∧ page_log_page_no P s.nvm.mem p < P.NVM_LOGGER_MAX_PAGES
      ∧ u8 (CEIL_DIV (page_data_size P s.nvm.mem p) 4) ≠ 0 := by
  obtain ⟨s1, hs1, _⟩ := mod_init_frame P s s2 fuel h
  have hfl0 : ({ s with no_avail_pages := P.NVM_LOGGER_MAX_PAGES } : State).nvm.mem =
      s.nvm.mem := rfl
  intro p hp he
  exact mod_init_pages_in_range P s.nvm.mem _ _ _ _ hfl0 hs1 p (Nat.zero_le _) (by omega) he

theorem partial_scan_out_of_bounds :
    mod_init_scan demo_params (reset_state partial_flash) = Outcome.out_of_bounds := by
  rfl

/-- C14 (code defect): the metadata record of the page at `0x27000` is
written in part: the log id 0 and the record size 16 are written, and the page
number, the availability flag and the next-page address still read `0xFF`. The
record is not the erased sentinel, and its page number, 255, is not below
`NVM_LOGGER_MAX_PAGES`, which is 4. `nvm_logger_mod_init` does not take the
page for erased: `prepare_log_metadata` goes on to the store into
`page_addrs[255]` of a page list of 4 elements, and recovery has no result,
whatever the number of iterations allowed. -/
theorem mod_init_partial_record_out_of_bounds :
    page_erased demo_params partial_flash 0 = false
    ∧ page_log_id demo_params partial_flash 0 = 0
    ∧ page_data_size demo_params partial_flash 0 = 16
    ∧ page_log_page_no demo_params partial_flash 0 = 255
    ∧ demo_params.NVM_LOGGER_MAX_PAGES = 4
    ∧ ∀ fuel, nvm_logger_mod_init demo_params (reset_state partial_flash) fuel =
        Outcome.out_of_bounds := by
  refine ⟨by decide, by decide, by decide, by decide, by decide, ?_⟩
  intro fuel
  unfold nvm_logger_mod_init
  have h : mod_init_pages demo_params demo_params.NVM_LOG_MAX_PAGES 0
      (u32 (demo_params.NVM_LOG_PAGE0 + demo_params.NVM_LOGGER_PAGE_METADATA_ADDR))
      { reset_state partial_flash with no_avail_pages := demo_params.NVM_LOGGER_MAX_PAGES } =
        Outcome.out_of_bounds := partial_scan_out_of_bounds
  rw [h]

theorem release_log_pages_calls (L : log_metadata_t) :
    ∀ n k d, (release_log_pages L n k d).calls =
      d.calls ++ (List.range' k n).map (fun q => HalCall.erase (L.page_addrs q)) := by
  intro n
  induction n with
  | zero =>
    intro k d
    simp [release_log_pages]
  | succ m ih =>
    intro k d
    simp only [release_log_pages, List.range'_succ, List.map_cons]
    rw [ih]
    simp [hal_nvmc_erase_page]

theorem release_log_pages_mem (L : log_metadata_t) :
    ∀ n k d,
      (∀ q, k ≤ q → q < k + n → ∀ a, a / FLASH_PAGE_SIZE = L.page_addrs q / FLASH_PAGE_SIZE →
        (release_log_pages L n k d).mem a = 0xFF)
      ∧ (∀ a, (∀ q, k ≤ q → q < k + n →
          a / FLASH_PAGE_SIZE ≠ L.page_addrs q / FLASH_PAGE_SIZE) →
        (release_log_pages L n k d).mem a = d.mem a) := by
  intro n
  induction n with
  | zero =>
    intro k d
    exact ⟨fun q h1 h2 => by omega, fun _ _ => rfl⟩
  | succ m ih =>
    intro k d
    obtain ⟨h1, h2⟩ := ih (k + 1) (hal_nvmc_erase_page d (L.page_addrs k))
    constructor
    · intro q hq1 hq2 a ha
      by_cases hqk : q = k
      · subst hqk
        by_cases hlater : ∃ r, q + 1 ≤ r ∧ r < q + 1 + m ∧
            a / FLASH_PAGE_SIZE = L.page_addrs r / FLASH_PAGE_SIZE
        · obtain ⟨r, hr1, hr2, hr3⟩ := hlater
          exact h1 r hr1 hr2 a hr3
        · have hnone : ∀ r, q + 1 ≤ r → r < q + 1 + m →
              a / FLASH_PAGE_SIZE ≠ L.page_addrs r / FLASH_PAGE_SIZE :=
            fun r hr1 hr2 hr3 => hlater ⟨r, hr1, hr2, hr3⟩
          show (release_log_pages L m (q + 1) (hal_nvmc_erase_page d (L.page_addrs q))).mem a = _
          rw [h2 a hnone]
          simp [hal_nvmc_erase_page, ha]
      · exact h1 q (by omega) (by omega) a ha
    · intro a ha
      show (release_log_pages L m (k + 1) (hal_nvmc_erase_page d (L.page_addrs k))).mem a = _
      rw [h2 a (fun q hq1 hq2 => ha q (by omega) (by omega))]
      simp [hal_nvmc_erase_page, ha k (le_refl _) (by omega)]

/-- C15 (amended): `nvm_logger_release_log` erases the flash pages of the log
that its loop visits, those with page numbers from the value its counter
starts with up to `no_pages - 1` (all of them when it starts with 0): every
byte of such a page, data region and page metadata, reads `0xFF` afterwards, and
the driver is called with one erase per page visited. Nothing else changes: the
rest of the flash, the directory, the slot of the log included, the free-page
bitmap and the free-page count are as before. -/
theorem release_log_erases_only (s : State) (log_id page_no_init : Nat) :
    (nvm_logger_release_log s log_id page_no_init).LOGS = s.LOGS
    ∧ (nvm_logger_release_log s log_id page_no_init).no_avail_pages = s.no_avail_pages
    ∧ (nvm_logger_release_log s log_id page_no_init).avail_pages = s.avail_pages
    ∧ (nvm_logger_release_log s log_id page_no_init).nvm.calls =
        s.nvm.calls ++
          (List.range' page_no_init ((s.LOGS log_id).no_pages - page_no_init)).map
            (fun q => HalCall.erase ((s.LOGS log_id).page_addrs q))
    ∧ (∀ q, page_no_init ≤ q → q < (s.LOGS log_id).no_pages →
        ∀ a, a / FLASH_PAGE_SIZE = (s.LOGS log_id).page_addrs q / FLASH_PAGE_SIZE →
          (nvm_logger_release_log s log_id page_no_init).nvm.mem a = 0xFF)
    ∧ (∀ a, (∀ q, page_no_init ≤ q → q < (s.LOGS log_id).no_pages →
          a / FLASH_PAGE_SIZE ≠ (s.LOGS log_id).page_addrs q / FLASH_PAGE_SIZE) →
        (nvm_logger_release_log s log_id page_no_init).nvm.mem a = s.nvm.mem a) := by
  obtain ⟨h1, h2⟩ := release_log_pages_mem (s.LOGS log_id)
    ((s.LOGS log_id).no_pages - page_no_init) page_no_init s.nvm
  refine ⟨rfl, rfl, rfl, ?_, ?_, ?_⟩
  · exact release_log_pages_calls (s.LOGS log_id) _ _ _
  · intro q hq1 hq2 a ha
    exact h1 q hq1 (by omega) a ha
  · intro a ha
    exact h2 a (fun q hq1 hq2 => ha q hq1 (by omega))

/-- C15 (counterexample): both directory slots are occupied by logs of two pages
and no page is free. After `nvm_logger_release_log` on log 0, with its counter
starting at 0, the two pages have been erased, but slot 0 still holds the log,
the free-page count is still 0, and `nvm_logger_log_init` asking for the two
pages returns `NVM_LOGGER_MAX_LOGS`: the log is not admitted. -/
theorem release_log_keeps_directory :
    (demo_exhausted_state.LOGS 0).no_pages = 2
    ∧ demo_exhausted_state.no_avail_pages = 0
    ∧ (nvm_logger_release_log demo_exhausted_state 0 0).nvm.calls =
        [HalCall.erase 159744, HalCall.erase 155648]
    ∧ is_empty_log demo_params ((nvm_logger_release_log demo_exhausted_state 0 0).LOGS 0) = false
    ∧ (nvm_logger_release_log demo_exhausted_state 0 0).no_avail_pages = 0
    ∧ (nvm_logger_log_init demo_params (nvm_logger_release_log demo_exhausted_state 0 0)
        demo_config 0).2 = demo_params.NVM_LOGGER_MAX_LOGS := by
  refine ⟨by decide, by decide, by decide, by decide, by decide, ?_⟩
  rw [log_init_eq_of_full demo_params _ demo_config 0 (by decide)]

/-- Witness of `release_log_erases_only`: after the release of log 0 of the
concrete configuration, the first byte of the metadata of its first page reads
`0xFF`. -/
theorem release_log_erases_only_witness :
    (nvm_logger_release_log demo_exhausted_state 0 0).nvm.mem 163824 = 0xFF :=
  (release_log_erases_only demo_exhausted_state 0 0).2.2.2.2.1 0 (le_refl _) (by decide)
    163824 (by decide)

theorem update_log_pages_eq (P : Params) (cfg : log_config_t) :
    ∀ fuel pn addrs p, update_log_pages P cfg fuel pn addrs p =
      if pn ≤ p ∧ p < pn + fuel then
        u32sub cfg.start_page (u32 (p * P.NVM_LOGGER_PAGE_OFFSETS))
      else addrs p := by
  intro fuel
  induction fuel with
  | zero =>
    intro pn addrs p
    rw [if_neg (by omega)]
    rfl
  | succ f ih =>
    intro pn addrs p
    simp only [update_log_pages]
    rw [ih]
    by_cases hp : p = pn
    · subst hp
      rw [if_neg (by omega), if_pos (by omega)]
      simp
    · by_cases hin : pn + 1 ≤ p ∧ p < pn + 1 + f
      · rw [if_pos hin, if_pos (by omega)]
      · rw [if_neg hin, if_neg (by omega), Function.update_noteq hp]

theorem new_log_metadata_congr (P : Params) (old : log_metadata_t) (cfg cfg2 : log_config_t)
    (pn : Nat) (h1 : cfg2.entry_size = cfg.entry_size) (h2 : cfg2.start_page = cfg.start_page)
    (h3 : cfg2.no_of_pages = cfg.no_of_pages) :
    new_log_metadata P old cfg2 pn = new_log_metadata P old cfg pn := by
  have hpages : update_log_pages P cfg2 (cfg2.no_of_pages - pn) pn old.page_addrs =
      update_log_pages P cfg (cfg.no_of_pages - pn) pn old.page_addrs := by
    funext p
    rw [update_log_pages_eq, update_log_pages_eq, h2, h3]
  unfold new_log_metadata
  rw [hpages, h1, h2, h3]

/-- The `while` loop of `update_log` stores the new log in the first empty slot
it meets, for a record size whose `entry_size` is not zero. -/
theorem update_log_loop_finds (P : Params) (pn : Nat) (s : State)
    (hmax : P.NVM_LOGGER_MAX_LOGS < 4294967296) :
    ∀ k fuel cfg, cfg.log_id < P.NVM_LOGGER_MAX_LOGS → k < fuel →
      u8 (CEIL_DIV cfg.entry_size 4) ≠ 0 →
      (∀ j, j < k →
        is_empty_log P (s.LOGS ((cfg.log_id + j) % P.NVM_LOGGER_MAX_LOGS)) = false) →
      is_empty_log P (s.LOGS ((cfg.log_id + k) % P.NVM_LOGGER_MAX_LOGS)) = true →
      (update_log_loop P pn fuel s cfg).1.LOGS =
          Function.update s.LOGS ((cfg.log_id + k) % P.NVM_LOGGER_MAX_LOGS)
            (new_log_metadata P (s.LOGS ((cfg.log_id + k) % P.NVM_LOGGER_MAX_LOGS)) cfg pn)
      ∧ (update_log_loop P pn fuel s cfg).1.no_avail_pages = s.no_avail_pages
      ∧ (update_log_loop P pn fuel s cfg).1.avail_pages = s.avail_pages
      ∧ (update_log_loop P pn fuel s cfg).1.nvm = s.nvm
      ∧ (update_log_loop P pn fuel s cfg).2.log_id = (cfg.log_id + k) % P.NVM_LOGGER_MAX_LOGS := by
  intro k
  induction k with
  | zero =>
    intro fuel cfg hid hf _ _ hemp
    obtain ⟨f, rfl⟩ : ∃ f, fuel = f + 1 := ⟨fuel - 1, by omega⟩
    simp only [Nat.add_zero, Nat.mod_eq_of_lt hid] at hemp ⊢
    have e : update_log_loop P pn (f + 1) s cfg =
        ({ s with
            LOGS := Function.update s.LOGS cfg.log_id
                      (new_log_metadata P (s.LOGS cfg.log_id) cfg pn) }, cfg) := by
      simp only [update_log_loop, hemp, if_true]
    rw [e]
    exact ⟨rfl, rfl, rfl, rfl, rfl⟩
  | succ m ih =>
    intro fuel cfg hid hf hdiv hocc hemp
    obtain ⟨f, rfl⟩ : ∃ f, fuel = f + 1 := ⟨fuel - 1, by omega⟩
    have h0 := hocc 0 (by omega)
    rw [Nat.add_zero, Nat.mod_eq_of_lt hid] at h0
    have hu : u32 (cfg.log_id + 1) = cfg.log_id + 1 := by
      unfold u32
      omega
    have hlt : (cfg.log_id + 1) % P.NVM_LOGGER_MAX_LOGS < P.NVM_LOGGER_MAX_LOGS :=
      Nat.mod_lt _ (by omega)
    have hidx : ∀ j, ((cfg.log_id + 1) % P.NVM_LOGGER_MAX_LOGS + j) % P.NVM_LOGGER_MAX_LOGS =
        (cfg.log_id + (j + 1)) % P.NVM_LOGGER_MAX_LOGS := by
      intro j
      rw [Nat.mod_add_mod]
      congr 1
      omega
    have hrec := ih f { cfg with log_id := (cfg.log_id + 1) % P.NVM_LOGGER_MAX_LOGS } hlt
      (by omega) hdiv
      (fun j hj => by
        show is_empty_log P (s.LOGS (((cfg.log_id + 1) % P.NVM_LOGGER_MAX_LOGS + j) %
          P.NVM_LOGGER_MAX_LOGS)) = false
        rw [hidx]
        exact hocc (j + 1) (by omega))
      (by
        show is_empty_log P (s.LOGS (((cfg.log_id + 1) % P.NVM_LOGGER_MAX_LOGS + m) %
          P.NVM_LOGGER_MAX_LOGS)) = true
        rw [hidx]
        exact hemp)
    have hstep : update_log_loop P pn (f + 1) s cfg =
        update_log_loop P pn f s
          { cfg with log_id := (cfg.log_id + 1) % P.NVM_LOGGER_MAX_LOGS } := by
      simp only [update_log_loop, h0, hu]
      simp
    rw [hstep]
    obtain ⟨r1, r2, r3, r4, r5⟩ := hrec
    have hidx2 : ((cfg.log_id + 1) % P.NVM_LOGGER_MAX_LOGS + m) % P.NVM_LOGGER_MAX_LOGS =
        (cfg.log_id + (m + 1)) % P.NVM_LOGGER_MAX_LOGS := hidx m
    refine ⟨?_, r2, r3, r4, ?_⟩
    · rw [r1]
      have hc : ∀ old, new_log_metadata P old
          { cfg with log_id := (cfg.log_id + 1) % P.NVM_LOGGER_MAX_LOGS } pn =
            new_log_metadata P old cfg pn :=
        fun old => new_log_metadata_congr P old cfg _ pn rfl rfl rfl
      rw [hc]
      show Function.update s.LOGS
        (((cfg.log_id + 1) % P.NVM_LOGGER_MAX_LOGS + m) % P.NVM_LOGGER_MAX_LOGS)
        (new_log_metadata P
          (s.LOGS (((cfg.log_id + 1) % P.NVM_LOGGER_MAX_LOGS + m) % P.NVM_LOGGER_MAX_LOGS))
          cfg pn) = _
      rw [hidx2]
    · rw [r5]
      exact hidx2

theorem is_empty_log_fields (P : Params) (L : log_metadata_t) (h : is_empty_log P L = true) :
    L.current_entry_no = 0 ∧ L.total_entries = 0 := by
  simp only [is_empty_log, Bool.and_eq_true, beq_iff_eq] at h
  exact ⟨h.1.1.2, h.1.2⟩

/-- A configuration that is new, asks for no more pages than are free and gives
an `entry_size` that is not zero is stored in the first empty slot met from its
id on. -/
theorem log_init_admits (P : Params) (s : State) (cfg : log_config_t) (pn k : Nat)
    (hmax : P.NVM_LOGGER_MAX_LOGS < 4294967296) (hid : cfg.log_id < P.NVM_LOGGER_MAX_LOGS)
    (h0 : s.no_avail_pages ≠ 0) (hm : ¬ config_matches s cfg)
    (hp : cfg.no_of_pages ≤ s.no_avail_pages)
    (hk : k < P.NVM_LOGGER_MAX_LOGS)
    (hocc : ∀ j, j < k →
      is_empty_log P (s.LOGS ((cfg.log_id + j) % P.NVM_LOGGER_MAX_LOGS)) = false)
    (hemp : is_empty_log P (s.LOGS ((cfg.log_id + k) % P.NVM_LOGGER_MAX_LOGS)) = true)
    (hdiv : u8 (CEIL_DIV cfg.entry_size 4) ≠ 0) :
    (nvm_logger_log_init P s cfg pn).2 = (cfg.log_id + k) % P.NVM_LOGGER_MAX_LOGS
    ∧ (nvm_logger_log_init P s cfg pn).1.LOGS =
        Function.update s.LOGS ((cfg.log_id + k) % P.NVM_LOGGER_MAX_LOGS)
          (new_log_metadata P (s.LOGS ((cfg.log_id + k) % P.NVM_LOGGER_MAX_LOGS)) cfg pn)
    ∧ (nvm_logger_log_init P s cfg pn).1.no_avail_pages =
        u32sub s.no_avail_pages cfg.no_of_pages
    ∧ (nvm_logger_log_init P s cfg pn).1.avail_pages = s.avail_pages := by
  rw [log_init_eq_of_new P s cfg pn h0 hm hp]
  have hloop := update_log_loop_finds P pn
    { s with no_avail_pages := u32sub s.no_avail_pages cfg.no_of_pages } hmax k
    P.NVM_LOGGER_MAX_LOGS cfg hid hk hdiv hocc hemp
  obtain ⟨r1, r2, r3, _, r5⟩ := hloop
  unfold update_log
  simp only
  have hf := prepare_page_metadata_frame P
    (update_log_loop P pn P.NVM_LOGGER_MAX_LOGS
      { s with no_avail_pages := u32sub s.no_avail_pages cfg.no_of_pages } cfg).1
    (update_log_loop P pn P.NVM_LOGGER_MAX_LOGS
      { s with no_avail_pages := u32sub s.no_avail_pages cfg.no_of_pages } cfg).2.log_id
  refine ⟨r5, ?_, ?_, ?_⟩
  · rw [hf.1, r1]
  · rw [hf.2.1, r2]
  · rw [hf.2.2, r3]

theorem is_empty_log_page_addrs (P : Params) (L : log_metadata_t) (h : is_empty_log P L = true)
    (p : Nat) (hp : p < P.NVM_LOGGER_MAX_PAGES) : L.page_addrs p = 0 := by
  simp only [is_empty_log, Bool.and_eq_true, beq_iff_eq, List.all_eq_true, List.mem_range] at h
  exact h.1.1.1.1.1.1.1.2 p hp

/-- C11 (amended): `nvm_logger_log_init` is called with a new configuration
that asks for no more pages than are free and than `NVM_LOGGER_MAX_PAGES`, for
records whose size in words, rounded up and taken as an 8-bit value, is not
zero; slot `(i + k) % NVM_LOGGER_MAX_LOGS` is empty and the `k` slots met
before it from the requested id `i` on are occupied. Then the id returned is
`(i + k) % NVM_LOGGER_MAX_LOGS`; the log is stored there with `size_bytes` the
record size, `entry_size` the record size in words, rounded up, as an 8-bit
value (the number of words itself for records of at most 1020 bytes),
`no_pages` the number of pages as an 8-bit value, `last_entry_no` the quotient
of 4080 by `entry_size * 4`, the cursor at `start_page` on page 0 and slot 0,
and `page_addrs[p]`, an element of the page list, equal to
`start_page - p * NVM_LOGGER_PAGE_OFFSETS` for every `p` below the number of
pages from the value the counter of the page loop starts with; every other slot is unchanged, and the free-page count is
lowered by the number of pages. -/
theorem log_init_new_slot (P : Params) (s : State) (cfg : log_config_t) (pn k : Nat)
    (hmax : P.NVM_LOGGER_MAX_LOGS < 4294967296) (hid : cfg.log_id < P.NVM_LOGGER_MAX_LOGS)
    (h0 : s.no_avail_pages ≠ 0) (hm : ¬ config_matches s cfg)
    (hp : cfg.no_of_pages ≤ s.no_avail_pages)
    (hk : k < P.NVM_LOGGER_MAX_LOGS)
    (hocc : ∀ j, j < k →
      is_empty_log P (s.LOGS ((cfg.log_id + j) % P.NVM_LOGGER_MAX_LOGS)) = false)
    (hemp : is_empty_log P (s.LOGS ((cfg.log_id + k) % P.NVM_LOGGER_MAX_LOGS)) = true)
    (hdiv : u8 (CEIL_DIV cfg.entry_size 4) ≠ 0)
    (hpages : cfg.no_of_pages ≤ P.NVM_LOGGER_MAX_PAGES) :
    (nvm_logger_log_init P s cfg pn).2 = (cfg.log_id + k) % P.NVM_LOGGER_MAX_LOGS
    ∧ ((nvm_logger_log_init P s cfg pn).1.LOGS (nvm_logger_log_init P s cfg pn).2).size_bytes =
        cfg.entry_size
    ∧ ((nvm_logger_log_init P s cfg pn).1.LOGS (nvm_logger_log_init P s cfg pn).2).entry_size =
        u8 (CEIL_DIV cfg.entry_size 4)
    ∧ (cfg.entry_size ≤ 1020 →
        ((nvm_logger_log_init P s cfg pn).1.LOGS (nvm_logger_log_init P s cfg pn).2).entry_size =
          CEIL_DIV cfg.entry_size 4)
    ∧ ((nvm_logger_log_init P s cfg pn).1.LOGS (nvm_logger_log_init P s cfg pn).2).no_pages =
        u8 cfg.no_of_pages
    ∧ (cfg.no_of_pages < 256 →
        ((nvm_logger_log_init P s cfg pn).1.LOGS (nvm_logger_log_init P s cfg pn).2).no_pages =
          cfg.no_of_pages)
    ∧ 0 < u8 (CEIL_DIV cfg.entry_size 4) * 4
    ∧ ((nvm_logger_log_init P s cfg pn).1.LOGS
          (nvm_logger_log_init P s cfg pn).2).last_entry_no =
        BYTES_PER_PAGE / (u8 (CEIL_DIV cfg.entry_size 4) * 4)
    ∧ ((nvm_logger_log_init P s cfg pn).1.LOGS (nvm_logger_log_init P s cfg pn).2).current_loc =
        cfg.start_page
    ∧ ((nvm_logger_log_init P s cfg pn).1.LOGS (nvm_logger_log_init P s cfg pn).2).current_page =
        0
    ∧ ((nvm_logger_log_init P s cfg pn).1.LOGS
          (nvm_logger_log_init P s cfg pn).2).current_entry_no = 0
    ∧ (∀ p, pn ≤ p → p < cfg.no_of_pages →
        p < P.NVM_LOGGER_MAX_PAGES
        ∧ ((nvm_logger_log_init P s cfg pn).1.LOGS
            (nvm_logger_log_init P s cfg pn).2).page_addrs p
            = u32sub cfg.start_page (u32 (p * P.NVM_LOGGER_PAGE_OFFSETS))
        ∧ (p * P.NVM_LOGGER_PAGE_OFFSETS ≤ cfg.start_page → cfg.start_page < 4294967296 →
            ((nvm_logger_log_init P s cfg pn).1.LOGS
                (nvm_logger_log_init P s cfg pn).2).page_addrs p =
              cfg.start_page - p * P.NVM_LOGGER_PAGE_OFFSETS))
    ∧ (∀ j, j ≠ (cfg.log_id + k) % P.NVM_LOGGER_MAX_LOGS →
        (nvm_logger_log_init P s cfg pn).1.LOGS j = s.LOGS j)
    ∧ (s.no_avail_pages < 4294967296 →
        (nvm_logger_log_init P s cfg pn).1.no_avail_pages =
          s.no_avail_pages - cfg.no_of_pages) := by
  obtain ⟨a1, a2, a3, _⟩ := log_init_admits P s cfg pn k hmax hid h0 hm hp hk hocc hemp hdiv
  obtain ⟨z1, _⟩ := is_empty_log_fields P _ hemp
  have hL : (nvm_logger_log_init P s cfg pn).1.LOGS (nvm_logger_log_init P s cfg pn).2 =
      new_log_metadata P (s.LOGS ((cfg.log_id + k) % P.NVM_LOGGER_MAX_LOGS)) cfg pn := by
    rw [a2, a1]
    simp
  have hpa : ∀ p, pn ≤ p → p < cfg.no_of_pages →
      (new_log_metadata P (s.LOGS ((cfg.log_id + k) % P.NVM_LOGGER_MAX_LOGS)) cfg pn).page_addrs p
        = u32sub cfg.start_page (u32 (p * P.NVM_LOGGER_PAGE_OFFSETS)) := by
    intro p hp1 hp2
    show update_log_pages P cfg (cfg.no_of_pages - pn) pn _ p = _
    rw [update_log_pages_eq, if_pos (by omega)]
  rw [hL]
  refine ⟨a1, rfl, rfl, ?_, rfl, ?_, by omega, rfl, rfl, rfl, z1, ?_, ?_, ?_⟩
  · intro hle
    show u8 (CEIL_DIV cfg.entry_size 4) = _
    unfold u8 CEIL_DIV
    omega
  · intro hlt
    show u8 cfg.no_of_pages = _
    unfold u8
    omega
  · intro p hp1 hp2
    refine ⟨by omega, hpa p hp1 hp2, ?_⟩
    intro hle hlt
    rw [hpa p hp1 hp2]
    unfold u32sub u32
    omega
  · intro j hj
    rw [a2, Function.update_noteq hj]
  · intro hlt
    rw [a3]
    unfold u32sub u32
    omega

/-- Witness of `log_init_new_slot`: a new configuration with id 0 for the
concrete configuration, whose slot 0 is occupied and whose slot 1 is empty; the
page loop starts at 0. -/
theorem log_init_new_slot_witness :
    (nvm_logger_log_init demo_params demo_state demo_new_config 0).2 = 1
    ∧ ((nvm_logger_log_init demo_params demo_state demo_new_config 0).1.LOGS
        (nvm_logger_log_init demo_params demo_state demo_new_config 0).2).size_bytes = 8 :=
  have h := log_init_new_slot demo_params demo_state demo_new_config 0 1 (by decide) (by decide)
    (by decide) (by decide) (by decide) (by decide)
    (fun j hj => by
      have hj0 : j = 0 := by omega
      subst hj0
      decide)
    (by decide) (by decide) (by decide)
  ⟨h.1, h.2.1⟩

/-- C11 (counterexample): slot 0 of the concrete configuration is occupied and
slot 1 is empty; a new configuration with id 0 asks for one page for records of
1028 bytes, which is 257 words. Whatever value the counter of the page loop
starts with, `nvm_logger_log_init` admits the log in slot 1 and stores
`entry_size` 1: the member is 8 bits wide. -/
theorem log_init_truncates_entry_size :
    is_empty_log demo_params (demo_state.LOGS 0) = false
    ∧ is_empty_log demo_params (demo_state.LOGS 1) = true
    ∧ ¬ config_matches demo_state demo_wide_config
    ∧ CEIL_DIV demo_wide_config.entry_size 4 = 257
    ∧ ∀ pn, (nvm_logger_log_init demo_params demo_state demo_wide_config pn).2 = 1
      ∧ ((nvm_logger_log_init demo_params demo_state demo_wide_config pn).1.LOGS 1).entry_size
          = 1
      ∧ ((nvm_logger_log_init demo_params demo_state demo_wide_config pn).1.LOGS 1).size_bytes
          = 1028 := by
  refine ⟨by decide, by decide, by decide, by decide, ?_⟩
  intro pn
  obtain ⟨a1, a2, _, _⟩ := log_init_admits demo_params demo_state demo_wide_config pn 1
    (by decide) (by decide) (by decide) (by decide) (by decide) (by decide)
    (fun j hj => by
      have hj0 : j = 0 := by omega
      subst hj0
      decide)
    (by decide) (by decide)
  have e : (demo_wide_config.log_id + 1) % demo_params.NVM_LOGGER_MAX_LOGS = 1 := by decide
  rw [e] at a1 a2
  refine ⟨a1, ?_, ?_⟩
  · rw [a2]
    simp only [Function.update_same]
    show u8 (CEIL_DIV demo_wide_config.entry_size 4) = 1
    decide
  · rw [a2]
    simp only [Function.update_same]
    rfl

/-- The counter of the page loop of `update_log` has no initial value in the
source. If it starts with 1, the new log of the concrete configuration gets no
page address at index 0: `page_addrs[0]` stays 0 while the cursor is at
`start_page`. -/
theorem log_init_page_loop_from_one :
    ((nvm_logger_log_init demo_params demo_state demo_new_config 1).1.LOGS 1).page_addrs 0 = 0
    ∧ ((nvm_logger_log_init demo_params demo_state demo_new_config 1).1.LOGS 1).current_loc =
        147456
    ∧ ((nvm_logger_log_init demo_params demo_state demo_new_config 0).1.LOGS 1).page_addrs 0 =
        147456 := by
  decide

theorem feed_cursor (P : Params) (s : State) (log_id : Nat) (data : Buffer) :
    ((nvm_logger_feed_data P s log_id data).LOGS log_id).current_page =
        (if feed_rotates s log_id then
          u8 (((s.LOGS log_id).current_page + 1) % (s.LOGS log_id).no_pages)
        else (s.LOGS log_id).current_page)
    ∧ ((nvm_logger_feed_data P s log_id data).LOGS log_id).current_loc =
        (if feed_rotates s log_id then
          (s.LOGS log_id).page_addrs
            (u8 (((s.LOGS log_id).current_page + 1) % (s.LOGS log_id).no_pages))
        else u32 ((s.LOGS log_id).current_loc + (s.LOGS log_id).entry_size * WORD_SIZE)) := by
  unfold nvm_logger_feed_data feed_rotates
  simp only []
  split_ifs with h1 h2 h3 h4 <;> simp_all [feed_advance]

theorem slot_fits (st : Nat) (L : log_metadata_t) (C : CursorOk st L) :
    (L.current_entry_no + 1) * (L.entry_size * 4) ≤ BYTES_PER_PAGE
    ∧ 4 ≤ L.last_entry_no := by
  have h1 : (L.current_entry_no + 1) * (L.entry_size * 4) ≤ L.last_entry_no * (L.entry_size * 4) :=
    Nat.mul_le_mul_right _ C.entry_lt
  have h2 : L.last_entry_no * (L.entry_size * 4) ≤ BYTES_PER_PAGE := by
    rw [C.last_eq]
    exact Nat.div_mul_le_self _ _
  refine ⟨le_trans h1 h2, ?_⟩
  rw [C.last_eq, Nat.le_div_iff_mul_le (by have := C.entry_pos; unfold WORD_SIZE; omega)]
  have := C.entry_le
  unfold BYTES_PER_PAGE WORD_SIZE
  omega

/-- A record is written inside the data region of the page the cursor is
on. -/
theorem cursor_in_data_region (st : Nat) (L : log_metadata_t) (C : CursorOk st L) :
    ∃ base, (base = L.page_addrs L.current_page ∨ (L.current_page = 0 ∧ base = st))
      ∧ L.current_loc = base + L.current_entry_no * L.entry_size * 4
      ∧ L.current_loc + L.size_bytes ≤ base + BYTES_PER_PAGE := by
  obtain ⟨h1, _⟩ := slot_fits st L C
  have h3 := C.size_le
  have e : (L.current_entry_no + 1) * (L.entry_size * 4) =
      L.current_entry_no * L.entry_size * 4 + L.entry_size * 4 := by ring
  rw [e] at h1
  rcases C.loc_eq with h2 | ⟨h0, h2⟩
  · exact ⟨_, Or.inl rfl, h2, by omega⟩
  · exact ⟨_, Or.inr ⟨h0, rfl⟩, h2, by omega⟩

theorem feed_cursor_ok (P : Params) (st : Nat) (s : State) (log_id : Nat) (data : Buffer)
    (C : CursorOk st (s.LOGS log_id)) :
    CursorOk st ((nvm_logger_feed_data P s log_id data).LOGS log_id) := by
  obtain ⟨s1, s2, s3, s4, s5⟩ := feed_static P s log_id data
  obtain ⟨c1, c2⟩ := feed_cursor P s log_id data
  have c3 := feed_current_entry_no P s log_id data
  obtain ⟨hfit, hlast⟩ := slot_fits _ _ C
  have hpos := C.entry_pos
  have hbound := C.page_bound _ C.page_lt
  have hsb := C.start_bound
  have hloc := C.loc_eq
  have hu : u32 ((s.LOGS log_id).current_entry_no + 1) = (s.LOGS log_id).current_entry_no + 1 := by
    have := C.entry_lt
    unfold u32
    unfold BYTES_PER_PAGE at hfit
    have hle : (s.LOGS log_id).current_entry_no + 1 ≤
        ((s.LOGS log_id).current_entry_no + 1) * ((s.LOGS log_id).entry_size * 4) :=
      Nat.le_mul_of_pos_right _ (by omega)
    omega
  have e : ((s.LOGS log_id).current_entry_no + 1) * ((s.LOGS log_id).entry_size * 4) =
      (s.LOGS log_id).current_entry_no * (s.LOGS log_id).entry_size * 4 +
        (s.LOGS log_id).entry_size * 4 := by ring
  by_cases hrot : feed_rotates s log_id = true
  · rw [hrot, if_pos rfl] at c1 c2 c3
    have hnext : ((s.LOGS log_id).current_page + 1) % (s.LOGS log_id).no_pages <
        (s.LOGS log_id).no_pages := Nat.mod_lt _ (by have := C.pages_pos; omega)
    have hu8 : u8 (((s.LOGS log_id).current_page + 1) % (s.LOGS log_id).no_pages) =
        ((s.LOGS log_id).current_page + 1) % (s.LOGS log_id).no_pages := by
      have := C.pages_le
      unfold u8
      omega
    rw [hu8] at c1 c2
    refine ⟨?_, ?_, ?_, ?_, ?_, ?_, ?_, hsb, ?_, ?_, Or.inl ?_⟩
    · rw [s1]; exact C.entry_pos
    · rw [s1]; exact C.entry_le
    · rw [s1, s5]; exact C.size_le
    · rw [s1, s4]; exact C.last_eq
    · rw [s3]; exact C.pages_pos
    · rw [s3]; exact C.pages_le
    · rw [s2, s3]; exact C.page_bound
    · rw [c1, s3]; exact hnext
    · rw [c3, s4]; omega
    · rw [c2, c1, c3, s2]
      simp
  · have hrot2 : feed_rotates s log_id = false := by
      cases h : feed_rotates s log_id
      · rfl
      · exact absurd h hrot
    have hlt : (s.LOGS log_id).current_entry_no + 1 < (s.LOGS log_id).last_entry_no := by
      have := (feed_rotates_iff s log_id).not.mp hrot
      rw [hu] at this
      omega
    rw [hrot2] at c1 c2 c3
    simp only [Bool.false_eq_true, if_false] at c1 c2 c3
    have hfit2 : ((s.LOGS log_id).current_entry_no + 2) * ((s.LOGS log_id).entry_size * 4) ≤
        BYTES_PER_PAGE := by
      have h1 : ((s.LOGS log_id).current_entry_no + 2) * ((s.LOGS log_id).entry_size * 4) ≤
          (s.LOGS log_id).last_entry_no * ((s.LOGS log_id).entry_size * 4) :=
        Nat.mul_le_mul_right _ hlt
      have h2 : (s.LOGS log_id).last_entry_no * ((s.LOGS log_id).entry_size * 4) ≤
          BYTES_PER_PAGE := by
        rw [C.last_eq]
        exact Nat.div_mul_le_self _ _
      exact le_trans h1 h2
    have e2 : ((s.LOGS log_id).current_entry_no + 2) * ((s.LOGS log_id).entry_size * 4) =
        (s.LOGS log_id).current_entry_no * (s.LOGS log_id).entry_size * 4 +
          2 * ((s.LOGS log_id).entry_size * 4) := by ring
    have e3 : ((s.LOGS log_id).current_entry_no + 1) * (s.LOGS log_id).entry_size * 4 =
        (s.LOGS log_id).current_entry_no * (s.LOGS log_id).entry_size * 4 +
          (s.LOGS log_id).entry_size * 4 := by ring
    rw [e2] at hfit2
    unfold BYTES_PER_PAGE at hfit2 hbound hsb
    refine ⟨?_, ?_, ?_, ?_, ?_, ?_, ?_, C.start_bound, ?_, ?_, ?_⟩
    · rw [s1]; exact C.entry_pos
    · rw [s1]; exact C.entry_le
    · rw [s1, s5]; exact C.size_le
    · rw [s1, s4]; exact C.last_eq
    · rw [s3]; exact C.pages_pos
    · rw [s3]; exact C.pages_le
    · rw [s2, s3]; exact C.page_bound
    · rw [c1, s3]; exact C.page_lt
    · rw [c3, s4, hu]; exact hlt
    · rw [c2, c1, c3, s2, s1, hu, e3]
      rcases hloc with hloc | ⟨h0, hloc⟩
      · left
        rw [hloc]
        unfold u32 WORD_SIZE
        omega
      · right
        refine ⟨h0, ?_⟩
        rw [hloc]
        unfold u32 WORD_SIZE
        omega

theorem empty_log_cursor_ok (P : Params) (st : Nat) (s : State) (log_id : Nat)
    (C : CursorOk st (s.LOGS log_id)) :
    CursorOk st ((nvm_logger_empty_log P s log_id).LOGS log_id) := by
  obtain ⟨_, hlast⟩ := slot_fits _ _ C
  have e : (nvm_logger_empty_log P s log_id).LOGS log_id =
      { s.LOGS log_id with
        current_entry_no := 0, current_page := 0
        current_loc := (s.LOGS log_id).page_addrs 0 } := by
    simp [nvm_logger_empty_log]
  rw [e]
  exact ⟨C.entry_pos, C.entry_le, C.size_le, C.last_eq, C.pages_pos, C.pages_le, C.page_bound,
    C.start_bound, C.pages_pos, by show 0 < (s.LOGS log_id).last_entry_no; omega,
    Or.inl (by simp)⟩

theorem empty_log_other_logs (P : Params) (s : State) (log_id j : Nat) (hj : j ≠ log_id) :
    (nvm_logger_empty_log P s log_id).LOGS j = s.LOGS j := by
  simp [nvm_logger_empty_log, Function.update_noteq hj]

theorem empty_log_page_addrs (P : Params) (s : State) (log_id j : Nat) :
    ((nvm_logger_empty_log P s log_id).LOGS j).page_addrs = (s.LOGS j).page_addrs := by
  by_cases hj : j = log_id
  · subst hj
    simp [nvm_logger_empty_log]
  · rw [empty_log_other_logs P s log_id j hj]

theorem apply_call_cursor_ok (P : Params) (st : Nat) (s : State) (i : Nat) (c : LogCall)
    (C : CursorOk st (s.LOGS i)) : CursorOk st ((apply_call P s c).LOGS i) := by
  cases c with
  | feed log_id data =>
    by_cases h : i = log_id
    · subst h
      exact feed_cursor_ok P st s i data C
    · show CursorOk st ((nvm_logger_feed_data P s log_id data).LOGS i)
      rw [feed_other_logs P s log_id data i h]
      exact C
  | empty log_id =>
    by_cases h : i = log_id
    · subst h
      exact empty_log_cursor_ok P st s i C
    · show CursorOk st ((nvm_logger_empty_log P s log_id).LOGS i)
      rw [empty_log_other_logs P s log_id i h]
      exact C

theorem apply_call_page_addrs (P : Params) (s : State) (i : Nat) (c : LogCall) :
    ((apply_call P s c).LOGS i).page_addrs = (s.LOGS i).page_addrs := by
  cases c with
  | feed log_id data =>
    by_cases h : i = log_id
    · subst h
      exact (feed_static P s i data).2.1
    · show ((nvm_logger_feed_data P s log_id data).LOGS i).page_addrs = _
      rw [feed_other_logs P s log_id data i h]
  | empty log_id => exact empty_log_page_addrs P s log_id i

theorem run_calls_cursor_ok (P : Params) (st : Nat) (i : Nat) (calls : List LogCall) :
    ∀ s, CursorOk st (s.LOGS i) → CursorOk st ((run_calls P s calls).LOGS i) := by
  induction calls with
  | nil =>
    intro s C
    exact C
  | cons c rest ih =>
    intro s C
    exact ih (apply_call P s c) (apply_call_cursor_ok P st s i c C)

/-- No call of `nvm_logger_feed_data` or `nvm_logger_empty_log` changes a page
list. -/
theorem run_calls_page_addrs (P : Params) (i : Nat) (calls : List LogCall) :
    ∀ s, ((run_calls P s calls).LOGS i).page_addrs = (s.LOGS i).page_addrs := by
  induction calls with
  | nil =>
    intro s
    rfl
  | cons c rest ih =>
    intro s
    show ((run_calls P (apply_call P s c) rest).LOGS i).page_addrs = _
    rw [ih (apply_call P s c), apply_call_page_addrs]

theorem feed_first_call (P : Params) (s : State) (log_id : Nat) (data : Buffer) :
    ∃ rest, (nvm_logger_feed_data P s log_id data).nvm.calls =
      s.nvm.calls ++
        HalCall.write (s.LOGS log_id).current_loc (s.LOGS log_id).size_bytes :: rest := by
  unfold nvm_logger_feed_data
  simp only []
  split_ifs
  · exact ⟨[], by simp [hal_nvmc_write_data]⟩
  · exact ⟨[], by simp [hal_nvmc_write_data]⟩
  · exact ⟨[HalCall.erase ((feed_advance (s.LOGS log_id)).page_addrs
        (u8 (((feed_advance (s.LOGS log_id)).current_page + 1) %
          (feed_advance (s.LOGS log_id)).no_pages))),
      HalCall.write (u32 ((feed_advance (s.LOGS log_id)).page_addrs
        (u8 (((feed_advance (s.LOGS log_id)).current_page + 1) %
          (feed_advance (s.LOGS log_id)).no_pages)) + P.NVM_LOGGER_PAGE_METADATA_ADDR))
        SIZEOF_PAGE_METADATA], by
      rw [empty_page_calls]
      simp [hal_nvmc_write_data, feed_advance]⟩

theorem new_log_cursor_ok (P : Params) (old : log_metadata_t) (cfg : log_config_t) (pn : Nat)
    (hold : old.current_entry_no = 0)
    (hzero : ∀ p, p < cfg.no_of_pages → old.page_addrs p = 0)
    (hes1 : 1 ≤ cfg.entry_size) (hes2 : cfg.entry_size ≤ 1020)
    (hnp1 : 1 ≤ cfg.no_of_pages) (hnp2 : cfg.no_of_pages ≤ 255)
    (htop : cfg.start_page + BYTES_PER_PAGE ≤ 4294967296)
    (hbot : (cfg.no_of_pages - 1) * P.NVM_LOGGER_PAGE_OFFSETS ≤ cfg.start_page) :
    CursorOk cfg.start_page (new_log_metadata P old cfg pn) := by
  have hpa : ∀ p, p < cfg.no_of_pages →
      (new_log_metadata P old cfg pn).page_addrs p ≤ cfg.start_page := by
    intro p hp
    show update_log_pages P cfg (cfg.no_of_pages - pn) pn _ p ≤ _
    rw [update_log_pages_eq]
    by_cases hin : pn ≤ p ∧ p < pn + (cfg.no_of_pages - pn)
    · rw [if_pos hin]
      have hle : p * P.NVM_LOGGER_PAGE_OFFSETS ≤
          (cfg.no_of_pages - 1) * P.NVM_LOGGER_PAGE_OFFSETS :=
        Nat.mul_le_mul_right _ (by omega)
      unfold BYTES_PER_PAGE at htop
      unfold u32sub u32
      omega
    · rw [if_neg hin, hzero p hp]
      exact Nat.zero_le _
  have hes : (new_log_metadata P old cfg pn).entry_size = CEIL_DIV cfg.entry_size 4 := by
    show u8 (CEIL_DIV cfg.entry_size 4) = _
    unfold u8 CEIL_DIV
    omega
  have hnp : (new_log_metadata P old cfg pn).no_pages = cfg.no_of_pages := by
    show u8 cfg.no_of_pages = _
    unfold u8
    omega
  have hceil : 1 ≤ CEIL_DIV cfg.entry_size 4 ∧ CEIL_DIV cfg.entry_size 4 ≤ 255
      ∧ cfg.entry_size ≤ CEIL_DIV cfg.entry_size 4 * 4 := by
    unfold CEIL_DIV
    omega
  have hlast : (new_log_metadata P old cfg pn).last_entry_no =
      BYTES_PER_PAGE / ((new_log_metadata P old cfg pn).entry_size * WORD_SIZE) := rfl
  refine ⟨?_, ?_, ?_, hlast, ?_, ?_, ?_, htop, ?_, ?_, Or.inr ⟨rfl, ?_⟩⟩
  · rw [hes]; exact hceil.1
  · rw [hes]; exact hceil.2.1
  · rw [hes]; exact hceil.2.2
  · rw [hnp]; exact hnp1
  · rw [hnp]; exact hnp2
  · intro p hp
    rw [hnp] at hp
    have := hpa p hp
    omega
  · rw [hnp]
    exact hnp1
  · have h4 : 4 ≤ BYTES_PER_PAGE / (CEIL_DIV cfg.entry_size 4 * WORD_SIZE) := by
      rw [Nat.le_div_iff_mul_le (by unfold WORD_SIZE; omega)]
      unfold BYTES_PER_PAGE WORD_SIZE
      omega
    have hcur : (new_log_metadata P old cfg pn).current_entry_no = 0 := hold
    rw [hcur, hlast, hes]
    omega
  · show cfg.start_page = cfg.start_page + old.current_entry_no * _ * 4
    rw [hold]
    simp

/-- C17 (amended): `nvm_logger_log_init` admits a new log for records of 1 to
1020 bytes on at least one page and at most 255 and `NVM_LOGGER_MAX_PAGES`
pages that lie in the 32-bit address space, and the page metadata lies at or
beyond offset 4080 of a page. Whatever value the counter of the page loop of
`update_log` starts with, after any sequence of calls of
`nvm_logger_feed_data` and `nvm_logger_empty_log`, on this log or on others:
`current_page` is below `no_pages` and `current_entry_no` is below
`last_entry_no`; `current_loc` is `current_entry_no * entry_size * 4` beyond a
page base, which is `page_addrs[current_page]` or, while the log is on the
page it was created on, `start_page`; the `size_bytes` bytes that the next
call of `nvm_logger_feed_data` writes at `current_loc`, its first driver call,
lie inside the first 4080 bytes from that base and end at or before offset
`NVM_LOGGER_PAGE_METADATA_ADDR` from it. When `page_addrs[0]` holds
`start_page`, as it does when the counter starts with 0, the base is
`page_addrs[current_page]` throughout: `current_loc` is
`page_addrs[current_page] + current_entry_no * entry_size * 4`, and the bytes
written lie in the data region of the current page and end at or before its
metadata record, which lies at
`page_addrs[current_page] + NVM_LOGGER_PAGE_METADATA_ADDR`. -/
theorem cursor_invariant (P : Params) (s : State) (cfg : log_config_t) (pn k : Nat)
    (calls : List LogCall)
    (hmax : P.NVM_LOGGER_MAX_LOGS < 4294967296) (hid : cfg.log_id < P.NVM_LOGGER_MAX_LOGS)
    (h0 : s.no_avail_pages ≠ 0) (hm : ¬ config_matches s cfg)
    (hp : cfg.no_of_pages ≤ s.no_avail_pages)
    (hk : k < P.NVM_LOGGER_MAX_LOGS)
    (hocc : ∀ j, j < k →
      is_empty_log P (s.LOGS ((cfg.log_id + j) % P.NVM_LOGGER_MAX_LOGS)) = false)
    (hemp : is_empty_log P (s.LOGS ((cfg.log_id + k) % P.NVM_LOGGER_MAX_LOGS)) = true)
    (hes1 : 1 ≤ cfg.entry_size) (hes2 : cfg.entry_size ≤ 1020)
    (hnp1 : 1 ≤ cfg.no_of_pages) (hnp2 : cfg.no_of_pages ≤ 255)
    (hpages : cfg.no_of_pages ≤ P.NVM_LOGGER_MAX_PAGES)
    (htop : cfg.start_page + BYTES_PER_PAGE ≤ 4294967296)
    (hbot : (cfg.no_of_pages - 1) * P.NVM_LOGGER_PAGE_OFFSETS ≤ cfg.start_page)
    (hmeta : BYTES_PER_PAGE ≤ P.NVM_LOGGER_PAGE_METADATA_ADDR) :
    (log_after P s cfg pn calls).current_page < (log_after P s cfg pn calls).no_pages
    ∧ (log_after P s cfg pn calls).current_entry_no < (log_after P s cfg pn calls).last_entry_no
    ∧ (∃ base,
        (base = (log_after P s cfg pn calls).page_addrs (log_after P s cfg pn calls).current_page
          ∨ ((log_after P s cfg pn calls).current_page = 0 ∧ base = cfg.start_page))
        ∧ (log_after P s cfg pn calls).current_loc =
            base + (log_after P s cfg pn calls).current_entry_no *
              (log_after P s cfg pn calls).entry_size * 4
        ∧ (log_after P s cfg pn calls).current_loc + (log_after P s cfg pn calls).size_bytes ≤
            base + BYTES_PER_PAGE
        ∧ (log_after P s cfg pn calls).current_loc + (log_after P s cfg pn calls).size_bytes ≤
            base + P.NVM_LOGGER_PAGE_METADATA_ADDR)
    ∧ (pn = 0 → (log_after P s cfg pn calls).page_addrs 0 = cfg.start_page)
    ∧ ((log_after P s cfg pn calls).page_addrs 0 = cfg.start_page →
        (log_after P s cfg pn calls).current_loc =
          (log_after P s cfg pn calls).page_addrs (log_after P s cfg pn calls).current_page +
            (log_after P s cfg pn calls).current_entry_no *
              (log_after P s cfg pn calls).entry_size * 4
        ∧ (log_after P s cfg pn calls).page_addrs (log_after P s cfg pn calls).current_page ≤
            (log_after P s cfg pn calls).current_loc
        ∧ (log_after P s cfg pn calls).current_loc + (log_after P s cfg pn calls).size_bytes ≤
            (log_after P s cfg pn calls).page_addrs (log_after P s cfg pn calls).current_page +
              BYTES_PER_PAGE
        ∧ (log_after P s cfg pn calls).current_loc + (log_after P s cfg pn calls).size_bytes ≤
            (log_after P s cfg pn calls).page_addrs (log_after P s cfg pn calls).current_page +
              P.NVM_LOGGER_PAGE_METADATA_ADDR)
    ∧ (∀ data, ∃ rest,
        (nvm_logger_feed_data P (run_calls P (nvm_logger_log_init P s cfg pn).1 calls)
          (nvm_logger_log_init P s cfg pn).2 data).nvm.calls =
          (run_calls P (nvm_logger_log_init P s cfg pn).1 calls).nvm.calls ++
            HalCall.write (log_after P s cfg pn calls).current_loc
              (log_after P s cfg pn calls).size_bytes :: rest) := by
  have hdiv : u8 (CEIL_DIV cfg.entry_size 4) ≠ 0 := by
    unfold u8 CEIL_DIV
    omega
  obtain ⟨a1, a2, _, _⟩ := log_init_admits P s cfg pn k hmax hid h0 hm hp hk hocc hemp hdiv
  obtain ⟨z1, _⟩ := is_empty_log_fields P _ hemp
  have hinit : (nvm_logger_log_init P s cfg pn).1.LOGS (nvm_logger_log_init P s cfg pn).2 =
      new_log_metadata P (s.LOGS ((cfg.log_id + k) % P.NVM_LOGGER_MAX_LOGS)) cfg pn := by
    rw [a2, a1]
    simp only [Function.update_same]
  have hnew : CursorOk cfg.start_page
      ((nvm_logger_log_init P s cfg pn).1.LOGS (nvm_logger_log_init P s cfg pn).2) := by
    rw [hinit]
    exact new_log_cursor_ok P _ cfg pn z1
      (fun p hp => is_empty_log_page_addrs P _ hemp p (by omega)) hes1 hes2 hnp1 hnp2 htop hbot
  have C : CursorOk cfg.start_page (log_after P s cfg pn calls) :=
    run_calls_cursor_ok P _ _ calls _ hnew
  have hpa : (log_after P s cfg pn calls).page_addrs =
      (new_log_metadata P (s.LOGS ((cfg.log_id + k) % P.NVM_LOGGER_MAX_LOGS)) cfg pn).page_addrs := by
    unfold log_after
    rw [run_calls_page_addrs, hinit]
  obtain ⟨base, hb, r1, r2⟩ := cursor_in_data_region _ _ C
  refine ⟨C.page_lt, C.entry_lt, ⟨base, hb, r1, r2, by omega⟩, ?_, ?_,
    fun data => feed_first_call P _ _ data⟩
  · intro hpn
    rw [hpa]
    show update_log_pages P cfg (cfg.no_of_pages - pn) pn _ 0 = _
    rw [update_log_pages_eq, if_pos (by omega)]
    unfold u32sub u32
    unfold BYTES_PER_PAGE at htop
    omega
  · intro h0
    have hbase : base =
        (log_after P s cfg pn calls).page_addrs (log_after P s cfg pn calls).current_page := by
      rcases hb with hb | ⟨hc, hb⟩
      · exact hb
      · rw [hc, h0]
        exact hb
    rw [← hbase]
    exact ⟨r1, by omega, r2, by omega⟩

/-- Witness of `cursor_invariant`: a new log of one page for records of 8 bytes
admitted in slot 1 of the concrete configuration, the page loop starting at 0,
then five records fed to it with an emptying of the log after the third. -/
theorem cursor_invariant_witness :
    (log_after demo_params demo_state demo_new_config 0
        [LogCall.feed 1 (demo_records 0), LogCall.feed 1 (demo_records 1),
         LogCall.feed 1 (demo_records 2), LogCall.empty 1, LogCall.feed 1 (demo_records 3),
         LogCall.feed 1 (demo_records 4)]).current_page <
      (log_after demo_params demo_state demo_new_config 0
        [LogCall.feed 1 (demo_records 0), LogCall.feed 1 (demo_records 1),
         LogCall.feed 1 (demo_records 2), LogCall.empty 1, LogCall.feed 1 (demo_records 3),
         LogCall.feed 1 (demo_records 4)]).no_pages
    ∧ (log_after demo_params demo_state demo_new_config 0
        [LogCall.feed 1 (demo_records 0), LogCall.feed 1 (demo_records 1),
         LogCall.feed 1 (demo_records 2), LogCall.empty 1, LogCall.feed 1 (demo_records 3),
         LogCall.feed 1 (demo_records 4)]).current_loc +
      (log_after demo_params demo_state demo_new_config 0
        [LogCall.feed 1 (demo_records 0), LogCall.feed 1 (demo_records 1),
         LogCall.feed 1 (demo_records 2), LogCall.empty 1, LogCall.feed 1 (demo_records 3),
         LogCall.feed 1 (demo_records 4)]).size_bytes ≤
      (log_after demo_params demo_state demo_new_config 0
        [LogCall.feed 1 (demo_records 0), LogCall.feed 1 (demo_records 1),
         LogCall.feed 1 (demo_records 2), LogCall.empty 1, LogCall.feed 1 (demo_records 3),
         LogCall.feed 1 (demo_records 4)]).page_addrs
        (log_after demo_params demo_state demo_new_config 0
          [LogCall.feed 1 (demo_records 0), LogCall.feed 1 (demo_records 1),
           LogCall.feed 1 (demo_records 2), LogCall.empty 1, LogCall.feed 1 (demo_records 3),
           LogCall.feed 1 (demo_records 4)]).current_page +
        demo_params.NVM_LOGGER_PAGE_METADATA_ADDR :=
  have h := cursor_invariant demo_params demo_state demo_new_config 0 1
    [LogCall.feed 1 (demo_records 0), LogCall.feed 1 (demo_records 1),
     LogCall.feed 1 (demo_records 2), LogCall.empty 1, LogCall.feed 1 (demo_records 3),
     LogCall.feed 1 (demo_records 4)]
    (by decide) (by decide) (by decide) (by decide) (by decide) (by decide)
    (fun j hj => by
      have hj0 : j = 0 := by omega
      subst hj0
      decide)
    (by decide) (by decide) (by decide) (by decide) (by decide) (by decide) (by decide)
    (by decide) (by decide)
  ⟨h.1, (h.2.2.2.2.1 (h.2.2.2.1 rfl)).2.2.2⟩

/-- C17 (counterexample): a new configuration for records of 16 bytes asks for
no page. Whatever value the counter of the page loop starts with,
`nvm_logger_log_init` admits the log in the empty slot 1 of the concrete
configuration, and the log it stores has `no_pages` 0 and `current_page` 0:
`current_page` is not below `no_pages`. -/
theorem log_init_admits_no_page_log :
    1 ≤ demo_no_page_config.entry_size ∧ demo_no_page_config.entry_size ≤ 1020
    ∧ is_empty_log demo_params (demo_state.LOGS 1) = true
    ∧ ∀ pn, (nvm_logger_log_init demo_params demo_state demo_no_page_config pn).2 = 1
      ∧ (log_after demo_params demo_state demo_no_page_config pn []).no_pages = 0
      ∧ (log_after demo_params demo_state demo_no_page_config pn []).current_page = 0
      ∧ ¬ (log_after demo_params demo_state demo_no_page_config pn []).current_page <
          (log_after demo_params demo_state demo_no_page_config pn []).no_pages := by
  refine ⟨by decide, by decide, by decide, ?_⟩
  intro pn
  obtain ⟨a1, a2, _, _⟩ := log_init_admits demo_params demo_state demo_no_page_config pn 0
    (by decide) (by decide) (by decide) (by decide) (by decide) (by decide)
    (fun j hj => by omega) (by decide) (by decide)
  have e : (demo_no_page_config.log_id + 0) % demo_params.NVM_LOGGER_MAX_LOGS = 1 := by decide
  rw [e] at a1 a2
  have hL : log_after demo_params demo_state demo_no_page_config pn [] =
      new_log_metadata demo_params (demo_state.LOGS 1) demo_no_page_config pn := by
    unfold log_after
    show (nvm_logger_log_init demo_params demo_state demo_no_page_config pn).1.LOGS
      (nvm_logger_log_init demo_params demo_state demo_no_page_config pn).2 = _
    rw [a2, a1]
    simp only [Function.update_same]
  have h1 : (log_after demo_params demo_state demo_no_page_config pn []).no_pages = 0 := by
    rw [hL]
    rfl
  have h2 : (log_after demo_params demo_state demo_no_page_config pn []).current_page = 0 := by
    rw [hL]
    rfl
  refine ⟨a1, h1, h2, ?_⟩
  rw [h1, h2]
  decide

end NvmLogger

namespace SensebeRxDetect

theorem count_miss_within (P : Params) (s : State) (t : Nat)
    (hoff : s.detect_feedback_flag = false)
    (hin : u32sub (u32 t) s.previous_tick ≤ s.total_operation_time)
    (hc : s.trig_count + 1 < 3) :
    only_triggers P s false t
    ∧ (window_trigger P s false t).trig_count = s.trig_count + 1
    ∧ (window_trigger P s false t).previous_tick = u32 t
    ∧ (window_trigger P s false t).detect_feedback_flag = false
    ∧ (window_trigger P s false t).total_operation_time = s.total_operation_time := by
  have hu : u32 (s.trig_count + 1) = s.trig_count + 1 := by
    unfold u32
    omega
  have hlt : ¬ (s.trig_count + 1 ≥ 3) := by omega
  simp only [only_triggers, window_trigger, count_miss, hoff, hin, hu, hlt, if_true, if_false]
  simp

theorem count_miss_third (P : Params) (s : State) (t : Nat)
    (hoff : s.detect_feedback_flag = false)
    (hin : u32sub (u32 t) s.previous_tick ≤ s.total_operation_time)
    (hc : s.trig_count = 2) :
    starts_relock P s false t
    ∧ (window_trigger P s false t).trig_count = 0
    ∧ (window_trigger P s false t).previous_tick = u32 t := by
  have hu : u32 (s.trig_count + 1) = 3 := by
    rw [hc]
    rfl
  simp only [starts_relock, window_trigger, count_miss, hoff, hin, hu, if_true]
  simp

theorem count_miss_late (P : Params) (s : State) (t : Nat)
    (hoff : s.detect_feedback_flag = false)
    (hout : ¬ u32sub (u32 t) s.previous_tick ≤ s.total_operation_time) :
    only_triggers P s false t
    ∧ (window_trigger P s false t).trig_count = 0
    ∧ (window_trigger P s false t).previous_tick = u32 t
    ∧ (window_trigger P s false t).detect_feedback_flag = false
    ∧ (window_trigger P s false t).total_operation_time = s.total_operation_time := by
  simp only [only_triggers, window_trigger, count_miss, hoff, hout, if_false]
  simp

/-- C21 (amended): feedback mode is off, the output generator is idle at each
call, and the second and the third of three calls of `window_trigger` each come
no more than `total_operation_time` ticks after the call before. If the count
of consecutive misses is zero and the first call too comes no more than
`total_operation_time` ticks after the miss before it (the tick kept in
`previous_tick`), the third call starts the re-lock sequence and the first two
only trigger the camera. If the first call comes later than that, it sets the
count to zero, and none of the three calls starts the re-lock sequence: the
count is 2 after the third. -/
theorem window_trigger_three_misses (P : Params) (s : State) (t1 t2 t3 : Nat)
    (hoff : s.detect_feedback_flag = false)
    (h2 : u32sub (u32 t2) (u32 t1) ≤ s.total_operation_time)
    (h3 : u32sub (u32 t3) (u32 t2) ≤ s.total_operation_time) :
    (s.trig_count = 0 → u32sub (u32 t1) s.previous_tick ≤ s.total_operation_time →
      only_triggers P s false t1
      ∧ only_triggers P (window_trigger P s false t1) false t2
      ∧ starts_relock P (window_trigger P (window_trigger P s false t1) false t2) false t3)
    ∧ (¬ u32sub (u32 t1) s.previous_tick ≤ s.total_operation_time →
      only_triggers P s false t1
      ∧ only_triggers P (window_trigger P s false t1) false t2
      ∧ only_triggers P (window_trigger P (window_trigger P s false t1) false t2) false t3
      ∧ (window_trigger P (window_trigger P (window_trigger P s false t1) false t2)
          false t3).trig_count = 2) := by
  constructor
  · intro h0 h1
    obtain ⟨a1, a2, a3, a4, a5⟩ := count_miss_within P s t1 hoff h1 (by omega)
    obtain ⟨b1, b2, b3, b4, b5⟩ := count_miss_within P (window_trigger P s false t1) t2 a4
      (by rw [a3, a5]; exact h2) (by omega)
    obtain ⟨c1, _, _⟩ := count_miss_third P
      (window_trigger P (window_trigger P s false t1) false t2) t3 b4
      (by rw [b3, b5, a5]; exact h3) (by omega)
    exact ⟨a1, b1, c1⟩
  · intro h1
    obtain ⟨a1, a2, a3, a4, a5⟩ := count_miss_late P s t1 hoff h1
    obtain ⟨b1, b2, b3, b4, b5⟩ := count_miss_within P (window_trigger P s false t1) t2 a4
      (by rw [a3, a5]; exact h2) (by omega)
    obtain ⟨c1, c2, _, _, _⟩ := count_miss_within P
      (window_trigger P (window_trigger P s false t1) false t2) t3 b4
      (by rw [b3, b5, a5]; exact h3) (by omega)
    exact ⟨a1, b1, c1, by omega⟩

/-- Witness of `window_trigger_three_misses`: misses at ticks 100, 200 and 300
once feedback mode has run out, `total_operation_time` being 1010. -/
theorem window_trigger_three_misses_witness :
    only_triggers demo_params demo_strict false 100
    ∧ only_triggers demo_params (window_trigger demo_params demo_strict false 100) false 200
    ∧ starts_relock demo_params
        (window_trigger demo_params (window_trigger demo_params demo_strict false 100) false 200)
        false 300 :=
  (window_trigger_three_misses demo_params demo_strict 100 200 300 (by decide) (by decide)
    (by decide)).1 (by decide) (by decide)

/-- C21 (counterexample): feedback mode is off, the output generator is idle,
and misses come at ticks 5000, 5100 and 5200, the second and the third 100
ticks after the one before, `total_operation_time` being 1010. The third call
of `window_trigger` does not start the re-lock sequence: it only triggers the
camera. -/
theorem window_trigger_late_first_miss :
    demo_strict.detect_feedback_flag = false
    ∧ demo_strict.total_operation_time = 1010
    ∧ u32sub 5100 5000 ≤ demo_strict.total_operation_time
    ∧ u32sub 5200 5100 ≤ demo_strict.total_operation_time
    ∧ ¬ starts_relock demo_params
        (window_trigger demo_params (window_trigger demo_params demo_strict false 5000)
          false 5100) false 5200
    ∧ (window_trigger demo_params
        (window_trigger demo_params (window_trigger demo_params demo_strict false 5000)
          false 5100) false 5200).calls =
        [Call.cam_trigger 0, Call.cam_trigger 0, Call.cam_trigger 0] := by
  refine ⟨by decide, by decide, by decide, by decide, ?_, by decide⟩
  unfold starts_relock
  decide

/-- C22 (amended): `sync_start` turns feedback mode on and sets the feedback
time to zero, stops the timer and arms window detection again; it leaves the
count of consecutive misses `trig_count` and the tick of the last miss
`previous_tick` as they were. While feedback mode is on, a call of
`window_trigger` leaves both as they were too and does not call
`tssp_detect_stop`. -/
theorem sync_start_feedback (P : Params) (s : State) :
    (sync_start s).detect_feedback_flag = true
    ∧ (sync_start s).detect_time_pass = 0
    ∧ (sync_start s).trig_count = s.trig_count
    ∧ (sync_start s).previous_tick = s.previous_tick
    ∧ (sync_start s).total_operation_time = s.total_operation_time
    ∧ (sync_start s).calls = s.calls ++ [Call.ms_timer_stop, Call.tssp_detect_window_detect]
    ∧ (∀ s1 : State, s1.detect_feedback_flag = true → ∀ (busy : Bool) (t : Nat),
        (window_trigger P s1 busy t).trig_count = s1.trig_count
        ∧ (window_trigger P s1 busy t).previous_tick = s1.previous_tick
        ∧ (window_trigger P s1 busy t).detect_feedback_flag = true
        ∧ ((window_trigger P s1 busy t).calls = s1.calls
          ∨ (window_trigger P s1 busy t).calls =
              s1.calls ++ [Call.led_ui_single_start, Call.cam_trigger 0])) := by
  refine ⟨rfl, rfl, rfl, rfl, rfl, rfl, ?_⟩
  intro s1 hon busy t
  cases busy with
  | true => exact ⟨rfl, rfl, hon, Or.inl rfl⟩
  | false =>
    have e : window_trigger P s1 false t =
        { s1 with calls := s1.calls ++ [Call.led_ui_single_start] ++ [Call.cam_trigger 0] } := by
      simp only [window_trigger, hon, if_true]
    rw [e]
    exact ⟨rfl, rfl, hon, Or.inr (by simp)⟩

/-- Witness of `sync_start_feedback`: a miss right after the detection that
follows two counted misses leaves the count at 2. -/
theorem sync_start_feedback_witness :
    (window_trigger demo_params (sync_start demo_two_misses) false 300).trig_count = 2 :=
  ((sync_start_feedback demo_params demo_two_misses).2.2.2.2.2.2
    (sync_start demo_two_misses) rfl false 300).1

/-- C22 (counterexample): two misses are counted, then a detection comes. After
`sync_start` the count of consecutive misses is still 2, not zero; and once
feedback mode has run out again, the first miss, 100 ticks after the last
counted one, starts the re-lock sequence. -/
theorem sync_start_keeps_miss_count :
    demo_two_misses.trig_count = 2
    ∧ (sync_start demo_two_misses).trig_count = 2
    ∧ demo_after_detection.detect_feedback_flag = false
    ∧ starts_relock demo_params demo_after_detection false 300 := by
  refine ⟨by decide, by decide, by decide, ?_⟩
  unfold starts_relock
  decide

end SensebeRxDetect

namespace TsspDetect

theorem last_written_append_none (ops l : List Op) (pin : Nat)
    (h : l.filterMap (written_level pin) = []) :
    last_written (ops ++ l) pin = last_written ops pin := by
  simp [last_written, List.filterMap_append, h]

theorem last_written_append_some (ops l : List Op) (pin v : Nat) (pre : List Nat)
    (h : l.filterMap (written_level pin) = pre ++ [v]) :
    last_written (ops ++ l) pin = some v := by
  simp [last_written, List.filterMap_append, h, ← List.append_assoc]

/-- C18: when both detections are required, `tssp_detect_pulse_stop` alone
leaves the GPIOTE channel configuration as it is (in Event mode if it was) and
writes nothing to the enable pin: the only operation it adds is the one on
`CHENCLR`. The call of `tssp_detect_window_stop` that follows puts the channel
in mode Disabled and writes `DISABLE` to the enable pin. The same holds with
the two calls in the other order. -/
theorem stop_reference_counted (s : State)
    (hp : s.is_pulse_detect_req = true) (hw : s.is_window_detect_req = true) :
    ((tssp_detect_pulse_stop s).gpiote_config = s.gpiote_config
      ∧ (tssp_detect_pulse_stop s).ops =
          s.ops ++ [Op.ppi_chenclr_or PpiChannel.PPI_CHANNEL_USED_EGU]
      ∧ last_written (tssp_detect_pulse_stop s).ops s.tssp_en_pin =
          last_written s.ops s.tssp_en_pin
      ∧ (tssp_detect_window_stop (tssp_detect_pulse_stop s)).gpiote_config.mode =
          GpioteMode.GPIOTE_CONFIG_MODE_Disabled
      ∧ (tssp_detect_window_stop (tssp_detect_pulse_stop s)).ops =
          (tssp_detect_pulse_stop s).ops ++
            [Op.hal_gpio_pin_write s.tssp_en_pin DISABLE,
             Op.rtc_intenclr_or
               (ENABLE <<< (WINDOW_RTC_CHANNEL + 16) ||| ENABLE <<< (SYNC_ON_RTC_CHANNEL + 16) |||
                 ENABLE <<< (SYNC_OFF_RTC_CHANNEL + 16)),
             Op.ppi_chenclr_or PpiChannel.PPI_CHANNEL_USED_RTC,
             Op.nvic_disable_irq Irq.RTC0_IRQn,
             Op.rtc_tasks_clear,
             Op.rtc_tasks_stop]
      ∧ last_written (tssp_detect_window_stop (tssp_detect_pulse_stop s)).ops s.tssp_en_pin =
          some DISABLE)
    ∧ ((tssp_detect_window_stop s).gpiote_config = s.gpiote_config
      ∧ (tssp_detect_window_stop s).ops =
          s.ops ++
            [Op.rtc_intenclr_or
               (ENABLE <<< (WINDOW_RTC_CHANNEL + 16) ||| ENABLE <<< (SYNC_ON_RTC_CHANNEL + 16) |||
                 ENABLE <<< (SYNC_OFF_RTC_CHANNEL + 16)),
             Op.ppi_chenclr_or PpiChannel.PPI_CHANNEL_USED_RTC,
             Op.nvic_disable_irq Irq.RTC0_IRQn,
             Op.rtc_tasks_clear,
             Op.rtc_tasks_stop]
      ∧ last_written (tssp_detect_window_stop s).ops s.tssp_en_pin =
          last_written s.ops s.tssp_en_pin
      ∧ (tssp_detect_pulse_stop (tssp_detect_window_stop s)).gpiote_config.mode =
          GpioteMode.GPIOTE_CONFIG_MODE_Disabled
      ∧ (tssp_detect_pulse_stop (tssp_detect_window_stop s)).ops =
          (tssp_detect_window_stop s).ops ++
            [Op.hal_gpio_pin_write s.tssp_en_pin DISABLE,
             Op.ppi_chenclr_or PpiChannel.PPI_CHANNEL_USED_EGU]
      ∧ last_written (tssp_detect_pulse_stop (tssp_detect_window_stop s)).ops s.tssp_en_pin =
          some DISABLE) := by
  have e1 : tssp_detect_pulse_stop s =
      { s with
        is_pulse_detect_req := false
        ops := s.ops ++ [Op.ppi_chenclr_or PpiChannel.PPI_CHANNEL_USED_EGU] } := by
    simp [tssp_detect_pulse_stop, disable_input, hw]
  have e2 : tssp_detect_window_stop s =
      { s with
        is_window_detect_req := false
        ops := s.ops ++
          [Op.rtc_intenclr_or
             (ENABLE <<< (WINDOW_RTC_CHANNEL + 16) ||| ENABLE <<< (SYNC_ON_RTC_CHANNEL + 16) |||
               ENABLE <<< (SYNC_OFF_RTC_CHANNEL + 16)),
           Op.ppi_chenclr_or PpiChannel.PPI_CHANNEL_USED_RTC,
           Op.nvic_disable_irq Irq.RTC0_IRQn,
           Op.rtc_tasks_clear,
           Op.rtc_tasks_stop] } := by
    simp [tssp_detect_window_stop, disable_input, hp]
  refine ⟨⟨?_, ?_, ?_, ?_, ?_, ?_⟩, ⟨?_, ?_, ?_, ?_, ?_, ?_⟩⟩
  · rw [e1]
  · rw [e1]
  · rw [e1]
    exact last_written_append_none _ _ _ rfl
  · rw [e1]
    simp [tssp_detect_window_stop, disable_input, disabled_config]
  · rw [e1]
    simp [tssp_detect_window_stop, disable_input]
  · rw [e1]
    simp only [tssp_detect_window_stop, disable_input, and_self, if_true, List.append_assoc]
    apply last_written_append_some _ _ _ _ []
    simp [written_level]
  · rw [e2]
  · rw [e2]
  · rw [e2]
    exact last_written_append_none _ _ _ rfl
  · rw [e2]
    simp [tssp_detect_pulse_stop, disable_input, disabled_config]
  · rw [e2]
    simp [tssp_detect_pulse_stop, disable_input]
  · rw [e2]
    simp only [tssp_detect_pulse_stop, disable_input, and_self, if_true, List.append_assoc]
    apply last_written_append_some _ _ _ _ []
    simp [written_level]

/-- Witness of `stop_reference_counted`: both detections armed after reset and
`tssp_detect_init`; the channel is in Event mode and stays so after
`tssp_detect_pulse_stop`. -/
theorem stop_reference_counted_witness :
    demo_armed.gpiote_config.mode = GpioteMode.GPIOTE_CONFIG_MODE_Event
    ∧ (tssp_detect_pulse_stop demo_armed).gpiote_config = demo_armed.gpiote_config
    ∧ (tssp_detect_window_stop (tssp_detect_pulse_stop demo_armed)).gpiote_config.mode =
        GpioteMode.GPIOTE_CONFIG_MODE_Disabled :=
  have h := stop_reference_counted demo_armed (by decide) (by decide)
  ⟨by decide, h.1.1, h.1.2.2.2.1⟩

theorem init_fields (P : Params) (s : State) (cfg : tssp_detect_config_t) :
    (tssp_detect_init P s cfg).gpiote_config = s.gpiote_config
    ∧ (tssp_detect_init P s cfg).tssp_en_pin = cfg.rx_en_pin
    ∧ last_written (tssp_detect_init P s cfg).ops cfg.rx_en_pin =
        last_written s.ops cfg.rx_en_pin := by
  unfold tssp_detect_init init_pulse init_window
  split_ifs <;>
    refine ⟨rfl, rfl, ?_⟩ <;>
    simp only [List.append_assoc] <;>
    exact last_written_append_none _ _ _ rfl

theorem step_en_pin (s : State) (c : Call) : (step s c).tssp_en_pin = s.tssp_en_pin := by
  cases c <;> simp only [step, tssp_detect_window_detect, tssp_detect_pulse_detect,
    tssp_detect_pulse_stop, tssp_detect_window_stop, disable_input] <;> split_ifs <;> rfl

/-- What holds of every state the four calls lead to: an input in Event mode,
or an enable pin last written `ENABLE`, goes with a detection required. -/
theorem step_invariant (s : State) (c : Call)
    (_h : s.gpiote_config.mode = GpioteMode.GPIOTE_CONFIG_MODE_Event ∨
      last_written s.ops s.tssp_en_pin = some ENABLE → detection_required s) :
    (step s c).gpiote_config.mode = GpioteMode.GPIOTE_CONFIG_MODE_Event ∨
      last_written (step s c).ops (step s c).tssp_en_pin = some ENABLE →
      detection_required (step s c) := by
  cases c with
  | window_detect =>
    intro _
    exact Or.inr rfl
  | pulse_detect =>
    intro _
    exact Or.inl rfl
  | pulse_stop =>
    cases hw : s.is_window_detect_req with
    | true =>
      intro _
      right
      simp [step, tssp_detect_pulse_stop, disable_input, hw]
    | false =>
      intro hen
      exfalso
      have e : step s Call.pulse_stop =
          { s with
            is_pulse_detect_req := false
            gpiote_config := disabled_config s
            ops := s.ops ++
              [Op.hal_gpio_pin_write s.tssp_en_pin DISABLE,
               Op.ppi_chenclr_or PpiChannel.PPI_CHANNEL_USED_EGU] } := by
        simp [step, tssp_detect_pulse_stop, disable_input, hw, disabled_config]
      rw [e] at hen
      rcases hen with hm | hl
      · simp [disabled_config] at hm
      · have hd : last_written (s.ops ++
            [Op.hal_gpio_pin_write s.tssp_en_pin DISABLE,
             Op.ppi_chenclr_or PpiChannel.PPI_CHANNEL_USED_EGU]) s.tssp_en_pin = some DISABLE := by
          apply last_written_append_some _ _ _ _ []
          simp [written_level]
        have hl2 : last_written (s.ops ++
            [Op.hal_gpio_pin_write s.tssp_en_pin DISABLE,
             Op.ppi_chenclr_or PpiChannel.PPI_CHANNEL_USED_EGU]) s.tssp_en_pin = some ENABLE := hl
        rw [hd] at hl2
        revert hl2
        decide
  | window_stop =>
    cases hp : s.is_pulse_detect_req with
    | true =>
      intro _
      left
      simp [step, tssp_detect_window_stop, disable_input, hp]
    | false =>
      intro hen
      exfalso
      have e : step s Call.window_stop =
          { s with
            is_window_detect_req := false
            gpiote_config := disabled_config s
            ops := s.ops ++
              [Op.hal_gpio_pin_write s.tssp_en_pin DISABLE,
               Op.rtc_intenclr_or
                 (ENABLE <<< (WINDOW_RTC_CHANNEL + 16) |||
                   ENABLE <<< (SYNC_ON_RTC_CHANNEL + 16) |||
                   ENABLE <<< (SYNC_OFF_RTC_CHANNEL + 16)),
               Op.ppi_chenclr_or PpiChannel.PPI_CHANNEL_USED_RTC,
               Op.nvic_disable_irq Irq.RTC0_IRQn,
               Op.rtc_tasks_clear,
               Op.rtc_tasks_stop] } := by
        simp [step, tssp_detect_window_stop, disable_input, hp, disabled_config]
      rw [e] at hen
      rcases hen with hm | hl
      · simp [disabled_config] at hm
      · have hd : last_written (s.ops ++
            [Op.hal_gpio_pin_write s.tssp_en_pin DISABLE,
             Op.rtc_intenclr_or
               (ENABLE <<< (WINDOW_RTC_CHANNEL + 16) |||
                 ENABLE <<< (SYNC_ON_RTC_CHANNEL + 16) |||
                 ENABLE <<< (SYNC_OFF_RTC_CHANNEL + 16)),
             Op.ppi_chenclr_or PpiChannel.PPI_CHANNEL_USED_RTC,
             Op.nvic_disable_irq Irq.RTC0_IRQn,
             Op.rtc_tasks_clear,
             Op.rtc_tasks_stop]) s.tssp_en_pin = some DISABLE := by
          apply last_written_append_some _ _ _ _ []
          simp [written_level]
        have hl2 : last_written (s.ops ++
            [Op.hal_gpio_pin_write s.tssp_en_pin DISABLE,
             Op.rtc_intenclr_or
               (ENABLE <<< (WINDOW_RTC_CHANNEL + 16) |||
                 ENABLE <<< (SYNC_ON_RTC_CHANNEL + 16) |||
                 ENABLE <<< (SYNC_OFF_RTC_CHANNEL + 16)),
             Op.ppi_chenclr_or PpiChannel.PPI_CHANNEL_USED_RTC,
             Op.nvic_disable_irq Irq.RTC0_IRQn,
             Op.rtc_tasks_clear,
             Op.rtc_tasks_stop]) s.tssp_en_pin = some ENABLE := hl
        rw [hd] at hl2
        revert hl2
        decide

theorem foldl_invariant (calls : List Call) :
    ∀ s : State,
      (s.gpiote_config.mode = GpioteMode.GPIOTE_CONFIG_MODE_Event ∨
        last_written s.ops s.tssp_en_pin = some ENABLE → detection_required s) →
      ((calls.foldl step s).gpiote_config.mode = GpioteMode.GPIOTE_CONFIG_MODE_Event ∨
        last_written (calls.foldl step s).ops (calls.foldl step s).tssp_en_pin = some ENABLE →
        detection_required (calls.foldl step s)) := by
  induction calls with
  | nil =>
    intro s h
    exact h
  | cons c rest ih =>
    intro s h
    exact ih (step s c) (step_invariant s c h)

/-- C19 (amended): the detector starts with its channel disabled and the enable
pin never written `ENABLE` (as after reset). In every state reached by
`tssp_detect_init` and any sequence of calls of `tssp_detect_window_detect`,
`tssp_detect_pulse_detect`, `tssp_detect_pulse_stop` and
`tssp_detect_window_stop`: if the GPIOTE channel is in Event mode, or the enable
pin was last written `ENABLE`, then one of the two detections is required. So
the input is enabled only if a detection is required, and when none is
required the channel is not in Event mode and the enable pin was not last
written `ENABLE`. -/
theorem input_enabled_only_if_required (P : Params) (s0 : State) (cfg : tssp_detect_config_t)
    (calls : List Call)
    (hmode : s0.gpiote_config.mode = GpioteMode.GPIOTE_CONFIG_MODE_Disabled)
    (hpin : ∀ pin, last_written s0.ops pin ≠ some ENABLE) :
    ((run P s0 cfg calls).gpiote_config.mode = GpioteMode.GPIOTE_CONFIG_MODE_Event ∨
        last_written (run P s0 cfg calls).ops (run P s0 cfg calls).tssp_en_pin = some ENABLE →
      detection_required (run P s0 cfg calls))
    ∧ (input_enabled (run P s0 cfg calls) → detection_required (run P s0 cfg calls))
    ∧ (¬ detection_required (run P s0 cfg calls) →
        (run P s0 cfg calls).gpiote_config.mode ≠ GpioteMode.GPIOTE_CONFIG_MODE_Event
        ∧ last_written (run P s0 cfg calls).ops (run P s0 cfg calls).tssp_en_pin ≠
            some ENABLE) := by
  have hinit : (tssp_detect_init P s0 cfg).gpiote_config.mode =
        GpioteMode.GPIOTE_CONFIG_MODE_Event ∨
      last_written (tssp_detect_init P s0 cfg).ops (tssp_detect_init P s0 cfg).tssp_en_pin =
        some ENABLE → detection_required (tssp_detect_init P s0 cfg) := by
    obtain ⟨h1, h2, h3⟩ := init_fields P s0 cfg
    intro hen
    exfalso
    rcases hen with hm | hl
    · rw [h1, hmode] at hm
      revert hm
      decide
    · rw [h2, h3] at hl
      exact hpin _ hl
  have hall := foldl_invariant calls (tssp_detect_init P s0 cfg) hinit
  refine ⟨hall, ?_, ?_⟩
  · intro hen
    exact hall (Or.inl hen.1)
  · intro hno
    constructor
    · intro hm
      exact hno (hall (Or.inl hm))
    · intro hl
      exact hno (hall (Or.inr hl))

/-- Witness of `input_enabled_only_if_required`: reset, `tssp_detect_init` with
both handlers, then window detection, pulse detection and both stops. -/
theorem input_enabled_only_if_required_witness :
    ¬ detection_required (run demo_params reset_state demo_config
        [Call.window_detect, Call.pulse_detect, Call.pulse_stop, Call.window_stop])
    ∧ (run demo_params reset_state demo_config
        [Call.window_detect, Call.pulse_detect, Call.pulse_stop,
          Call.window_stop]).gpiote_config.mode ≠ GpioteMode.GPIOTE_CONFIG_MODE_Event :=
  have hno : ¬ detection_required (run demo_params reset_state demo_config
      [Call.window_detect, Call.pulse_detect, Call.pulse_stop, Call.window_stop]) := by
    unfold detection_required
    decide
  ⟨hno,
   ((input_enabled_only_if_required demo_params reset_state demo_config
      [Call.window_detect, Call.pulse_detect, Call.pulse_stop, Call.window_stop] rfl
      (fun _ => by simp [last_written, reset_state])).2.2 hno).1⟩

/-- C19 (counterexample): after reset, `tssp_detect_init` with both handlers and
`tssp_detect_window_detect`, window detection is required and the channel is in
Event mode, but the enable pin has never been written `ENABLE`: the only
operation on it is its configuration as an output with level `DISABLE`. The
input is not enabled although a detection is required. -/
theorem window_detect_leaves_pin_disabled :
    demo_window.is_window_detect_req = true
    ∧ demo_window.gpiote_config.mode = GpioteMode.GPIOTE_CONFIG_MODE_Event
    ∧ last_written demo_window.ops demo_window.tssp_en_pin = none
    ∧ ¬ (input_enabled demo_window ↔ detection_required demo_window) := by
  refine ⟨by decide, by decide, by decide, ?_⟩
  intro h
  have hen := h.mpr (Or.inr (by decide))
  have hl := hen.2
  revert hl
  decide

theorem ppi_channel_set_append_none (ops l : List Op) (ch : PpiChannel)
    (h : l.filterMap (chen_write ch) = []) :
    ppi_channel_set (ops ++ l) ch = ppi_channel_set ops ch := by
  simp [ppi_channel_set, List.filterMap_append, h]

theorem ppi_channel_set_append_some (ops l : List Op) (ch : PpiChannel) (v : Bool)
    (pre : List Bool) (h : l.filterMap (chen_write ch) = pre ++ [v]) :
    ppi_channel_set (ops ++ l) ch = v := by
  cases v <;> simp [ppi_channel_set, List.filterMap_append, h, ← List.append_assoc]

theorem window_int_set_append_none (ops l : List Op)
    (h : l.filterMap window_int_write = []) :
    window_int_set (ops ++ l) = window_int_set ops := by
  simp [window_int_set, List.filterMap_append, h]

theorem window_int_set_append_some (ops l : List Op) (v : Bool)
    (pre : List Bool) (h : l.filterMap window_int_write = pre ++ [v]) :
    window_int_set (ops ++ l) = v := by
  cases v <;> simp [window_int_set, List.filterMap_append, h, ← List.append_assoc]

/-- The state after `tssp_detect_init` with both handlers registered followed by
`tssp_detect_window_detect`. -/
theorem run_window_detect (P : Params) (s0 : State) (cfg : tssp_detect_config_t)
    (hm : cfg.tssp_missed_handler ≠ 0) (hd : cfg.tssp_detect_handler ≠ 0) :
    (run P s0 cfg [Call.window_detect]).ops = s0.ops ++ init_window_detect_ops P cfg
    ∧ (run P s0 cfg [Call.window_detect]).missed_handler = cfg.tssp_missed_handler
    ∧ (run P s0 cfg [Call.window_detect]).detect_handler = cfg.tssp_detect_handler
    ∧ (run P s0 cfg [Call.window_detect]).tssp_en_pin = cfg.rx_en_pin := by
  simp [run, step, tssp_detect_init, init_window, init_pulse, hm, hd, tssp_detect_window_detect,
    init_window_detect_ops]

/-- The handler of the software interrupt disables the PPI channel of the
software interrupt and calls the detection handler with the counter value it
reads; it does not call the missed-window handler. -/
theorem SWI0_IRQHandler_ops (P : Params) (s : State) (t : Nat) :
    (SWI0_IRQHandler P s t).ops =
      s.ops ++ (if P.ISR_MANAGER = 0 then [Op.egu_events_triggered_clear] else []) ++
        [Op.ppi_chenclr_or PpiChannel.PPI_CHANNEL_USED_EGU,
         Op.detect_handler_call s.detect_handler t] :=
  rfl

/-- The handler of the RTC interrupt, run for the compare event of the window
channel alone, calls the missed-window handler once and then clears the
counter; it writes neither `INTENCLR` nor `CHENCLR`. -/
theorem RTC0_IRQHandler_window (P : Params) (s : State) :
    (RTC0_IRQHandler P s 0 0 1).ops =
      s.ops ++
        (if P.ISR_MANAGER = 0 then [Op.rtc_events_compare_clear WINDOW_RTC_CHANNEL] else []) ++
        [Op.missed_handler_call s.missed_handler, Op.rtc_tasks_clear] := by
  simp [RTC0_IRQHandler, rtc_event]

/-- C20 (amended): after `tssp_detect_init` with both handlers registered
followed by `tssp_detect_window_detect`, the operations performed are those of
`init_window_detect_ops`: the interrupt of the window compare event and the
link from the edge event to the clearing of the counter are switched on, and
the link from the edge event to the software interrupt is as it was before the
two calls; it is `tssp_detect_pulse_detect` that switches it on. After that
call, the handler of the software interrupt, run when the counter reads `t`,
switches that link off and calls the detection handler with `t`, and does not
call the missed-window handler. The handler of the RTC interrupt, run for the
compare event of the window channel alone, calls the missed-window handler
once, then clears the counter, and calls no detection handler; it writes
neither `INTENCLR` nor `CHENCLR`, so the interrupt of the window compare event
and the link from the edge event to the clearing of the counter stay switched
on. -/
theorem window_detect_handlers (P : Params) (s0 : State) (cfg : tssp_detect_config_t) (t : Nat)
    (hm : cfg.tssp_missed_handler ≠ 0) (hd : cfg.tssp_detect_handler ≠ 0) :
    (run P s0 cfg [Call.window_detect]).ops = s0.ops ++ init_window_detect_ops P cfg
    ∧ window_int_set (run P s0 cfg [Call.window_detect]).ops = true
    ∧ ppi_channel_set (run P s0 cfg [Call.window_detect]).ops
        PpiChannel.PPI_CHANNEL_USED_RTC = true
    ∧ ppi_channel_set (run P s0 cfg [Call.window_detect]).ops PpiChannel.PPI_CHANNEL_USED_EGU =
        ppi_channel_set s0.ops PpiChannel.PPI_CHANNEL_USED_EGU
    ∧ ppi_channel_set (run P s0 cfg [Call.window_detect, Call.pulse_detect]).ops
        PpiChannel.PPI_CHANNEL_USED_EGU = true
    ∧ (SWI0_IRQHandler P (run P s0 cfg [Call.window_detect, Call.pulse_detect]) t).ops =
        (run P s0 cfg [Call.window_detect, Call.pulse_detect]).ops ++
          (if P.ISR_MANAGER = 0 then [Op.egu_events_triggered_clear] else []) ++
          [Op.ppi_chenclr_or PpiChannel.PPI_CHANNEL_USED_EGU,
           Op.detect_handler_call cfg.tssp_detect_handler t]
    ∧ ppi_channel_set
        (SWI0_IRQHandler P (run P s0 cfg [Call.window_detect, Call.pulse_detect]) t).ops
        PpiChannel.PPI_CHANNEL_USED_EGU = false
    ∧ (RTC0_IRQHandler P (run P s0 cfg [Call.window_detect]) 0 0 1).ops =
        (run P s0 cfg [Call.window_detect]).ops ++
          (if P.ISR_MANAGER = 0 then [Op.rtc_events_compare_clear WINDOW_RTC_CHANNEL] else []) ++
          [Op.missed_handler_call cfg.tssp_missed_handler, Op.rtc_tasks_clear]
    ∧ window_int_set (RTC0_IRQHandler P (run P s0 cfg [Call.window_detect]) 0 0 1).ops = true
    ∧ ppi_channel_set (RTC0_IRQHandler P (run P s0 cfg [Call.window_detect]) 0 0 1).ops
        PpiChannel.PPI_CHANNEL_USED_RTC = true := by
  obtain ⟨hops, hmh, hdh, _⟩ := run_window_detect P s0 cfg hm hd
  have hw : window_int_set (run P s0 cfg [Call.window_detect]).ops = true := by
    rw [hops]
    exact window_int_set_append_some _ _ true [true] rfl
  have hr : ppi_channel_set (run P s0 cfg [Call.window_detect]).ops
      PpiChannel.PPI_CHANNEL_USED_RTC = true := by
    rw [hops]
    exact ppi_channel_set_append_some _ _ _ true [] rfl
  have hpd : run P s0 cfg [Call.window_detect, Call.pulse_detect] =
      tssp_detect_pulse_detect (run P s0 cfg [Call.window_detect]) := rfl
  have hpdh : (run P s0 cfg [Call.window_detect, Call.pulse_detect]).detect_handler =
      cfg.tssp_detect_handler := by
    rw [hpd]
    exact hdh
  have hrtc := RTC0_IRQHandler_window P (run P s0 cfg [Call.window_detect])
  rw [hmh] at hrtc
  have hswi := SWI0_IRQHandler_ops P (run P s0 cfg [Call.window_detect, Call.pulse_detect]) t
  rw [hpdh] at hswi
  refine ⟨hops, hw, hr, ?_, ?_, hswi, ?_, hrtc, ?_, ?_⟩
  · rw [hops]
    exact ppi_channel_set_append_none _ _ _ rfl
  · rw [hpd]
    exact ppi_channel_set_append_some _ _ _ true [] rfl
  · rw [hswi, List.append_assoc]
    apply ppi_channel_set_append_some _ _ _ false []
    split_ifs <;> rfl
  · rw [hrtc, List.append_assoc, window_int_set_append_none _ _ (by split_ifs <;> rfl)]
    exact hw
  · rw [hrtc, List.append_assoc, ppi_channel_set_append_none _ _ _ (by split_ifs <;> rfl)]
    exact hr

/-- Witness of `window_detect_handlers`: reset, `tssp_detect_init` with both
handlers and `tssp_detect_window_detect`; the software interrupt runs when the
counter reads 7. -/
theorem window_detect_handlers_witness :
    demo_window.ops = init_window_detect_ops demo_params demo_config
    ∧ ppi_channel_set demo_window.ops PpiChannel.PPI_CHANNEL_USED_EGU = false
    ∧ (RTC0_IRQHandler demo_params demo_window 0 0 1).ops =
        demo_window.ops ++
          [Op.rtc_events_compare_clear WINDOW_RTC_CHANNEL, Op.missed_handler_call 1,
           Op.rtc_tasks_clear] :=
  have h := window_detect_handlers demo_params reset_state demo_config 7 (by decide) (by decide)
  ⟨h.1, h.2.2.2.1, h.2.2.2.2.2.2.2.1⟩

/-- C20 (counterexample): after reset, `tssp_detect_init` with both handlers and
`tssp_detect_window_detect`, the link from the edge event to the clearing of the
counter has been switched on, and the link from the edge event to the software
interrupt, whose handler is the one that calls the detection handler, has not:
no operation performed is a statement on `CHENSET` for that channel. The
enable pin of the receiver has not been written `ENABLE` either. -/
theorem window_detect_leaves_detect_link_off :
    demo_window.detect_handler = 2
    ∧ ppi_channel_set demo_window.ops PpiChannel.PPI_CHANNEL_USED_RTC = true
    ∧ ppi_channel_set demo_window.ops PpiChannel.PPI_CHANNEL_USED_EGU = false
    ∧ Op.ppi_chenset_or PpiChannel.PPI_CHANNEL_USED_EGU ∉ demo_window.ops
    ∧ Op.hal_gpio_pin_write demo_window.tssp_en_pin ENABLE ∉ demo_window.ops
    ∧ ∀ t, Op.detect_handler_call 2 t ∉ demo_window.ops := by
  refine ⟨by decide, by decide, by decide, by decide, by decide, ?_⟩
  intro t h
  have e : demo_window.ops = init_window_detect_ops demo_params demo_config := by decide
  rw [e] at h
  simp [init_window_detect_ops] at h

end TsspDetect
